import Mathlib

/-!
# yasm-nextgen: assembler driver and COFF relocation output

A shallow embedding of

* `Assembler::Impl::Assemble` and `Assembler::Output` (lib/yasmx/Assembler.cpp),
* the object-format module declarations (modules/objfmts/elf/ElfObject.h,
  modules/objfmts/win32/Win32Object.h),
* `CoffOutput::ConvertValueToBytes`, `CoffOutput::OutputSection`,
  `CoffOutput::CountSymbols`, `CoffOutput::OutputSymbolTable` and the section
  numbering loop and file header of `CoffObject::Output`
  (modules/objfmts/coff/CoffOutput.cpp),
* the mode directives, `setParser`, `setMachine`, `setVar` and `getFill` of
  `X86Arch` (modules/arch/x86/X86Arch.cpp), with the machine selection of
  `Assembler::Impl` (lib/yasmx/Assembler.cpp),
* the inline members of `Symbol` (include/yasmx/Symbol.h),
* `BinSymbol::getValue` and `objfmt::BinSimplify`
  (modules/objfmts/bin/BinSymbol.cpp, BinSection.h),

followed by the properties established about them.
IntNum values are `Int`, `unsigned long` offsets and addresses are `Nat`.
-/

namespace Yasm

/-! ## Object-format modules (ElfObject.h, Win32Object.h) -/

/-- The object-format classes declared in ElfObject.h and Win32Object.h. -/
inductive ObjFmtModule where
  | ElfObject
  | Elf32Object
  | Elf64Object
  | Elfx32Object
  | Win32Object
  deriving DecidableEq, Repr

/-- The static `getKeyword()` of each object-format class. -/
def ObjFmtModule.getKeyword : ObjFmtModule → String
  | .ElfObject => "elf"
  | .Elf32Object => "elf32"
  | .Elf64Object => "elf64"
  | .Elfx32Object => "elfx32"
  | .Win32Object => "win32"

/-- The static `ElfObject::getExtension()`. -/
def ElfObject_getExtension : String := ".o"

/-- The static `getExtension()` of each object-format class; the three ELF
subclasses forward to `ElfObject::getExtension()`. -/
def ObjFmtModule.getExtension : ObjFmtModule → String
  | .ElfObject => ElfObject_getExtension
  | .Elf32Object => ElfObject_getExtension
  | .Elf64Object => ElfObject_getExtension
  | .Elfx32Object => ElfObject_getExtension
  | .Win32Object => ".obj"

/-- The static `getDefaultX86ModeBits()` of each object-format class. -/
def ObjFmtModule.getDefaultX86ModeBits : ObjFmtModule → Nat
  | .ElfObject => 0
  | .Elf32Object => 32
  | .Elf64Object => 64
  | .Elfx32Object => 64
  | .Win32Object => 32

/-! ## Assembler driver (lib/yasmx/Assembler.cpp) -/

/-- The character `in_filename[0]` of a `StringRef` built from a C string:
the first character, or the terminating NUL when the string is empty. -/
def firstChar (s : String) : Char := s.data.headD (Char.ofNat 0)

/-- Object filename selection, Assembler.cpp lines 289-310.
`getBasename` is `llvm::sys::Path::getBasename` (LLVM, outside this repository)
and `ext` is `m_objfmt_module->getExtension()`.  The result is the value of
`m_obj_filename` after the block. -/
def Assemble_objFilename (getBasename : String → String) (ext : String)
    (m_obj_filename in_filename : String) : String :=
  if m_obj_filename = "" then
    if firstChar in_filename = Char.ofNat 0 then
      -- Default to yasm.out if no obj filename specified
      "yasm.out"
    else
      -- replace (or add) extension to base filename
      let base_filename := getBasename in_filename
      if base_filename = "" then
        "yasm.out"
      else
        let obj := base_filename ++ ext
        if obj = in_filename then "yasm.out" else obj
  else
    m_obj_filename

/-- The method `llvm::sys::Path::getBasename` (LLVM, outside the repository),
which instantiates the `getBasename` parameter: the last component of the
path, the part after the last slash, without the suffix that starts at its
last dot. -/
def pathBasename (path : String) : String :=
  let file := (path.data.reverse.takeWhile (fun c => c != '/')).reverse
  if '.' ∈ file then
    String.mk ((file.reverse.dropWhile (fun c => c != '.')).drop 1).reverse
  else
    String.mk file

/-- Modelled from the spec: yasmx/Diagnostic.h is not in the source tree.
"Errors attach to a source location and are routed to a diagnostics sink that
counts errors and warnings." -/
structure Diagnostic where
  numErrors : Nat
  numWarnings : Nat
  deriving DecidableEq, Repr

/-- Modelled from the spec: `Diagnostic::hasErrorOccurred()` of the missing
yasmx/Diagnostic.h; "each pipeline phase checks the error count after
completion; any error aborts subsequent phases". -/
def Diagnostic.hasErrorOccurred (d : Diagnostic) : Bool := decide (0 < d.numErrors)

/-- Modelled from the spec: yasmx/Errwarns.h is not in the source tree; the
error and warning counters of the `Errwarns` member `m_errwarns`. -/
structure Errwarns where
  ecount : Nat
  wcount : Nat
  deriving DecidableEq, Repr

/-- Modelled from the spec: `Errwarns::getNumErrors(warning_as_error)` of the
missing yasmx/Errwarns.h; "warnings are recoverable unless warning_error is
set, in which case the end-of-phase check treats warnings as errors". -/
def Errwarns.getNumErrors (e : Errwarns) (warning_as_error : Bool) : Nat :=
  if warning_as_error then e.ecount + e.wcount else e.ecount

/-- The two sinks the driver consults: the `diags` argument and the member
`m_errwarns`. -/
structure Sinks where
  diags : Diagnostic
  m_errwarns : Errwarns
  deriving DecidableEq, Repr

/-- The pipeline phases called by `Assemble` and `Output`. -/
inductive Phase where
  | Parse
  | Finalize
  | Optimize
  | Generate
  | Output
  deriving DecidableEq, Repr

/-- Outcome of a driver call: the returned boolean, the sinks afterwards and
the phases that were invoked, in invocation order. -/
structure DriverResult where
  ok : Bool
  sinks : Sinks
  trace : List Phase
  deriving DecidableEq, Repr

/-- The phase pipeline of `Assembler::Impl::Assemble`, Assembler.cpp lines
382-413.  `run p` is the effect of phase `p` on the sinks (the phase bodies are
outside this file's scope); the `Dump` calls do not touch the sinks. -/
def Assemble_phases (run : Phase → Sinks → Sinks) (warning_error : Bool)
    (s0 : Sinks) : DriverResult :=
  -- Parse!
  let s1 := run .Parse s0
  if s1.diags.hasErrorOccurred then ⟨false, s1, [.Parse]⟩
  else if s1.m_errwarns.getNumErrors warning_error > 0 then ⟨false, s1, [.Parse]⟩
  else
    -- Finalize parse
    let s2 := run .Finalize s1
    if s2.diags.hasErrorOccurred then ⟨false, s2, [.Parse, .Finalize]⟩
    else
      -- Optimize
      let s3 := run .Optimize s2
      if s3.diags.hasErrorOccurred then ⟨false, s3, [.Parse, .Finalize, .Optimize]⟩
      else
        -- generate any debugging information
        let s4 := run .Generate s3
        if s4.m_errwarns.getNumErrors warning_error > 0 then
          ⟨false, s4, [.Parse, .Finalize, .Optimize, .Generate]⟩
        else
          ⟨true, s4, [.Parse, .Finalize, .Optimize, .Generate]⟩

/-- The body of `Assembler::Output`, Assembler.cpp lines 427-448. -/
def Assembler_Output (run : Phase → Sinks → Sinks) (warning_error : Bool)
    (s0 : Sinks) : DriverResult :=
  -- Write the object file
  let s1 := run .Output s0
  if s1.diags.hasErrorOccurred then ⟨false, s1, [.Output]⟩
  else if s1.m_errwarns.getNumErrors warning_error > 0 then ⟨false, s1, [.Output]⟩
  else ⟨true, s1, [.Output]⟩

/-- A phase behaviour that reports one error to `diags` in phase `p` and does
nothing in the other phases. -/
def errorIn (p : Phase) : Phase → Sinks → Sinks :=
  fun q s => if q = p then { s with diags := { s.diags with numErrors := s.diags.numErrors + 1 } } else s

/-- Empty sinks: nothing reported yet. -/
def noDiagnostics : Sinks := ⟨⟨0, 0⟩, ⟨0, 0⟩⟩

/-! ## COFF output (modules/objfmts/coff/CoffOutput.cpp) -/

/-- Modelled from the spec: yasmx/Bytecode.h is not in the source tree.  The two
observations of a bytecode the relocation code uses: the container (section)
it lives in, `getContainer()`, and its `offset` within that container. -/
structure Bytecode where
  container : Nat
  offset : Nat
  deriving DecidableEq, Repr

/-- Modelled from the spec: yasmx/Location.h is not in the source tree.
"A (bytecode, offset) pair denoting a byte position within a section." -/
structure Location where
  bc : Bytecode
  off : Nat
  deriving DecidableEq, Repr

/-- Modelled from the spec: `Location::getOffset()`, the byte position of the
location within its section. -/
def Location.getOffset (loc : Location) : Nat := loc.bc.offset + loc.off

/-- Modelled from the spec: `CalcDist` of the missing yasmx/Location_util.h, on
resolved offsets.  Distance law: for two locations in the same container the
distance is the resolved offset of the second minus that of the first; there
is no distance across containers. -/
def CalcDist (loc1 loc2 : Location) : Option Int :=
  if loc1.bc.container = loc2.bc.container then
    some ((loc2.getOffset : Int) - (loc1.getOffset : Int))
  else
    none

/-- The fields of a symbol the COFF writer reads.  `m_visibility` is the
`Symbol::Visibility` bit set of Symbol.h; `label` is what `getLabel` yields
(`none` when it returns false); `commonSize` is the COMMON size expression
after `SimplifyCalcDist`, `none` when it is not an integer. -/
structure Symbol where
  m_name : String
  m_visibility : Nat
  label : Option Location
  commonSize : Option Int
  deriving DecidableEq, Repr

/-- The `Symbol::Visibility` bit COMMON (Symbol.h: `1 << 1`). -/
def Symbol.COMMON : Nat := 2

/-- The `Symbol::Visibility` bit EXTERN (Symbol.h: `1 << 2`). -/
def Symbol.EXTERN : Nat := 4

/-- The `CoffReloc::Type` values named in CoffOutput.cpp. -/
inductive RelocType where
  | ABSOLUTE
  | I386_ADDR32
  | I386_ADDR32NB
  | I386_SECTION
  | I386_SECREL
  | I386_REL32
  | AMD64_ADDR64
  | AMD64_ADDR32
  | AMD64_ADDR32NB
  | AMD64_REL32
  | AMD64_REL32_1
  | AMD64_REL32_2
  | AMD64_REL32_3
  | AMD64_REL32_4
  | AMD64_REL32_5
  | AMD64_SECTION
  | AMD64_SECREL
  deriving DecidableEq, Repr

/-- The two relocation classes constructed at lines 286-289. -/
inductive RelocClass where
  | Coff32Reloc
  | Coff64Reloc
  deriving DecidableEq, Repr

/-- A COFF relocation: `new Coff32Reloc(addr, sym, rtype)` or
`new Coff64Reloc(addr, sym, rtype)`. -/
structure CoffReloc where
  cls : RelocClass
  addr : Int
  sym : Symbol
  rtype : RelocType
  deriving DecidableEq, Repr

/-- The machines `CoffOutput::ConvertValueToBytes` recognises. -/
inductive Machine where
  | MACHINE_I386
  | MACHINE_AMD64
  deriving DecidableEq, Repr

/-- The members of `CoffObject` read by CoffOutput.cpp (CoffObject.h is not in
the source tree): `getMachine()`, `m_set_vma`, `isWin32()` and `isWin64()`. -/
structure CoffObject where
  m_machine : Machine
  m_set_vma : Bool
  m_win32 : Bool
  m_win64 : Bool
  deriving DecidableEq, Repr

/-- The accessor `CoffObject::isWin32()`. -/
def CoffObject.isWin32 (o : CoffObject) : Bool := o.m_win32

/-- The accessor `CoffObject::isWin64()`. -/
def CoffObject.isWin64 (o : CoffObject) : Bool := o.m_win64

/-- Modelled from the spec: the standard COFF variant of the missing
CoffObject.h; "standard-COFF ... fold the referent section's VMA into the
addend", so section VMAs are set, and it is neither Win32 nor Win64. -/
def standardCoff : CoffObject := ⟨.MACHINE_I386, true, false, false⟩

/-- Modelled from the spec: the Win32 variant of the missing CoffObject.h;
"Win32/Win64 keep the addend relative to the section start and let the linker
add VMA", so section VMAs are not set. -/
def win32Coff : CoffObject := ⟨.MACHINE_I386, false, true, false⟩

/-- Modelled from the spec: the Win64 variant of the missing CoffObject.h, a
Win32 object for machine AMD64 ("COMMON-symbol sizes are folded into the
addend in standard COFF but not in Win32/64"). -/
def win64Coff : CoffObject := ⟨.MACHINE_AMD64, false, true, true⟩

/-- The members of `CoffSection` (CoffSection.h is not in the source tree) that
`ConvertValueToBytes` and the numbering loop of `CoffObject::Output` use, and
the flag word `m_flags`, which only the branch of `OutputSection` that is not
compiled (lines 369-381) would write. -/
structure CoffSection where
  m_sym : Symbol
  m_nobase : Bool
  m_isdebug : Bool
  m_scnum : Nat
  m_flags : Nat
  deriving DecidableEq, Repr

/-- A section as seen by the COFF writer: `getVMA()`, `getLMA()`, the final
size `bytecodes_last().getNextOffset()`, the relocation list `getRelocs()` and
the associated `CoffSection`. -/
structure Section where
  vma : Nat
  lma : Nat
  nextOffset : Nat
  relocs : List CoffReloc
  coffsect : CoffSection
  deriving DecidableEq, Repr

/-- `Section::AddReloc` on the section with container id `c`: the relocation
is appended to that section's list, every other section is untouched. -/
def AddReloc (sects : Nat → Section) (c : Nat) (reloc : CoffReloc) : Nat → Section :=
  fun i => if i = c then { sects i with relocs := (sects i).relocs ++ [reloc] } else sects i

/-- The observations of a `Value` (yasmx/Value.h is not in the source tree)
that `ConvertValueToBytes` makes: the absolute part folded to an IntNum,
`getRelative()`, `getWRT()`, `hasSubRelative()`, `CalcPCRelSub(out, loc)` (the
delta when it returns true), `getRShift()`, `isSegOf()`,
`isSectionRelative()`, `getSize()` and `getNextInsn()`. -/
structure Value where
  abs : Int
  relative : Option Symbol
  wrt : Option Symbol
  subRelative : Bool
  calcPCRelSub : Location → Option Int
  rshift : Nat
  segOf : Bool
  sectionRelative : Bool
  size : Nat
  nextInsn : Nat

/-- The accessor `Value::isRelative()`. -/
def Value.isRelative (v : Value) : Bool := v.relative.isSome

/-- The accessor `Value::isWRT()`. -/
def Value.isWRT (v : Value) : Bool := v.wrt.isSome

/-- Modelled from the spec: `Value::OutputBasic` of the missing yasmx/Value.h.
"If no relative part, fold the absolute Expr to an IntNum and ask the arch to
serialise; return success.  Otherwise return needs relocation."  The first
component is the folded absolute part stored through the out-parameter. -/
def Value.OutputBasic (v : Value) : Int × Bool := (v.abs, !v.isRelative)

/-- The errors thrown by `ConvertValueToBytes`, with their messages. -/
inductive CoffError where
  | TooComplexError (msg : String)
  | ValueError (msg : String)
  | TypeError (msg : String)
  deriving DecidableEq, Repr

/-- What is handed to `Arch::ToBytes`: the integer and the size in bits. -/
structure Emitted where
  intn : Int
  size : Nat
  deriving DecidableEq, Repr

/-- The guard of lines 118-121: "We can't handle these types of values". -/
def tooComplexShape (value : Value) : Bool :=
  decide (value.rshift > 0)
  || (value.segOf && (value.isWRT || value.subRelative))
  || (value.sectionRelative && (value.isWRT || value.subRelative))

/-- Lines 134-149: when there is a WRT symbol, both symbols must be labels with
a computable distance; the relocation symbol becomes `wrt` and `dist` is the
distance from the WRT label to the referenced label.  Returns `(sym, dist)`. -/
def wrtSwap (sym : Symbol) (wrt : Option Symbol) : Except CoffError (Symbol × Int) :=
  match wrt with
  | none => .ok (sym, 0)
  | some w =>
    match sym.label, w.label with
    | some rel_loc, some wrt_loc =>
      match CalcDist wrt_loc rel_loc with
      | some dist => .ok (w, dist)
      | none => .error (.TooComplexError "coff: cannot wrt across sections")
    | _, _ => .error (.TooComplexError "coff: wrt expression too complex")

/-- Lines 151-184: the symbol the relocation is generated against and the
initial value of `intn`.  Returns `(sym, intn)`. -/
def relocTarget (objfmt : CoffObject) (sects : Nat → Section) (sym : Symbol) :
    Except CoffError (Symbol × Int) :=
  let vis := sym.m_visibility
  if vis &&& Symbol.COMMON ≠ 0 then
    -- In standard COFF, COMMON symbols have their length added in
    if !objfmt.isWin32 then
      match sym.commonSize with
      | none => .error (.TooComplexError "coff: common size too complex")
      | some common_size =>
        if common_size < 0 then .error (.ValueError "coff: common size is negative")
        else .ok (sym, 0 + common_size)
    else .ok (sym, 0)
  else if vis &&& Symbol.EXTERN = 0 ∧ !objfmt.isWin64 then
    -- Local symbols need relocation to their section's start
    match sym.label with
    | some symloc =>
      let sym_sect := sects symloc.bc.container
      .ok (sym_sect.coffsect.m_sym, (symloc.getOffset : Int) + (sym_sect.vma : Int))
    | none => .ok (sym, 0)
  else .ok (sym, 0)

/-- Lines 186-210: PC-relative detection and adjustment of `intn`.  Returns
`(pc_rel, intn)`. -/
def pcRelAdjust (objfmt : CoffObject) (value : Value) (loc : Location) (intn : Int) :
    Except CoffError (Bool × Int) :=
  match value.calcPCRelSub loc with
  | some intn2 =>
    -- Create PC-relative relocation type and fix up absolute portion.
    let intn := intn + intn2
    if objfmt.isWin64 then .ok (true, intn + (value.nextInsn : Int))
    else if objfmt.isWin32 then .ok (true, intn + ((value.size / 8 : Nat) : Int))
    else .ok (true, intn - (loc.getOffset : Int))
  | none =>
    if value.subRelative then .error (.TooComplexError "elf: relocation too complex")
    else .ok (false, intn)

/-- Lines 222-282: the relocation type, from the machine, `pc_rel`, the Value's
flags, size and next_insn, and `m_coffsect->m_nobase`. -/
def deriveRelocType (machine : Machine) (pc_rel : Bool) (value : Value) (m_nobase : Bool) :
    Except CoffError RelocType :=
  match machine with
  | .MACHINE_I386 =>
    if pc_rel then
      if value.size = 32 then .ok .I386_REL32
      else .error (.TypeError "coff: invalid relocation size")
    else if value.segOf then .ok .I386_SECTION
    else if value.sectionRelative then .ok .I386_SECREL
    else if m_nobase then .ok .I386_ADDR32NB
    else .ok .I386_ADDR32
  | .MACHINE_AMD64 =>
    if pc_rel then
      if value.size ≠ 32 then .error (.TypeError "coff: invalid relocation size")
      else
        match value.nextInsn with
        | 0 => .ok .AMD64_REL32
        | 1 => .ok .AMD64_REL32_1
        | 2 => .ok .AMD64_REL32_2
        | 3 => .ok .AMD64_REL32_3
        | 4 => .ok .AMD64_REL32_4
        | 5 => .ok .AMD64_REL32_5
        | _ => .error (.TypeError "coff: invalid relocation size")
    else if value.segOf then .ok .AMD64_SECTION
    else if value.sectionRelative then .ok .AMD64_SECREL
    else
      let size := value.size
      if size = 32 then
        if m_nobase then .ok .AMD64_ADDR32NB else .ok .AMD64_ADDR32
      else if size = 64 then .ok .AMD64_ADDR64
      else .error (.TypeError "coff: invalid relocation size")

/-- Lines 284-291: the relocation object for the machine. -/
def mkReloc (machine : Machine) (addr : Int) (sym : Symbol) (rtype : RelocType) : CoffReloc :=
  match machine with
  | .MACHINE_I386 => ⟨.Coff32Reloc, addr, sym, rtype⟩
  | .MACHINE_AMD64 => ⟨.Coff64Reloc, addr, sym, rtype⟩

/-- Lines 134-291, the body of `if (value.isRelative())` up to the construction
of the relocation, for the relative symbol `sym0`.  Returns the relocation,
`intn` and `dist`; every `throw` is an `error`. -/
def relocFor (objfmt : CoffObject) (m_coffsect : CoffSection) (sects : Nat → Section)
    (value : Value) (loc : Location) (sym0 : Symbol) : Except CoffError (CoffReloc × Int × Int) :=
  match wrtSwap sym0 value.wrt with
  | .error e => .error e
  | .ok (sym1, dist) =>
    match relocTarget objfmt sects sym1 with
    | .error e => .error e
    | .ok (sym, intn0) =>
      match pcRelAdjust objfmt value loc intn0 with
      | .error e => .error e
      | .ok (pc_rel, intn1) =>
        -- Zero value for segment or section-relative generation.
        let intn := if value.segOf || value.sectionRelative then 0 else intn1
        -- Generate reloc
        let addr : Int := (loc.getOffset : Int) + ((sects loc.bc.container).vma : Int)
        match deriveRelocType objfmt.m_machine pc_rel value m_coffsect.m_nobase with
        | .error e => .error e
        | .ok rtype => .ok (mkReloc objfmt.m_machine addr sym rtype, intn, dist)

/-- The function `CoffOutput::ConvertValueToBytes`, lines 111-299.  `sects` maps a
container id to its section; the result is the sections afterwards (with the
relocation added by `sect->AddReloc`) and either the thrown error or what is
passed to `ToBytes`. -/
def ConvertValueToBytes (objfmt : CoffObject) (m_coffsect : CoffSection)
    (sects : Nat → Section) (value : Value) (loc : Location) :
    (Nat → Section) × Except CoffError Emitted :=
  -- We can't handle these types of values
  if tooComplexShape value then
    (sects, .error (.TooComplexError "coff: relocation too complex"))
  else
    match value.OutputBasic with
    | (base, true) => (sects, .ok ⟨base, value.size⟩)
    | (base, false) =>
      match value.relative with
      | none => (sects, .ok ⟨0 + base + 0, value.size⟩)
      | some sym0 =>
        match relocFor objfmt m_coffsect sects value loc sym0 with
        | .error e => (sects, .error e)
        | .ok (reloc, intn, dist) =>
          (AddReloc sects loc.bc.container reloc, .ok ⟨intn + base + dist, value.size⟩)

/-- The section numbering loop of `CoffObject::Output`, lines 485-507, from the
running values of `scnum` (an `unsigned int`, 32 bits) and `addr` (an
`unsigned long`, 64 bits).  Returns the sections with `m_scnum`, LMA and VMA
assigned, and the final `scnum` and `addr`. -/
def numberSections (m_set_vma : Bool) : List Section → Nat → Nat → List Section × Nat × Nat
  | [], scnum, addr => ([], scnum, addr)
  | s :: rest, scnum, addr =>
    let coffsect := { s.coffsect with m_scnum := scnum }
    if coffsect.m_isdebug then
      let r := numberSections m_set_vma rest ((scnum + 1) % 2 ^ 32) addr
      ({ s with coffsect := coffsect, lma := 0, vma := 0 } :: r.1, r.2)
    else
      let r := numberSections m_set_vma rest ((scnum + 1) % 2 ^ 32)
        ((addr + s.nextOffset) % 2 ^ 64)
      ({ s with coffsect := coffsect, lma := addr, vma := if m_set_vma then addr else 0 } :: r.1,
        r.2)

/-- The sections of the object after the numbering loop (`scnum = 1`,
`addr = 0` initially). -/
def Output_numberSections (objfmt : CoffObject) (sections : List Section) : List Section :=
  (numberSections objfmt.m_set_vma sections 1 0).1

/-- A section with nothing in it, used for container ids outside the object. -/
def emptySection : Section := ⟨0, 0, 0, [], ⟨⟨"", 0, none, none⟩, false, false, 0, 0⟩⟩

/-- The container-id view of a section list. -/
def sectionMap (sections : List Section) : Nat → Section :=
  fun i => sections.getD i emptySection

/-! ## Example inputs -/

/-- Example: the section symbol of a `.text` section. -/
def exTextSym : Symbol := ⟨".text", 0, none, none⟩

/-- Example: the section symbol of a `.data` section. -/
def exDataSym : Symbol := ⟨".data", 0, none, none⟩

/-- Example: an object with a 16-byte `.text` (container 0) followed by an
8-byte `.data` (container 1), before section numbering. -/
def exSections : List Section :=
  [⟨0, 0, 16, [], ⟨exTextSym, false, false, 0, 0⟩⟩, ⟨0, 0, 8, [], ⟨exDataSym, false, false, 0, 0⟩⟩]

/-- Example: the `CoffSection` of the `.data` section being output. -/
def exDataCoffsect : CoffSection := ⟨exDataSym, false, false, 2, 0⟩

/-- Example: an EXTERN symbol. -/
def exExtern : Symbol := ⟨"foo", Symbol.EXTERN, none, none⟩

/-- Example: a local label at offset 4 of container 0. -/
def exLabel : Symbol := ⟨"lab", 0, some ⟨⟨0, 4⟩, 0⟩, none⟩

/-- Example: a local label at offset 12 of container 0. -/
def exLabel2 : Symbol := ⟨"lab2", 0, some ⟨⟨0, 10⟩, 2⟩, none⟩

/-- Example: a COMMON symbol of size 8. -/
def exCommon : Symbol := ⟨"buf", Symbol.COMMON, none, some 8⟩

/-- Example: a COMMON symbol whose size expression evaluates to -4. -/
def exCommonNeg : Symbol := ⟨"bad", Symbol.COMMON, none, some (-4)⟩

/-- Example: a plain `size`-bit reference to `rel` with absolute part 0: no WRT,
nothing subtractive, no shift, neither seg-of nor section-relative. -/
def exValue (size : Nat) (rel : Symbol) : Value :=
  ⟨0, some rel, none, false, fun _ => none, 0, false, false, size, 0⟩

/-- Example: a 32-bit reference to `rel` with a subtractive part that
`CalcPCRelSub` cannot fold into a PC-relative delta. -/
def exSubValue (rel : Symbol) : Value :=
  ⟨0, some rel, none, true, fun _ => none, 0, false, false, 32, 0⟩

/-- Example: a reference location at offset 4 of container 1. -/
def exLoc : Location := ⟨⟨1, 4⟩, 0⟩

/-! ## x86 architecture (modules/arch/x86/X86Arch.cpp) -/

/-- The parser selection stored in `X86Arch::m_parser`. -/
inductive X86Parser where
  | PARSER_NASM
  | PARSER_GAS
  | PARSER_UNKNOWN
  deriving DecidableEq, Repr

/-- The NOP policy stored in `X86Arch::m_nop`. -/
inductive NopFormat where
  | NOP_BASIC
  | NOP_INTEL
  | NOP_AMD
  deriving DecidableEq, Repr

/-- The state of an `X86Arch` object set by its constructor and mutated by
`setMachine`, `setParser`, `setVar` and the mode directives; `m_parser_kind`
is the member `m_parser`. -/
structure X86Arch where
  m_amd64_machine : Bool
  m_parser_kind : X86Parser
  m_mode_bits : Nat
  m_force_strict : Bool
  m_default_rel : Bool
  m_nop : NopFormat
  deriving DecidableEq, Repr

/-- The state established by the constructor `X86Arch::X86Arch`. -/
def X86Arch.init : X86Arch := ⟨false, .PARSER_UNKNOWN, 0, false, false, .NOP_BASIC⟩

/-- The errors thrown by the x86 architecture code, with their messages. -/
inductive X86Error where
  | ValueError (msg : String)
  | SyntaxError (msg : String)
  deriving DecidableEq, Repr

/-- Modelled from the spec: `String::NocaseEqual` of the missing
yasmx/Support/nocase.h; "case-insensitive keyword matching ... explicit ASCII
case-fold". -/
def NocaseEqual (a b : String) : Bool := a.toLower == b.toLower

/-- The function `X86Arch::setVar`, lines 201-219: the new state, the returned
flag (false when the variable is known) and the warning set, if any. -/
def X86Arch.setVar (a : X86Arch) (var : String) (val : Nat) : X86Arch × Bool × Option String :=
  if NocaseEqual var "mode_bits" then
    ({ a with m_mode_bits := val % 2 ^ 32 }, false, none)
  else if NocaseEqual var "force_strict" then
    ({ a with m_force_strict := decide (val ≠ 0) }, false, none)
  else if NocaseEqual var "default_rel" then
    if a.m_mode_bits ≠ 64 then
      (a, false, some "ignoring default rel in non-64-bit mode")
    else
      ({ a with m_default_rel := decide (val ≠ 0) }, false, none)
  else
    (a, true, none)

/-- Modelled from the spec: a term of the flattened postfix term vector of an
`Expr` (yasmx/Expr.h is not in the source tree): "leaves are IntNum, Symbol
reference, Location reference, Register reference, or Float", interior nodes
operators; symbols are referenced by handle. -/
inductive ExprTerm where
  | IntNum (i : Int)
  | Sym (handle : String)
  | Loc (loc : Location)
  | Other (code : Nat)
  deriving DecidableEq, Repr

/-- Modelled from the spec: an `Expr` as its "flattened postfix term vector". -/
structure Expr where
  terms : List ExprTerm
  deriving DecidableEq, Repr

/-- Modelled from the spec: `Expr::isIntNum()` with `getIntNum()`: the
expression is a single IntNum term. -/
def Expr.getIntNum? (e : Expr) : Option Int :=
  match e.terms with
  | [.IntNum i] => some i
  | _ => none

/-- The largest `unsigned long` (64-bit). -/
def ULONG_MAX : Nat := 2 ^ 64 - 1

/-- Modelled from the spec: `IntNum::getUInt()` of the missing yasmx/IntNum.h,
"`getUInt()` ... with saturation": negative values give 0, values above the
largest `unsigned long` give that largest value. -/
def IntNum_getUInt (i : Int) : Nat :=
  if i < 0 then 0 else if i.toNat > ULONG_MAX then ULONG_MAX else i.toNat

/-- Modelled from the spec: a name/value of a directive (yasmx/NameValue.h is
not in the source tree), by what `isExpr()` and `getExpr()` observe: either
an expression or something that is not one (a string). -/
inductive NameValue where
  | String (s : String)
  | Expr (e : Expr)
  deriving DecidableEq, Repr

/-- The function `X86Arch::DirBits`, lines 249-267, on the name/values of the
directive: the state afterwards and the thrown error, if any. -/
def X86Arch.DirBits (a : X86Arch) (namevals : List NameValue) :
    X86Arch × Except X86Error Unit :=
  match namevals with
  | .Expr e :: _ =>
    match e.getIntNum? with
    | some i =>
      let v := IntNum_getUInt i
      if v = 16 ∨ v = 32 ∨ v = 64 then
        ({ a with m_mode_bits := v }, .ok ())
      else
        (a, .error (.ValueError "invalid argument to [BITS]"))
    | none => (a, .error (.ValueError "invalid argument to [BITS]"))
  | _ => (a, .error (.ValueError "invalid argument to [BITS]"))

/-- The function `X86Arch::DirCode16`, lines 269-273. -/
def X86Arch.DirCode16 (a : X86Arch) (_namevals : List NameValue) :
    X86Arch × Except X86Error Unit :=
  ({ a with m_mode_bits := 16 }, .ok ())

/-- The function `X86Arch::DirCode32`, lines 275-279. -/
def X86Arch.DirCode32 (a : X86Arch) (_namevals : List NameValue) :
    X86Arch × Except X86Error Unit :=
  ({ a with m_mode_bits := 32 }, .ok ())

/-- The function `X86Arch::DirCode64`, lines 281-285. -/
def X86Arch.DirCode64 (a : X86Arch) (_namevals : List NameValue) :
    X86Arch × Except X86Error Unit :=
  ({ a with m_mode_bits := 64 }, .ok ())

/-- The x86 mode directives registered by `X86Arch::AddDirectives`. -/
inductive ModeDirective where
  | bits
  | code16
  | code32
  | code64
  deriving DecidableEq, Repr

/-- The handler bound to each mode directive. -/
def ModeDirective.run : ModeDirective → X86Arch → List NameValue → X86Arch × Except X86Error Unit
  | .bits => X86Arch.DirBits
  | .code16 => X86Arch.DirCode16
  | .code32 => X86Arch.DirCode32
  | .code64 => X86Arch.DirCode64

/-- The array `fill16_1[1]` of `X86Arch::getFill`. -/
def fill16_1 : List Nat :=
  [0x90]

/-- The array `fill16_2[2]` of `X86Arch::getFill`. -/
def fill16_2 : List Nat :=
  [0x89, 0xf6]

/-- The array `fill16_3[3]` of `X86Arch::getFill`. -/
def fill16_3 : List Nat :=
  [0x8d, 0x74, 0x00]

/-- The array `fill16_4[4]` of `X86Arch::getFill`. -/
def fill16_4 : List Nat :=
  [0x8d, 0xb4, 0x00, 0x00]

/-- The array `fill16_5[5]` of `X86Arch::getFill`. -/
def fill16_5 : List Nat :=
  [0x90, 0x8d, 0xb4, 0x00, 0x00]

/-- The array `fill16_6[6]` of `X86Arch::getFill`. -/
def fill16_6 : List Nat :=
  [0x89, 0xf6, 0x8d, 0xbd, 0x00, 0x00]

/-- The array `fill16_7[7]` of `X86Arch::getFill`. -/
def fill16_7 : List Nat :=
  [0x8d, 0x74, 0x00, 0x8d, 0xbd, 0x00, 0x00]

/-- The array `fill16_8[8]` of `X86Arch::getFill`. -/
def fill16_8 : List Nat :=
  [0x8d, 0xb4, 0x00, 0x00, 0x8d, 0xbd, 0x00, 0x00]

/-- The array `fill16_9[9]` of `X86Arch::getFill`. -/
def fill16_9 : List Nat :=
  [0xeb, 0x07, 0x90, 0x90, 0x90, 0x90, 0x90, 0x90,
   0x90]

/-- The array `fill16_10[10]` of `X86Arch::getFill`. -/
def fill16_10 : List Nat :=
  [0xeb, 0x08, 0x90, 0x90, 0x90, 0x90, 0x90, 0x90,
   0x90, 0x90]

/-- The array `fill16_11[11]` of `X86Arch::getFill`. -/
def fill16_11 : List Nat :=
  [0xeb, 0x09, 0x90, 0x90, 0x90, 0x90, 0x90, 0x90,
   0x90, 0x90, 0x90]

/-- The array `fill16_12[12]` of `X86Arch::getFill`. -/
def fill16_12 : List Nat :=
  [0xeb, 0x0a, 0x90, 0x90, 0x90, 0x90, 0x90, 0x90,
   0x90, 0x90, 0x90, 0x90]

/-- The array `fill16_13[13]` of `X86Arch::getFill`. -/
def fill16_13 : List Nat :=
  [0xeb, 0x0b, 0x90, 0x90, 0x90, 0x90, 0x90, 0x90,
   0x90, 0x90, 0x90, 0x90, 0x90]

/-- The array `fill16_14[14]` of `X86Arch::getFill`. -/
def fill16_14 : List Nat :=
  [0xeb, 0x0c, 0x90, 0x90, 0x90, 0x90, 0x90, 0x90,
   0x90, 0x90, 0x90, 0x90, 0x90, 0x90]

/-- The array `fill16_15[15]` of `X86Arch::getFill`. -/
def fill16_15 : List Nat :=
  [0xeb, 0x0d, 0x90, 0x90, 0x90, 0x90, 0x90, 0x90,
   0x90, 0x90, 0x90, 0x90, 0x90, 0x90, 0x90]

/-- The array `fill32_1[1]` of `X86Arch::getFill`. -/
def fill32_1 : List Nat :=
  [0x90]

/-- The array `fill32_2[2]` of `X86Arch::getFill`. -/
def fill32_2 : List Nat :=
  [0x66, 0x90]

/-- The array `fill32_3[3]` of `X86Arch::getFill`. -/
def fill32_3 : List Nat :=
  [0x8d, 0x76, 0x00]

/-- The array `fill32_4[4]` of `X86Arch::getFill`. -/
def fill32_4 : List Nat :=
  [0x8d, 0x74, 0x26, 0x00]

/-- The array `fill32_5[5]` of `X86Arch::getFill`. -/
def fill32_5 : List Nat :=
  [0x90, 0x8d, 0x74, 0x26, 0x00]

/-- The array `fill32_6[6]` of `X86Arch::getFill`. -/
def fill32_6 : List Nat :=
  [0x8d, 0xb6, 0x00, 0x00, 0x00, 0x00]

/-- The array `fill32_7[7]` of `X86Arch::getFill`. -/
def fill32_7 : List Nat :=
  [0x8d, 0xb4, 0x26, 0x00, 0x00, 0x00, 0x00]

/-- The array `fill32_8[8]` of `X86Arch::getFill`. -/
def fill32_8 : List Nat :=
  [0x90, 0x8d, 0xb4, 0x26, 0x00, 0x00, 0x00, 0x00]

/-- The array `fill32_9[9]` of `X86Arch::getFill`. -/
def fill32_9 : List Nat :=
  [0xeb, 0x07, 0x90, 0x90, 0x90, 0x90, 0x90, 0x90,
   0x90]

/-- The array `fill32_10[10]` of `X86Arch::getFill`. -/
def fill32_10 : List Nat :=
  [0xeb, 0x08, 0x90, 0x90, 0x90, 0x90, 0x90, 0x90,
   0x90, 0x90]

/-- The array `fill32_11[11]` of `X86Arch::getFill`. -/
def fill32_11 : List Nat :=
  [0xeb, 0x09, 0x90, 0x90, 0x90, 0x90, 0x90, 0x90,
   0x90, 0x90, 0x90]

/-- The array `fill32_12[12]` of `X86Arch::getFill`. -/
def fill32_12 : List Nat :=
  [0xeb, 0x0a, 0x90, 0x90, 0x90, 0x90, 0x90, 0x90,
   0x90, 0x90, 0x90, 0x90]

/-- The array `fill32_13[13]` of `X86Arch::getFill`. -/
def fill32_13 : List Nat :=
  [0xeb, 0x0b, 0x90, 0x90, 0x90, 0x90, 0x90, 0x90,
   0x90, 0x90, 0x90, 0x90, 0x90]

/-- The array `fill32_14[14]` of `X86Arch::getFill`. -/
def fill32_14 : List Nat :=
  [0xeb, 0x0c, 0x90, 0x90, 0x90, 0x90, 0x90, 0x90,
   0x90, 0x90, 0x90, 0x90, 0x90, 0x90]

/-- The array `fill32_15[15]` of `X86Arch::getFill`. -/
def fill32_15 : List Nat :=
  [0xeb, 0x0d, 0x90, 0x90, 0x90, 0x90, 0x90, 0x90,
   0x90, 0x90, 0x90, 0x90, 0x90, 0x90, 0x90]

/-- The array `fill32new_3[3]` of `X86Arch::getFill`. -/
def fill32new_3 : List Nat :=
  [0x0f, 0x1f, 0x00]

/-- The array `fill32new_4[4]` of `X86Arch::getFill`. -/
def fill32new_4 : List Nat :=
  [0x0f, 0x1f, 0x40, 0x00]

/-- The array `fill32new_5[5]` of `X86Arch::getFill`. -/
def fill32new_5 : List Nat :=
  [0x0f, 0x1f, 0x44, 0x00, 0x00]

/-- The array `fill32new_6[6]` of `X86Arch::getFill`. -/
def fill32new_6 : List Nat :=
  [0x66, 0x0f, 0x1f, 0x44, 0x00, 0x00]

/-- The array `fill32new_7[7]` of `X86Arch::getFill`. -/
def fill32new_7 : List Nat :=
  [0x0f, 0x1f, 0x80, 0x00, 0x00, 0x00, 0x00]

/-- The array `fill32new_8[8]` of `X86Arch::getFill`. -/
def fill32new_8 : List Nat :=
  [0x0f, 0x1f, 0x84, 0x00, 0x00, 0x00, 0x00, 0x00]

/-- The array `fill32new_9[9]` of `X86Arch::getFill`. -/
def fill32new_9 : List Nat :=
  [0x66, 0x0f, 0x1f, 0x84, 0x00, 0x00, 0x00, 0x00,
   0x00]

/-- The array `fill32intel_10[10]` of `X86Arch::getFill`. -/
def fill32intel_10 : List Nat :=
  [0x66, 0x2e, 0x0f, 0x1f, 0x84, 0x00, 0x00, 0x00,
   0x00, 0x00]

/-- The array `fill32intel_11[11]` of `X86Arch::getFill`. -/
def fill32intel_11 : List Nat :=
  [0x66, 0x66, 0x2e, 0x0f, 0x1f, 0x84, 0x00, 0x00,
   0x00, 0x00, 0x00]

/-- The array `fill32intel_12[12]` of `X86Arch::getFill`. -/
def fill32intel_12 : List Nat :=
  [0x66, 0x66, 0x66, 0x2e, 0x0f, 0x1f, 0x84, 0x00,
   0x00, 0x00, 0x00, 0x00]

/-- The array `fill32intel_13[13]` of `X86Arch::getFill`. -/
def fill32intel_13 : List Nat :=
  [0x66, 0x66, 0x66, 0x66, 0x2e, 0x0f, 0x1f, 0x84,
   0x00, 0x00, 0x00, 0x00, 0x00]

/-- The array `fill32intel_14[14]` of `X86Arch::getFill`. -/
def fill32intel_14 : List Nat :=
  [0x66, 0x66, 0x66, 0x66, 0x66, 0x2e, 0x0f, 0x1f,
   0x84, 0x00, 0x00, 0x00, 0x00, 0x00]

/-- The array `fill32intel_15[15]` of `X86Arch::getFill`. -/
def fill32intel_15 : List Nat :=
  [0x66, 0x66, 0x66, 0x66, 0x66, 0x66, 0x2e, 0x0f,
   0x1f, 0x84, 0x00, 0x00, 0x00, 0x00, 0x00]

/-- The array `fill32amd_10[10]` of `X86Arch::getFill`. -/
def fill32amd_10 : List Nat :=
  [0x66, 0x66, 0x0f, 0x1f, 0x84, 0x00, 0x00, 0x00,
   0x00, 0x00]

/-- The array `fill32amd_11[11]` of `X86Arch::getFill`. -/
def fill32amd_11 : List Nat :=
  [0x0f, 0x1f, 0x44, 0x00, 0x00, 0x66, 0x0f, 0x1f,
   0x44, 0x00, 0x00]

/-- The array `fill32amd_12[12]` of `X86Arch::getFill`. -/
def fill32amd_12 : List Nat :=
  [0x66, 0x0f, 0x1f, 0x44, 0x00, 0x00, 0x66, 0x0f,
   0x1f, 0x44, 0x00, 0x00]

/-- The array `fill32amd_13[13]` of `X86Arch::getFill`. -/
def fill32amd_13 : List Nat :=
  [0x66, 0x0f, 0x1f, 0x44, 0x00, 0x00, 0x0f, 0x1f,
   0x80, 0x00, 0x00, 0x00, 0x00]

/-- The array `fill32amd_14[14]` of `X86Arch::getFill`. -/
def fill32amd_14 : List Nat :=
  [0x0f, 0x1f, 0x80, 0x00, 0x00, 0x00, 0x00, 0x0f,
   0x1f, 0x80, 0x00, 0x00, 0x00, 0x00]

/-- The array `fill32amd_15[15]` of `X86Arch::getFill`. -/
def fill32amd_15 : List Nat :=
  [0x0f, 0x1f, 0x80, 0x00, 0x00, 0x00, 0x00, 0x0f,
   0x1f, 0x84, 0x00, 0x00, 0x00, 0x00, 0x00]

/-- The pointer table `fill16[16]` of `X86Arch::getFill`; `none` is NULL. -/
def fill16 : List (Option (List Nat)) :=
  [none, some fill16_1, some fill16_2, some fill16_3,
   some fill16_4, some fill16_5, some fill16_6, some fill16_7,
   some fill16_8, some fill16_9, some fill16_10, some fill16_11,
   some fill16_12, some fill16_13, some fill16_14, some fill16_15]

/-- The pointer table `fill32[16]` of `X86Arch::getFill`; `none` is NULL. -/
def fill32 : List (Option (List Nat)) :=
  [none, some fill32_1, some fill32_2, some fill32_3,
   some fill32_4, some fill32_5, some fill32_6, some fill32_7,
   some fill32_8, some fill32_9, some fill32_10, some fill32_11,
   some fill32_12, some fill32_13, some fill32_14, some fill32_15]

/-- The pointer table `fill32_intel[16]` of `X86Arch::getFill`; `none` is NULL. -/
def fill32_intel : List (Option (List Nat)) :=
  [none, some fill32_1, some fill32_2, some fill32new_3,
   some fill32new_4, some fill32new_5, some fill32new_6, some fill32new_7,
   some fill32new_8, some fill32new_9, some fill32intel_10, some fill32intel_11,
   some fill32intel_12, some fill32intel_13, some fill32intel_14, some fill32intel_15]

/-- The pointer table `fill32_amd[16]` of `X86Arch::getFill`; `none` is NULL. -/
def fill32_amd : List (Option (List Nat)) :=
  [none, some fill32_1, some fill32_2, some fill32new_3,
   some fill32new_4, some fill32new_5, some fill32new_6, some fill32new_7,
   some fill32new_8, some fill32new_9, some fill32amd_10, some fill32amd_11,
   some fill32amd_12, some fill32amd_13, some fill32amd_14, some fill32amd_15]

/-- The function `X86Arch::getFill`, lines 288-514: the fill table selected by
`m_mode_bits` and `m_nop`, or the ValueError for any other mode. -/
def X86Arch.getFill (a : X86Arch) : Except X86Error (List (Option (List Nat))) :=
  match a.m_mode_bits with
  | 16 => .ok fill16
  | 32 =>
    if a.m_nop = .NOP_INTEL then .ok fill32_intel
    else if a.m_nop = .NOP_AMD then .ok fill32_amd
    else .ok fill32
  | 64 =>
    -- We know long nops are available in 64-bit mode; default to Intel
    -- ones if unspecified (to match GAS behavior).
    if a.m_nop = .NOP_AMD then .ok fill32_amd
    else .ok fill32_intel
  | _ => .error (.ValueError "Invalid mode_bits in x86_get_fill")

/-! ## Symbols (include/yasmx/Symbol.h) -/

/-- A `clang::SourceLocation` (external to the repository): an opaque id, 0 for
the invalid location a default-constructed `SourceLocation()` denotes. -/
structure SourceLocation where
  ID : Nat
  deriving DecidableEq, Repr

/-- The test `SourceLocation::isValid()`. -/
def SourceLocation.isValid (l : SourceLocation) : Bool := l.ID != 0

/-- The private enum `Symbol::Type` of Symbol.h. -/
inductive SymbolType where
  | UNKNOWN
  | EQU
  | LABEL
  | SPECIAL
  deriving DecidableEq, Repr

/-- The `Symbol::Status` bit USED (Symbol.h: `1 << 0`). -/
def Symbol.USED : Nat := 1

/-- The `Symbol::Status` bit DEFINED (Symbol.h: `1 << 1`). -/
def Symbol.DEFINED : Nat := 2

/-- The `Symbol::Status` bit VALUED (Symbol.h: `1 << 2`). -/
def Symbol.VALUED : Nat := 4

/-- The `Symbol::Visibility` value LOCAL (Symbol.h: `0`). -/
def Symbol.LOCAL : Nat := 0

/-- The `Symbol::Visibility` bit GLOBAL (Symbol.h: `1 << 0`). -/
def Symbol.GLOBAL : Nat := 1

/-- The data members of `class Symbol` in Symbol.h (the name `Symbol` above is
the COFF writer's view of a symbol); `m_equ` is `none` for a null pointer. -/
structure SymbolRec where
  m_name : String
  m_type : SymbolType
  m_status : Nat
  m_visibility : Nat
  m_def_source : SourceLocation
  m_decl_source : SourceLocation
  m_use_source : SourceLocation
  m_equ : Option Expr
  m_loc : Location
  deriving DecidableEq, Repr

/-- The inline `Symbol::isAbsoluteSymbol`, Symbol.h lines 115-121. -/
def SymbolRec.isAbsoluteSymbol (s : SymbolRec) : Bool :=
  !s.m_def_source.isValid && decide (s.m_type = .EQU) && decide (s.m_name = "")

/-- The inline `Symbol::Use`, Symbol.h lines 204-210. -/
def SymbolRec.Use (s : SymbolRec) (source : SourceLocation) : SymbolRec :=
  let s1 := if !s.m_use_source.isValid then { s with m_use_source := source } else s
  { s1 with m_status := s1.m_status ||| Symbol.USED }

/-- The inline `Symbol::getEqu`, Symbol.h lines 212-218; `none` is the null
pointer. -/
def SymbolRec.getEqu (s : SymbolRec) : Option Expr :=
  if s.m_type = .EQU ∧ s.m_status &&& Symbol.VALUED ≠ 0 then s.m_equ else none

/-- The calls `Use(l1)`, ..., `Use(ln)` made one after the other. -/
def SymbolRec.UseAll (s : SymbolRec) (sources : List SourceLocation) : SymbolRec :=
  sources.foldl SymbolRec.Use s

/-! ## COFF symbol table (CoffOutput.cpp lines 401-453) -/

/-- The storage classes of `CoffSymbol` named in CoffOutput.cpp, and the one
of the file symbol. -/
inductive StorageClass where
  | SCL_EXT
  | SCL_STAT
  | SCL_FILE
  deriving DecidableEq, Repr

/-- An auxiliary symbol-table entry (an element of `CoffSymbol::m_aux`). -/
structure CoffAux where
  fname : String
  deriving DecidableEq, Repr

/-- The members of `CoffSymbol` (CoffSymbol.h is not in the source tree) used
by CoffOutput.cpp: the storage class given to the constructor, `m_index` and
`m_aux`. -/
structure CoffSymbol where
  m_sclass : StorageClass
  m_index : Nat
  m_aux : List CoffAux
  deriving DecidableEq, Repr

/-- The constructor call `new CoffSymbol(sclass)`: no auxiliary entries yet. -/
def CoffSymbol.create (sclass : StorageClass) : CoffSymbol := ⟨sclass, 0, []⟩

/-- A symbol of the object together with its associated COFF data,
`getAssocData<CoffSymbol>()` (`none` when there is none). -/
structure ObjectSymbol where
  sym : SymbolRec
  coffsym : Option CoffSymbol
  deriving DecidableEq, Repr

/-- The loop of `CoffOutput::CountSymbols`, lines 406-429, over the symbols in
insertion order from the running index `indx`: the symbols with their COFF
data afterwards, and the final index. -/
def CountSymbols_loop (m_all_syms : Bool) : List ObjectSymbol → Nat → List ObjectSymbol × Nat
  | [], indx => ([], indx)
  | i :: rest, indx =>
    let vis := i.sym.m_visibility
    -- Don't output local syms unless outputting all syms
    if !m_all_syms && decide (vis = Symbol.LOCAL) && !i.sym.isAbsoluteSymbol then
      let r := CountSymbols_loop m_all_syms rest indx
      (i :: r.1, r.2)
    else
      -- Create basic coff symbol data if it doesn't already exist
      let coffsym0 :=
        match i.coffsym with
        | some coffsym => coffsym
        | none =>
          if vis &&& (Symbol.EXTERN ||| Symbol.GLOBAL ||| Symbol.COMMON) ≠ 0 then
            CoffSymbol.create .SCL_EXT
          else
            CoffSymbol.create .SCL_STAT
      let coffsym := { coffsym0 with m_index := indx }
      let r := CountSymbols_loop m_all_syms rest (indx + (coffsym.m_aux.length + 1))
      ({ i with coffsym := some coffsym } :: r.1, r.2)

/-- The function `CoffOutput::CountSymbols`, lines 401-432. -/
def CountSymbols (m_all_syms : Bool) (symbols : List ObjectSymbol) : List ObjectSymbol × Nat :=
  CountSymbols_loop m_all_syms symbols 0

/-- The function `CoffOutput::OutputSymbolTable`, lines 434-453: the symbols
whose entry is written to the stream, in order; `none` when the assertion
`coffsym != 0` fails for a symbol that is to be written. -/
def OutputSymbolTable (m_all_syms : Bool) : List ObjectSymbol → Option (List ObjectSymbol)
  | [] => some []
  | i :: rest =>
    -- Don't output local syms unless outputting all syms
    if !m_all_syms && decide (i.sym.m_visibility = Symbol.LOCAL) && !i.sym.isAbsoluteSymbol then
      OutputSymbolTable m_all_syms rest
    else
      match i.coffsym with
      | none => none
      | some _ =>
        match OutputSymbolTable m_all_syms rest with
        | none => none
        | some written => some (i :: written)

/-- Example: the absolute symbol, an empty-named EQU of value 0 defined and used
without a source location. -/
def exAbsSym : SymbolRec :=
  ⟨"", .EQU, 7, Symbol.LOCAL, ⟨0⟩, ⟨0⟩, ⟨0⟩, some ⟨[.IntNum 0]⟩, ⟨⟨0, 0⟩, 0⟩⟩

/-- Example: an empty-named EQU symbol defined at the valid source location 5. -/
def exEmptyNamedEqu : SymbolRec :=
  ⟨"", .EQU, 6, Symbol.LOCAL, ⟨5⟩, ⟨0⟩, ⟨0⟩, some ⟨[.IntNum 3]⟩, ⟨⟨0, 0⟩, 0⟩⟩

/-- Example: a symbol that has not been used, declared or defined yet. -/
def exFreshSym : SymbolRec :=
  ⟨"x", .UNKNOWN, 0, Symbol.LOCAL, ⟨0⟩, ⟨0⟩, ⟨0⟩, none, ⟨⟨0, 0⟩, 0⟩⟩

/-- Example: an EQU symbol that is DEFINED but not yet VALUED, its expression
still referring to another symbol. -/
def exUnvaluedEqu : SymbolRec :=
  ⟨"a", .EQU, Symbol.DEFINED, Symbol.LOCAL, ⟨3⟩, ⟨0⟩, ⟨0⟩, some ⟨[.Sym "b"]⟩, ⟨⟨0, 0⟩, 0⟩⟩

/-! ## Section output (CoffOutput.cpp lines 301-399) -/

/-- The two `BytecodeOutput` objects `OutputSection` hands to `Bytecode::Output`:
`this` (the `CoffOutput`, a `BytecodeStreamOutput` on `m_os`) and the member
`m_no_output` (a `BytecodeNoOutput`). -/
inductive Writer where
  | stream
  | noOutput
  deriving DecidableEq, Repr

/-- What reaches the output stream `m_os` during section output: raw bytes of
a bytecode, the bytes of a converted Value, or a 10-byte relocation record. -/
inductive Chunk where
  | bytes (b : List Nat)
  | value (e : Emitted)
  | reloc (r : CoffReloc)
  deriving DecidableEq, Repr

/-- Modelled from the spec: the requests a bytecode's `Output(writer)` makes on
the writer (yasmx/Bytecode.h and yasmx/BytecodeOutput.h are not in the source
tree): "emit bytes into a stream; may create a Relocation on the owning
section if a Value is not purely absolute". -/
inductive WriterCall where
  | OutputBytes (bytes : List Nat)
  | OutputValue (value : Value) (loc : Location)

/-- Modelled from the spec: a bytecode of a section as `OutputSection` sees it
(yasmx/Bytecode.h is not in the source tree): `getSource()`, its `offset`,
`getTotalLen()`, the requests its `Output` makes on the writer, in order, and
the error `Output` raises by itself after them, if any. -/
structure SectBytecode where
  source : SourceLocation
  offset : Nat
  totalLen : Nat
  calls : List WriterCall
  raises : Option CoffError

/-- What `Errwarns::Propagate` has recorded: an error with the source location
it was attached to, or a warning. -/
inductive Propagated where
  | error (source : SourceLocation) (err : CoffError)
  | warning (msg : String)
  deriving DecidableEq, Repr

/-- The state section output works on: what has been written to `m_os`, the
sections (with their relocation lists), what `errwarns` has recorded, and the
log of the `Output` calls made, each with the writer it was given. -/
structure OutState where
  os : List Chunk
  sects : Nat → Section
  errwarns : List Propagated
  outputLog : List (Writer × SectBytecode)

/-- One request served by a writer.  For `stream` the bytes are appended to
`m_os` and a Value goes through `CoffOutput::ConvertValueToBytes`.  The writer
`noOutput` is the member `m_no_output` (line 92), a default-constructed
`BytecodeNoOutput` of its own and not the `CoffOutput`: it writes nothing to
`m_os` and a Value handed to it does not reach
`CoffOutput::ConvertValueToBytes`, so it creates no relocation and raises none
of that function's errors. -/
def Writer.call (w : Writer) (objfmt : CoffObject) (m_coffsect : CoffSection) (st : OutState) :
    WriterCall → OutState × Except CoffError Unit
  | .OutputBytes bytes =>
    match w with
    | .stream => ({ st with os := st.os ++ [.bytes bytes] }, .ok ())
    | .noOutput => (st, .ok ())
  | .OutputValue value loc =>
    match w with
    | .stream =>
      match ConvertValueToBytes objfmt m_coffsect st.sects value loc with
      | (sects, .error err) => ({ st with sects := sects }, .error err)
      | (sects, .ok emitted) =>
        ({ st with sects := sects, os := st.os ++ [.value emitted] }, .ok ())
    | .noOutput => (st, .ok ())

/-- The requests of one bytecode served in order; the first error ends them. -/
def runCalls (objfmt : CoffObject) (w : Writer) (m_coffsect : CoffSection) :
    List WriterCall → OutState → OutState × Except CoffError Unit
  | [], st => (st, .ok ())
  | call :: rest, st =>
    match w.call objfmt m_coffsect st call with
    | (st1, .ok _) => runCalls objfmt w m_coffsect rest st1
    | (st1, .error err) => (st1, .error err)

/-- Modelled from the spec: `Bytecode::Output(writer)` (yasmx/Bytecode.h is not
in the source tree): the call is logged, the bytecode's requests are served
by the writer, and then the bytecode's own error, if any, is raised. -/
def SectBytecode.Output (bc : SectBytecode) (objfmt : CoffObject) (w : Writer)
    (m_coffsect : CoffSection) (st : OutState) : OutState × Except CoffError Unit :=
  match runCalls objfmt w m_coffsect bc.calls
      { st with outputLog := st.outputLog ++ [(w, bc)] } with
  | (st1, .ok _) =>
    match bc.raises with
    | some err => (st1, .error err)
    | none => (st1, .ok ())
  | (st1, .error err) => (st1, .error err)

/-- The bytecode loop of `OutputSection`, lines 337-351, from the running
`coffsect->m_size`: the state and `m_size` afterwards. -/
def outputBytecodes (objfmt : CoffObject) (outputter : Writer) (m_coffsect : CoffSection) :
    List SectBytecode → OutState → Nat → OutState × Nat
  | [], st, m_size => (st, m_size)
  | i :: rest, st, m_size =>
    match i.Output objfmt outputter m_coffsect st with
    | (st1, .ok _) =>
      outputBytecodes objfmt outputter m_coffsect rest st1 (m_size + i.totalLen)
    | (st1, .error err) =>
      outputBytecodes objfmt outputter m_coffsect rest
        { st1 with errwarns := st1.errwarns ++ [.error i.source err] } m_size

/-- What `OutputSection` reads of a section besides its relocations:
`getName()`, `isBSS()` and the bytecodes from `bytecodes_begin()` to
`bytecodes_end()`. -/
structure SectionContents where
  name : String
  isBSS : Bool
  bytecodes : List SectBytecode

/-- The value `sect.bytecodes_last().getNextOffset()`: offset plus total
length of the last bytecode. -/
def bytecodes_last_getNextOffset (bytecodes : List SectBytecode) : Nat :=
  match bytecodes.getLast? with
  | some bc => bc.offset + bc.totalLen
  | none => 0

/-- What `OutputSection` stores: `sect.setFilePos`, `coffsect->m_size`, the
value of the condition asserted at line 354, and `coffsect->m_relptr`; `none`
where the function returned before storing. -/
structure SectionRecord where
  filePos : Option Nat
  m_size : Option Nat
  sizeAssertion : Option Bool
  m_relptr : Option Nat
  deriving DecidableEq, Repr

/-- Lines 334-398 of `OutputSection`, once `outputter` and `pos` are chosen. -/
def OutputSection_body (objfmt : CoffObject) (tell : List Chunk → Int) (c : Nat)
    (sect : SectionContents) (st : OutState) (outputter : Writer) (pos : Nat) :
    OutState × SectionRecord × Except String Unit :=
  -- Output bytecodes
  let r := outputBytecodes objfmt outputter (st.sects c).coffsect sect.bytecodes st 0
  let st1 := r.1
  let m_size := r.2
  -- Sanity check final section size
  let sane := decide (m_size = bytecodes_last_getNextOffset sect.bytecodes)
  -- No relocations to output?  Go on to next section
  if (st1.sects c).relocs.length = 0 then
    (st1, ⟨some pos, some m_size, some sane, none⟩, .ok ())
  else
    let pos2 := tell st1.os
    if pos2 < 0 then
      (st1, ⟨some pos, some m_size, some sane, none⟩,
        .error "could not get file position on output file")
    else
      let st2 :=
        if (st1.sects c).relocs.length ≥ 64 * 1024 then
          { st1 with errwarns :=
              st1.errwarns ++
                [.warning ("too many relocations in section \x60" ++ sect.name ++ "\x27")] }
        else st1
      ({ st2 with os := st2.os ++ (st1.sects c).relocs.map Chunk.reloc },
        ⟨some pos, some m_size, some sane, some pos2.toNat⟩, .ok ())

/-- The function `CoffOutput::OutputSection`, lines 301-399, for the section with
container id `c`; `tell` is `m_os.tell()` as a function of what has been
written.  The result is the state afterwards, what was stored on the section,
and the `IOError` thrown, if any.  The string-table entry made for long Win32
section names (lines 310-316) touches none of this state and is left out. -/
def OutputSection (objfmt : CoffObject) (tell : List Chunk → Int) (c : Nat)
    (sect : SectionContents) (st : OutState) : OutState × SectionRecord × Except String Unit :=
  if sect.isBSS then
    -- Don't output BSS sections.
    OutputSection_body objfmt tell c sect st .noOutput 0
  else if bytecodes_last_getNextOffset sect.bytecodes = 0 then
    (st, ⟨none, none, none, none⟩, .ok ())
  else
    let pos := tell st.os
    if pos < 0 then
      (st, ⟨none, none, none, none⟩, .error "could not get file position on output file")
    else
      OutputSection_body objfmt tell c sect st .stream pos.toNat

/-! ## COFF file header (CoffOutput.cpp lines 541-567) -/

/-- Modelled from the spec: `Write16` on little-endian `Bytes` (yasmx/Bytes_util.h
is not in the source tree): "serialisation to N-bit little ... endian byte
sequence", the low 16 bits, low byte first. -/
def Write16 (v : Nat) : List Nat := [v % 256, v / 256 % 256]

/-- Modelled from the spec: `Write32` on little-endian `Bytes` (yasmx/Bytes_util.h
is not in the source tree): the low 32 bits, low byte first. -/
def Write32 (v : Nat) : List Nat :=
  [v % 256, v / 256 % 256, v / 65536 % 256, v / 16777216 % 256]

/-- The file header written by `CoffObject::Output`, lines 541-567.
`machineCode`, `F_LSYMS` and `F_AR32WR` are the numeric values declared in the
missing CoffObject.h; `YASM_TEST_SUITE` is the result of `std::getenv` (`none`
for a null pointer) and `now` the result of `std::time(NULL)`. -/
def Output_fileHeader (machineCode : Machine → Nat) (F_LSYMS F_AR32WR : Nat)
    (m_machine : Machine) (scnum : Nat) (YASM_TEST_SUITE : Option String) (now : Nat)
    (symtab_pos symtab_count : Nat) (all_syms : Bool) : List Nat :=
  let ts := if YASM_TEST_SUITE.isSome then 0 else now
  -- flags
  let flags0 := 0
  let flags1 := if !all_syms then flags0 ||| F_LSYMS else flags0
  let flags := if m_machine ≠ .MACHINE_AMD64 then flags1 ||| F_AR32WR else flags1
  Write16 (machineCode m_machine)       -- magic number
    ++ Write16 (scnum - 1)              -- number of sects
    ++ Write32 ts                       -- time/date stamp
    ++ Write32 symtab_pos               -- file ptr to symtab
    ++ Write32 symtab_count             -- number of symtabs
    ++ Write16 0                        -- size of optional header (none)
    ++ Write16 flags

/-- Example: the sentinel bytecode at the start of a section. -/
def exSentinel : SectBytecode := ⟨⟨0⟩, 0, 0, [], none⟩

/-- Example: a 4-byte bytecode at offset 0 whose `Output` raises an error. -/
def exFailingBc : SectBytecode :=
  ⟨⟨11⟩, 0, 4, [], some (.TooComplexError "expression too complex")⟩

/-- Example: an 8-byte bytecode at offset 4 that requests eight bytes. -/
def exDataBc : SectBytecode := ⟨⟨12⟩, 4, 8, [.OutputBytes [0, 0, 0, 0, 0, 0, 0, 0]], none⟩

/-- Example: a 4-byte bytecode at offset 12 holding a 32-bit reference to the
EXTERN symbol at offset 12 of container 1. -/
def exRelocBc : SectBytecode :=
  ⟨⟨13⟩, 12, 4, [.OutputValue (exValue 32 exExtern) ⟨⟨1, 12⟩, 0⟩], none⟩

/-- Example: a BSS section whose second bytecode fails. -/
def exBssFailing : SectionContents := ⟨".bss", true, [exSentinel, exFailingBc, exDataBc]⟩

/-- Example: a BSS section without failing bytecodes. -/
def exBss : SectionContents :=
  ⟨".bss", true, [exSentinel, ⟨⟨11⟩, 0, 4, [], none⟩, exDataBc, exRelocBc]⟩

/-- Example: the state before section output of the two-section object. -/
def exOutState : OutState := ⟨[], sectionMap exSections, [], []⟩

/-- Example: a stream position function, 100 bytes of headers plus one unit
per chunk written. -/
def exTell (os : List Chunk) : Int := 100 + os.length

/-! ## x86 parser and machine selection (X86Arch.cpp lines 131-179, Assembler.cpp lines 168-182, 312-323) -/

/-- The function `X86Arch::setParser`, lines 131-142: the state afterwards and
the returned flag. -/
def X86Arch.setParser (a : X86Arch) (parser : String) : X86Arch × Bool :=
  if NocaseEqual parser "nasm" then
    ({ a with m_parser_kind := .PARSER_NASM }, true)
  else if NocaseEqual parser "gas" || NocaseEqual parser "gnu" then
    ({ a with m_parser_kind := .PARSER_GAS }, true)
  else
    (a, false)

/-- The function `X86Arch::setMachine`, lines 144-154: the state afterwards and
the returned flag. -/
def X86Arch.setMachine (a : X86Arch) (machine : String) : X86Arch × Bool :=
  if NocaseEqual machine "x86" then
    ({ a with m_amd64_machine := false }, true)
  else if NocaseEqual machine "amd64" then
    ({ a with m_amd64_machine := true }, true)
  else
    (a, false)

/-- The function `X86Arch::getMachine`, lines 172-179. -/
def X86Arch.getMachine (a : X86Arch) : String :=
  if a.m_amd64_machine then "amd64" else "x86"

/-- The method `llvm::StringRef::equals_lower` (LLVM, outside the repository):
equality ignoring ASCII case. -/
def StringRef_equals_lower (a b : String) : Bool :=
  a.data.map Char.toLower == b.data.map Char.toLower

/-- The members of `Assembler::Impl` that machine selection reads and writes:
the keyword of `m_arch_module`, the architecture object `m_arch` (an `X86Arch`
when that keyword is x86), the object-format module and `m_machine`. -/
structure AssemblerImpl where
  m_arch_keyword : String
  m_arch : X86Arch
  m_objfmt_module : ObjFmtModule
  m_machine : String
  deriving DecidableEq, Repr

/-- The constructor `Assembler::Impl::Impl`, Assembler.cpp lines 105-142, once
both modules are loaded (`arch_keyword` is the keyword the loaded architecture
module reports, `m_arch_module->getKeyword()`): the architecture is created,
the initial x86 BITS setting is taken from the object format, and `m_machine`
is empty. -/
def AssemblerImpl.create (arch_keyword : String) (objfmt : ObjFmtModule) : AssemblerImpl :=
  -- Create architecture.
  let m_arch := X86Arch.init
  -- Get initial x86 BITS setting from object format
  let m_arch :=
    if StringRef_equals_lower arch_keyword "x86" then
      (m_arch.setVar "mode_bits" objfmt.getDefaultX86ModeBits).1
    else m_arch
  ⟨arch_keyword, m_arch, objfmt, ""⟩

/-- The function `Assembler::Impl::setMachine`, Assembler.cpp lines 168-182: the
state and `diags` afterwards and the returned flag; a fatal report counts as
an error of `diags`. -/
def AssemblerImpl.setMachine (s : AssemblerImpl) (machine : String) (diags : Diagnostic) :
    AssemblerImpl × Diagnostic × Bool :=
  match s.m_arch.setMachine machine with
  | (m_arch, false) =>
    ({ s with m_arch := m_arch }, { diags with numErrors := diags.numErrors + 1 }, false)
  | (m_arch, true) =>
    ({ s with m_arch := m_arch, m_machine := machine }, diags, true)

/-- The calls `setMachine(m1, diags)`, ..., `setMachine(mn, diags)` made on the
assembler one after the other before `Assemble`. -/
def AssemblerImpl.setMachines (s : AssemblerImpl) (diags : Diagnostic) :
    List String → AssemblerImpl × Diagnostic
  | [] => (s, diags)
  | machine :: rest =>
    let r := s.setMachine machine diags
    AssemblerImpl.setMachines r.1 r.2.1 rest

/-- The default-machine block of `Assembler::Impl::Assemble`, Assembler.cpp lines
312-323: the state and `diags` afterwards, and `false` when `Assemble` returns
false from inside the block. -/
def Assemble_defaultMachine (s : AssemblerImpl) (diags : Diagnostic) :
    AssemblerImpl × Diagnostic × Bool :=
  if s.m_machine = "" then
    -- If we're using x86 and the default objfmt bits is 64, default the
    -- machine to amd64.
    if StringRef_equals_lower s.m_arch_keyword "x86" &&
        decide (s.m_objfmt_module.getDefaultX86ModeBits = 64) then
      -- if (!setMachine("amd64", diags)) return false;
      s.setMachine "amd64" diags
    else
      (s, diags, true)
  else
    (s, diags, true)

/-- The x86 instruction set's short jump (outside the repository; the comments
`jmp $+9; nop fill` of `getFill` name it): for code that starts with opcode EB
and a displacement byte, the offset, from the first byte of the code, at which
execution continues: the length 2 of the jump plus the sign-extended
displacement. -/
def shortJmpTarget (code : List Nat) : Option Int :=
  match code with
  | 0xeb :: disp :: _ =>
    some (2 + (if disp < 0x80 then (disp : Int) else (disp : Int) - 0x100))
  | _ => none

/-! ## Section layout, symbol filter and further example inputs for COFF output -/

/-- The sum of the final sizes (last bytecode's next offset) of the non-debug
sections of a list: the address the sections before a section occupy when laid
out contiguously. -/
def sizeOfNonDebug (sections : List Section) : Nat :=
  ((sections.filter (fun s => !s.coffsect.m_isdebug)).map Section.nextOffset).sum

/-- Example: a 16-byte `.text` section before numbering. -/
def exTextSect : Section := ⟨0, 0, 16, [], ⟨exTextSym, false, false, 0, 0⟩⟩

/-- Example: a 32-byte debug section before numbering. -/
def exDebugSect : Section := ⟨0, 0, 32, [], ⟨⟨".debug", 0, none, none⟩, false, true, 0, 0⟩⟩

/-- Example: an 8-byte `.data` section before numbering. -/
def exDataSect : Section := ⟨0, 0, 8, [], ⟨exDataSym, false, false, 0, 0⟩⟩

/-- Example: a `size`-bit reference to `rel` minus the current position, which
`CalcPCRelSub` folds into the PC-relative delta 0. -/
def exPcRelValue (size : Nat) (rel : Symbol) : Value :=
  ⟨0, some rel, none, true, fun _ => some 0, 0, false, false, size, 0⟩

/-- Example: a `size`-bit section-relative reference to `rel`. -/
def exSecRelValue (size : Nat) (rel : Symbol) : Value :=
  ⟨0, some rel, none, false, fun _ => none, 0, false, true, size, 0⟩

/-- The symbols that pass the filter of lines 412 and 441-442, the condition
under which neither loop executes `continue`. -/
def isEmitted (m_all_syms : Bool) (i : ObjectSymbol) : Bool :=
  !(!m_all_syms && decide (i.sym.m_visibility = Symbol.LOCAL) && !i.sym.isAbsoluteSymbol)

/-- Example: a global label with no COFF data yet. -/
def exGlobalSym : SymbolRec :=
  ⟨"main", .LABEL, 3, Symbol.GLOBAL, ⟨7⟩, ⟨6⟩, ⟨0⟩, none, ⟨⟨0, 0⟩, 0⟩⟩

/-- Example: the object's symbols in insertion order: the file symbol with one
auxiliary entry, a local symbol, a global label and the absolute symbol. -/
def exSymbols : List ObjectSymbol :=
  [⟨⟨".file", .SPECIAL, 2, Symbol.GLOBAL, ⟨1⟩, ⟨0⟩, ⟨0⟩, none, ⟨⟨0, 0⟩, 0⟩⟩,
     some ⟨.SCL_FILE, 0, [⟨"a.asm"⟩]⟩⟩,
   ⟨exFreshSym, none⟩, ⟨exGlobalSym, none⟩, ⟨exAbsSym, none⟩]

/-- Offset monotonicity in the spec's words: the first bytecode is at offset
`o` and each offset is the previous offset plus the previous length. -/
def offsetsFrom : Nat → List SectBytecode → Bool
  | _, [] => true
  | o, bc :: rest => decide (bc.offset = o) && offsetsFrom (o + bc.totalLen) rest

/-- Example: a 4-byte bytecode at offset 0 holding a 32-bit reference to the
EXTERN symbol minus something `CalcPCRelSub` cannot fold, which
`ConvertValueToBytes` rejects. -/
def exBadValueBc : SectBytecode :=
  ⟨⟨11⟩, 0, 4, [.OutputValue (exSubValue exExtern) ⟨⟨1, 0⟩, 0⟩], none⟩

/-- Example: a `.data` section (not BSS) whose second bytecode fails. -/
def exDataFailing : SectionContents := ⟨".data", false, [exSentinel, exBadValueBc, exDataBc]⟩

/-- The members of `BinSection` that `BinSymbol::getValue` reads (BinSection.h
lines 72-77): the flags of the calculated starts and of the calculated length,
and the length. -/
structure BinSection where
  has_istart : Bool
  has_ivstart : Bool
  has_length : Bool
  length : Int
  deriving DecidableEq, Repr

/-- The enumeration `BinSymbol::SpecialSym` (its values are named in
BinSymbol.cpp; BinSymbol.h is not in the source tree). -/
inductive SpecialSym where
  | START
  | VSTART
  | LENGTH
  deriving DecidableEq, Repr

/-- The members of a `BinSymbol`: the section `m_sect` refers to (by container
id), the section data `m_bsd` refers to, and `m_which`. -/
structure BinSymbol where
  m_sect : Nat
  m_bsd : BinSection
  m_which : SpecialSym
  deriving DecidableEq, Repr

/-- The function `BinSymbol::getValue`, BinSymbol.cpp lines 73-97: the value
stored through `val` when it returns true, `none` when it returns false. -/
def BinSymbol.getValue (sects : Nat → Section) (b : BinSymbol) : Option Int :=
  match b.m_which with
  | .START =>
    if !b.m_bsd.has_istart then none
    else some ((sects b.m_sect).lma : Int)
  | .VSTART =>
    if !b.m_bsd.has_ivstart then none
    else some ((sects b.m_sect).vma : Int)
  | .LENGTH =>
    if !b.m_bsd.has_length then none
    else some b.m_bsd.length

/-- What `BinSimplify` reads of the object besides the expression: the sections
(by container id), `BytecodeContainer::getSection` (the section a container
belongs to) and `bytecodes_front` (its first bytecode), and, for a symbol
handle, what `Symbol::getLabel` yields (`none` when it returns false) and the
symbol's `BinSymbol` data, `getAssocData<BinSymbol>()` (`none` when it has
none). -/
structure BinObjectView where
  sects : Nat → Section
  getSection : Nat → Nat
  bytecodes_front : Nat → Bytecode
  getLabel : String → Option Location
  getBinSymbol : String → Option BinSymbol

/-- The helper `getBinSSymValue` used at BinSymbol.cpp line 109 (declared in
BinSymbol.h, not in the source tree): the value `BinSymbol::getValue` gives for
the symbol's `BinSymbol` data; false (`none`) for a symbol without such data. -/
def getBinSSymValue (obj : BinObjectView) (sym : String) : Option Int :=
  match obj.getBinSymbol sym with
  | some bsym => bsym.getValue obj.sects
  | none => none

/-- One iteration of the loop of `objfmt::BinSimplify`, BinSymbol.cpp lines
102-131, on the term `i`: the term afterwards. -/
def BinSimplify_term (obj : BinObjectView) (i : ExprTerm) : ExprTerm :=
  -- Transform our special symrecs into the appropriate value
  let i1 : ExprTerm :=
    match i with
    | .Sym sym =>
      match getBinSSymValue obj sym with
      | some ssymval => .IntNum ssymval
      | none => i
    | _ => i
  -- Transform symrecs or precbcs that reference sections into
  -- vstart + intnum(dist).
  let found : Option Location :=
    match i1 with
    | .Sym sym => obj.getLabel sym
    | .Loc locp => some locp
    | _ => none
  match found with
  | none => i1
  | some loc =>
    let container := loc.bc.container
    let first : Location := ⟨obj.bytecodes_front container, 0⟩
    match CalcDist first loc with
    | some dist => .IntNum (dist + ((obj.sects (obj.getSection container)).vma : Int))
    | none => i1

/-- The function `objfmt::BinSimplify`, BinSymbol.cpp lines 99-132: the loop
visits the terms of the expression in order and rewrites each in place. -/
def BinSimplify (obj : BinObjectView) (e : Expr) : Expr :=
  ⟨e.terms.map (BinSimplify_term obj)⟩

/-- Example: a flat binary object with one section (container 0, LMA 0x100, VMA
0x200, first bytecode at offset 0) whose start is known; the label `lab` at
offset 4; and the special symbol `section..text.start`, which the source also
defines as a label at offset 8. -/
def exBinObject : BinObjectView :=
  { sects := fun _ => ⟨0x200, 0x100, 16, [], ⟨exTextSym, false, false, 0, 0⟩⟩
    getSection := fun c => c
    bytecodes_front := fun c => ⟨c, 0⟩
    getLabel := fun sym =>
      if sym = "lab" then some ⟨⟨0, 4⟩, 0⟩
      else if sym = "section..text.start" then some ⟨⟨0, 8⟩, 0⟩
      else none
    getBinSymbol := fun sym =>
      if sym = "section..text.start" then some ⟨0, ⟨true, false, false, 0⟩, .START⟩
      else if sym = "section..text.length" then some ⟨0, ⟨true, false, false, 0⟩, .LENGTH⟩
      else none }

/-! ## Properties of the assembler driver -/

/-- For a C string (no embedded NUL) the test `in_filename[0] == 0` holds
exactly when the string is empty. -/
theorem firstChar_eq_nul_iff (s : String) (hc : Char.ofNat 0 ∉ s.data) :
    firstChar s = Char.ofNat 0 ↔ s = "" := by
  obtain ⟨l⟩ := s
  cases l with
  | nil => simp [firstChar]
  | cons c cs =>
    have hne : c ≠ Char.ofNat 0 := by
      intro h
      apply hc
      simp [h]
    constructor
    · intro h
      exact absurd h hne
    · intro h
      have h1 := congrArg String.data h
      simp at h1

/-- Taking while a test holds goes through a first part on which it holds
throughout. -/
theorem takeWhile_append_all {α : Type} (p : α → Bool) (l r : List α)
    (h : ∀ x ∈ l, p x = true) : (l ++ r).takeWhile p = l ++ r.takeWhile p := by
  induction l with
  | nil => rfl
  | cons a l ih =>
    have ha : p a = true := h a (by simp)
    simp only [List.cons_append, List.takeWhile_cons, ha, if_true]
    rw [ih (fun x hx => h x (by simp [hx]))]

/-- Dropping while a test holds removes a first part on which it holds
throughout. -/
theorem dropWhile_append_all {α : Type} (p : α → Bool) (l r : List α)
    (h : ∀ x ∈ l, p x = true) : (l ++ r).dropWhile p = r.dropWhile p := by
  induction l with
  | nil => rfl
  | cons a l ih =>
    have ha : p a = true := h a (by simp)
    simp only [List.cons_append, List.dropWhile_cons, ha, if_true]
    exact ih (fun x hx => h x (by simp [hx]))

/-- The basename drops the directory part: for a path made of a directory part
that is empty or ends in a slash and a last component `file` without slash,
what is examined for a suffix is `file`. -/
theorem pathBasename_file (dir file : List Char)
    (hdir : dir = [] ∨ dir.getLast? = some '/') (hfile : '/' ∉ file) :
    ((dir ++ file).reverse.takeWhile (fun c => c != '/')).reverse = file := by
  have hall : ∀ x ∈ file.reverse, (fun c : Char => c != '/') x = true := by
    intro x hx
    have hx1 : x ∈ file := List.mem_reverse.mp hx
    have : x ≠ '/' := fun h => hfile (h ▸ hx1)
    simpa using this
  rw [List.reverse_append, takeWhile_append_all _ _ _ hall]
  have hrest : dir.reverse.takeWhile (fun c => c != '/') = [] := by
    rcases hdir with h | h
    · rw [h]; rfl
    · have hh : dir.reverse.head? = some '/' := by
        rw [List.head?_reverse]; exact h
      cases hr : dir.reverse with
      | nil => rfl
      | cons a t =>
        rw [hr] at hh
        simp only [List.head?_cons, Option.some.injEq] at hh
        subst hh
        simp [List.takeWhile_cons]
  rw [hrest]
  simp

/-- The basename of a path whose last component has a suffix: the directory
part and the suffix from the last dot on are dropped. -/
theorem pathBasename_suffix (dir stem suffix : List Char)
    (hdir : dir = [] ∨ dir.getLast? = some '/') (hstem : '/' ∉ stem)
    (hs1 : '/' ∉ suffix) (hs2 : '.' ∉ suffix) :
    pathBasename (String.mk (dir ++ (stem ++ '.' :: suffix))) = String.mk stem := by
  have hfile : '/' ∉ stem ++ '.' :: suffix := by
    simp only [List.mem_append, List.mem_cons, not_or]
    exact ⟨hstem, by decide, hs1⟩
  have hf := pathBasename_file dir (stem ++ '.' :: suffix) hdir hfile
  unfold pathBasename
  simp only [hf]
  have hdot : '.' ∈ stem ++ '.' :: suffix := by simp
  rw [if_pos hdot]
  have hall : ∀ x ∈ suffix.reverse, (fun c : Char => c != '.') x = true := by
    intro x hx
    have hx1 : x ∈ suffix := List.mem_reverse.mp hx
    have : x ≠ '.' := fun h => hs2 (h ▸ hx1)
    simpa using this
  have hrev : (stem ++ '.' :: suffix).reverse = suffix.reverse ++ '.' :: stem.reverse := by
    simp
  rw [hrev, dropWhile_append_all _ _ _ hall]
  simp [List.dropWhile_cons]

/-- The basename of a path whose last component has no dot: the directory part
is dropped and the component is kept whole. -/
theorem pathBasename_plain (dir file : List Char)
    (hdir : dir = [] ∨ dir.getLast? = some '/') (hfile : '/' ∉ file) (hdot : '.' ∉ file) :
    pathBasename (String.mk (dir ++ file)) = String.mk file := by
  have hf := pathBasename_file dir file hdir hfile
  unfold pathBasename
  simp only [hf]
  rw [if_neg hdot]

/-- C1 (amended): when no object filename has been set, the object filename
chosen by Assemble is the basename of the input filename, that is its last path
component with the suffix from the last dot on stripped and with the directory
part dropped as well, followed by the object format's extension, which is
".o" for the ELF formats and ".obj" for Win32; when that string equals the
input filename, or the input filename is empty or has an empty basename, the
object filename is "yasm.out". -/
theorem C1_objFilename_selection (m : ObjFmtModule) (dir stem suffix : List Char)
    (hdir : dir = [] ∨ dir.getLast? = some '/') (hstem : '/' ∉ stem)
    (hs1 : '/' ∉ suffix) (hs2 : '.' ∉ suffix)
    (hc : Char.ofNat 0 ∉ dir ++ (stem ++ '.' :: suffix)) :
    (m = .Win32Object → m.getExtension = ".obj") ∧
    (m ≠ .Win32Object → m.getExtension = ".o") ∧
    pathBasename (String.mk (dir ++ (stem ++ '.' :: suffix))) = String.mk stem ∧
    Assemble_objFilename pathBasename m.getExtension "" (String.mk (dir ++ (stem ++ '.' :: suffix)))
      = (if stem = [] ∨
            String.mk stem ++ m.getExtension = String.mk (dir ++ (stem ++ '.' :: suffix))
         then "yasm.out" else String.mk stem ++ m.getExtension) ∧
    (dir ≠ [] →
      Assemble_objFilename pathBasename m.getExtension ""
          (String.mk (dir ++ (stem ++ '.' :: suffix)))
        = (if stem = [] then "yasm.out" else String.mk stem ++ m.getExtension)) ∧
    (stem ≠ [] → '.' ∉ stem →
      Assemble_objFilename pathBasename m.getExtension "" (String.mk (dir ++ stem))
        = (if String.mk stem ++ m.getExtension = String.mk (dir ++ stem)
           then "yasm.out" else String.mk stem ++ m.getExtension)) ∧
    Assemble_objFilename pathBasename m.getExtension "" "" = "yasm.out" ∧
    (∀ set_name : String, set_name ≠ "" →
      Assemble_objFilename pathBasename m.getExtension set_name
        (String.mk (dir ++ (stem ++ '.' :: suffix))) = set_name) := by
  have hbase := pathBasename_suffix dir stem suffix hdir hstem hs1 hs2
  have hfirst : ¬ firstChar (String.mk (dir ++ (stem ++ '.' :: suffix))) = Char.ofNat 0 := by
    intro h
    have hne : String.mk (dir ++ (stem ++ '.' :: suffix)) = "" :=
      (firstChar_eq_nul_iff _ hc).mp h
    have := congrArg String.data hne
    simp at this
  have hmain : Assemble_objFilename pathBasename m.getExtension ""
      (String.mk (dir ++ (stem ++ '.' :: suffix)))
      = (if stem = [] ∨
            String.mk stem ++ m.getExtension = String.mk (dir ++ (stem ++ '.' :: suffix))
         then "yasm.out" else String.mk stem ++ m.getExtension) := by
    simp only [Assemble_objFilename, if_true]
    rw [if_neg hfirst, hbase]
    by_cases hst : stem = []
    · subst hst
      simp
    · have hne : String.mk stem ≠ "" := by
        intro h
        have := congrArg String.data h
        simp at this
        exact hst this
      rw [if_neg hne]
      by_cases heq : String.mk stem ++ m.getExtension
          = String.mk (dir ++ (stem ++ '.' :: suffix))
      · rw [if_pos heq, if_pos (Or.inr heq)]
      · rw [if_neg heq, if_neg (by simp [hst, heq])]
  refine ⟨?_, ?_, hbase, hmain, ?_, ?_, ?_, ?_⟩
  · intro h
    subst h
    rfl
  · intro h
    cases m <;> first | rfl | exact absurd rfl h
  · intro hd
    rw [hmain]
    have hneq : String.mk stem ++ m.getExtension
        ≠ String.mk (dir ++ (stem ++ '.' :: suffix)) := by
      intro h
      have hdata := congrArg String.data h
      have hslash : '/' ∈ (String.mk (dir ++ (stem ++ '.' :: suffix))).data := by
        rcases hdir with h0 | h0
        · exact absurd h0 hd
        · have := List.mem_of_getLast?_eq_some h0
          simp [this]
      rw [← hdata] at hslash
      have hext : '/' ∉ m.getExtension.data := by
        cases m <;> decide
      simp only [String.data_append, List.mem_append] at hslash
      rcases hslash with h1 | h1
      · exact hstem h1
      · exact hext h1
    by_cases hst : stem = []
    · simp [hst]
    · simp [hst, hneq]
  · intro hst hdot
    have hc2 : Char.ofNat 0 ∉ (String.mk (dir ++ stem)).data := by
      intro h
      apply hc
      simp only [List.mem_append] at h ⊢
      rcases h with h | h
      · exact Or.inl h
      · exact Or.inr (Or.inl h)
    have hfirst2 : ¬ firstChar (String.mk (dir ++ stem)) = Char.ofNat 0 := by
      intro h
      have hne : String.mk (dir ++ stem) = "" := (firstChar_eq_nul_iff _ hc2).mp h
      have := congrArg String.data hne
      simp at this
      exact hst this.2
    have hb2 := pathBasename_plain dir stem hdir hstem hdot
    have hne : String.mk stem ≠ "" := by
      intro h
      have := congrArg String.data h
      simp at this
      exact hst this
    simp only [Assemble_objFilename, if_true]
    rw [if_neg hfirst2, hb2, if_neg hne]
  · rfl
  · intro set_name hset
    simp [Assemble_objFilename, hset]

/-- C1 refuted: for the input filename "dir/foo.asm" and Win32 the object
filename is "foo.obj", not the input filename with its extension replaced,
"dir/foo.obj"; and for "./foo.o" and ELF it is "foo.o" although the input
filename with its extension replaced equals the input filename. -/
theorem C1_directory_counterexample :
    Assemble_objFilename pathBasename (ObjFmtModule.getExtension .Win32Object) "" "dir/foo.asm"
      = "foo.obj" ∧
    Assemble_objFilename pathBasename (ObjFmtModule.getExtension .Win32Object) "" "dir/foo.asm"
      ≠ "dir/foo.obj" ∧
    Assemble_objFilename pathBasename (ObjFmtModule.getExtension .Elf32Object) "" "./foo.o"
      = "foo.o" ∧
    Assemble_objFilename pathBasename (ObjFmtModule.getExtension .Elf32Object) "" "./foo.o"
      ≠ "yasm.out" := by
  decide

/-- C1 evaluated: with no object filename set, "src/foo.bar.asm" assembled for
elf64 is written to "foo.bar.o". -/
theorem C1_objFilename_selection_witness :
    ("src/".data = [] ∨ "src/".data.getLast? = some '/') ∧
    Char.ofNat 0 ∉ "src/".data ++ ("foo.bar".data ++ '.' :: "asm".data) ∧
    pathBasename "src/foo.bar.asm" = "foo.bar" ∧
    Assemble_objFilename pathBasename (ObjFmtModule.getExtension .Elf64Object) ""
      "src/foo.bar.asm" = "foo.bar.o" :=
  ⟨by decide, by decide,
    (C1_objFilename_selection .Elf64Object "src/".data "foo.bar".data "asm".data
      (by decide) (by decide) (by decide) (by decide) (by decide)).2.2.1,
    ((C1_objFilename_selection .Elf64Object "src/".data "foo.bar".data "asm".data
      (by decide) (by decide) (by decide) (by decide) (by decide)).2.2.2.2.1
      (by decide)).trans (by decide)⟩

/-- The phases run by `Assemble_phases` form an initial segment of Parse,
Finalize, Optimize, Generate; a phase after Parse runs only when `diags`
showed no error after each earlier phase, and a true result means all four
phases ran. -/
theorem Assemble_phases_order (run : Phase → Sinks → Sinks) (warning_error : Bool)
    (s0 : Sinks) :
    (Assemble_phases run warning_error s0).trace <+: [.Parse, .Finalize, .Optimize, .Generate] ∧
    ((Assemble_phases run warning_error s0).ok = true →
      (Assemble_phases run warning_error s0).trace = [.Parse, .Finalize, .Optimize, .Generate]) ∧
    (Phase.Optimize ∈ (Assemble_phases run warning_error s0).trace →
      (run .Parse s0).diags.hasErrorOccurred = false ∧
      (run .Finalize (run .Parse s0)).diags.hasErrorOccurred = false) := by
  unfold Assemble_phases
  simp only []
  split
  · simp [List.prefix_iff_eq_take]
  · split
    · simp [List.prefix_iff_eq_take]
    · split
      · simp [List.prefix_iff_eq_take]
      · split
        · simp_all [List.prefix_iff_eq_take]
        · split <;> simp_all

/-- C2, the code at the failing input: when Generate is the only phase that
reports an error (to `diags`, the sink it is handed), Assemble still returns
true although `diags.hasErrorOccurred()` holds afterwards; the same error
reported by Parse, Finalize or Optimize makes Assemble return false and stops
the later phases. -/
theorem C2_generate_error_unchecked :
    (Assemble_phases (errorIn .Generate) false noDiagnostics).ok = true ∧
    (Assemble_phases (errorIn .Generate) false noDiagnostics).sinks.diags.hasErrorOccurred
      = true ∧
    (Assemble_phases (errorIn .Generate) false noDiagnostics).trace
      = [.Parse, .Finalize, .Optimize, .Generate] ∧
    Assemble_phases (errorIn .Parse) false noDiagnostics
      = ⟨false, ⟨⟨1, 0⟩, ⟨0, 0⟩⟩, [.Parse]⟩ ∧
    Assemble_phases (errorIn .Finalize) false noDiagnostics
      = ⟨false, ⟨⟨1, 0⟩, ⟨0, 0⟩⟩, [.Parse, .Finalize]⟩ ∧
    Assemble_phases (errorIn .Optimize) false noDiagnostics
      = ⟨false, ⟨⟨1, 0⟩, ⟨0, 0⟩⟩, [.Parse, .Finalize, .Optimize]⟩ := by
  decide

/-! ## Properties of `CoffOutput::ConvertValueToBytes` -/

/-- The effect of `AddReloc`: one relocation appended to the named section,
all other sections unchanged. -/
theorem AddReloc_relocs (sects : Nat → Section) (c : Nat) (reloc : CoffReloc) :
    ((AddReloc sects c reloc) c).relocs = (sects c).relocs ++ [reloc] ∧
    ∀ i, i ≠ c → (AddReloc sects c reloc) i = sects i := by
  constructor
  · simp [AddReloc]
  · intro i hi
    simp [AddReloc, hi]

/-- With a relative part and the shape guard passed, an error of the
relocation body is the error of the call and the sections are unchanged. -/
theorem ConvertValueToBytes_of_error (objfmt : CoffObject) (m_coffsect : CoffSection)
    (sects : Nat → Section) (value : Value) (loc : Location) (sym0 : Symbol) (e : CoffError)
    (hrel : value.relative = some sym0) (hshape : tooComplexShape value = false)
    (hr : relocFor objfmt m_coffsect sects value loc sym0 = .error e) :
    ConvertValueToBytes objfmt m_coffsect sects value loc = (sects, .error e) := by
  simp [ConvertValueToBytes, hshape, Value.OutputBasic, Value.isRelative, hrel, hr]

/-- With a relative part and the shape guard passed, a relocation built by the
relocation body is added to the section of the reference location and
`intn + base + dist` is emitted. -/
theorem ConvertValueToBytes_of_ok (objfmt : CoffObject) (m_coffsect : CoffSection)
    (sects : Nat → Section) (value : Value) (loc : Location) (sym0 : Symbol)
    (reloc : CoffReloc) (intn dist : Int)
    (hrel : value.relative = some sym0) (hshape : tooComplexShape value = false)
    (hr : relocFor objfmt m_coffsect sects value loc sym0 = .ok (reloc, intn, dist)) :
    ConvertValueToBytes objfmt m_coffsect sects value loc =
      (AddReloc sects loc.bc.container reloc, .ok ⟨intn + value.abs + dist, value.size⟩) := by
  simp [ConvertValueToBytes, hshape, Value.OutputBasic, Value.isRelative, hrel, hr]

/-- A Value rejected by the shape guard fails with TooComplex before anything
else happens. -/
theorem ConvertValueToBytes_of_shape (objfmt : CoffObject) (m_coffsect : CoffSection)
    (sects : Nat → Section) (value : Value) (loc : Location)
    (hshape : tooComplexShape value = true) :
    ConvertValueToBytes objfmt m_coffsect sects value loc =
      (sects, .error (.TooComplexError "coff: relocation too complex")) := by
  simp [ConvertValueToBytes, hshape]

/-- C4: ConvertValueToBytes adds no relocation and returns as soon as
OutputBasic succeeds (the Value has no relative part; the absolute part is
emitted as a plain integer); when the Value has a relative part and the
conversion succeeds, exactly one relocation is added, to the section that
contains the reference location, and every other section is unchanged. -/
theorem C4_relocation_count (objfmt : CoffObject) (m_coffsect : CoffSection)
    (sects : Nat → Section) (value : Value) (loc : Location) :
    (value.OutputBasic.2 = true →
      (ConvertValueToBytes objfmt m_coffsect sects value loc).1 = sects ∧
      (tooComplexShape value = false →
        (ConvertValueToBytes objfmt m_coffsect sects value loc).2
          = .ok ⟨value.abs, value.size⟩)) ∧
    (∀ sym e, value.relative = some sym →
      (ConvertValueToBytes objfmt m_coffsect sects value loc).2 = .ok e →
      ∃ reloc,
        ((ConvertValueToBytes objfmt m_coffsect sects value loc).1 loc.bc.container).relocs
          = (sects loc.bc.container).relocs ++ [reloc] ∧
        ∀ i, i ≠ loc.bc.container →
          (ConvertValueToBytes objfmt m_coffsect sects value loc).1 i = sects i) := by
  constructor
  · intro hb
    have hrel : value.relative = none := by
      simpa [Value.OutputBasic, Value.isRelative] using hb
    cases hs : tooComplexShape value <;>
      simp [ConvertValueToBytes, hs, Value.OutputBasic, Value.isRelative, hrel]
  · intro sym e hrel hok
    cases hs : tooComplexShape value
    · cases hr : relocFor objfmt m_coffsect sects value loc sym with
      | error err =>
        rw [ConvertValueToBytes_of_error objfmt m_coffsect sects value loc sym err hrel hs hr]
          at hok
        simp at hok
      | ok r =>
        obtain ⟨reloc, intn, dist⟩ := r
        rw [ConvertValueToBytes_of_ok objfmt m_coffsect sects value loc sym reloc intn dist
          hrel hs hr]
        exact ⟨reloc, AddReloc_relocs sects loc.bc.container reloc⟩
    · rw [ConvertValueToBytes_of_shape objfmt m_coffsect sects value loc hs] at hok
      simp at hok

/-- A successful WRT step: the relocation symbol is the WRT symbol when there is
one; then both symbols are labels of one container and `dist` is the distance
from the WRT label to the referenced label. -/
theorem wrtSwap_ok (sym : Symbol) (wrt : Option Symbol) (sym1 : Symbol) (dist : Int)
    (h : wrtSwap sym wrt = .ok (sym1, dist)) :
    sym1 = wrt.getD sym ∧
    (wrt = none → dist = 0) ∧
    (∀ w, wrt = some w → ∃ rel_loc wrt_loc, sym.label = some rel_loc ∧ w.label = some wrt_loc ∧
      wrt_loc.bc.container = rel_loc.bc.container ∧
      dist = (rel_loc.getOffset : Int) - (wrt_loc.getOffset : Int)) := by
  cases wrt with
  | none =>
    simp [wrtSwap] at h
    simp [h.1, h.2]
  | some w =>
    cases hl1 : sym.label with
    | none => simp [wrtSwap, hl1] at h
    | some rel_loc =>
      cases hl2 : w.label with
      | none => simp [wrtSwap, hl1, hl2] at h
      | some wrt_loc =>
        by_cases hc : wrt_loc.bc.container = rel_loc.bc.container
        · simp [wrtSwap, hl1, hl2, CalcDist, hc] at h
          obtain ⟨h1, h2⟩ := h
          subst h1
          refine ⟨rfl, fun hn => by simp at hn, ?_⟩
          intro w1 hw1
          simp at hw1
          subst hw1
          exact ⟨rel_loc, wrt_loc, rfl, hl2, hc, h2.symm⟩
        · simp [wrtSwap, hl1, hl2, CalcDist, hc] at h

/-- The WRT step fails only with TooComplex, and only when the two symbols are
not both labels of one container. -/
theorem wrtSwap_error (sym : Symbol) (wrt : Option Symbol) (e : CoffError)
    (h : wrtSwap sym wrt = .error e) :
    (∃ msg, e = .TooComplexError msg) ∧
    ∃ w, wrt = some w ∧
      ¬ ∃ l1 l2, sym.label = some l1 ∧ w.label = some l2 ∧ l1.bc.container = l2.bc.container := by
  cases wrt with
  | none => simp [wrtSwap] at h
  | some w =>
    cases hl1 : sym.label with
    | none =>
      simp [wrtSwap, hl1] at h
      exact ⟨⟨_, h.symm⟩, w, rfl, by simp⟩
    | some rel_loc =>
      cases hl2 : w.label with
      | none =>
        simp [wrtSwap, hl1, hl2] at h
        exact ⟨⟨_, h.symm⟩, w, rfl, by simp [hl2]⟩
      | some wrt_loc =>
        by_cases hc : wrt_loc.bc.container = rel_loc.bc.container
        · simp [wrtSwap, hl1, hl2, CalcDist, hc] at h
        · simp [wrtSwap, hl1, hl2, CalcDist, hc] at h
          refine ⟨⟨_, h.symm⟩, w, rfl, ?_⟩
          rintro ⟨l1, l2, h1, h2, h3⟩
          simp at h1
          rw [hl2] at h2
          simp at h2
          subst h1
          subst h2
          exact hc h3.symm

/-- The WRT step fails with TooComplex whenever the two symbols are not both
labels of one container. -/
theorem wrtSwap_of_not_same (sym w : Symbol)
    (h : ¬ ∃ l1 l2, sym.label = some l1 ∧ w.label = some l2 ∧ l1.bc.container = l2.bc.container) :
    ∃ msg, wrtSwap sym (some w) = .error (.TooComplexError msg) := by
  cases hr : wrtSwap sym (some w) with
  | error e =>
    obtain ⟨⟨msg, hm⟩, _⟩ := wrtSwap_error sym (some w) e hr
    exact ⟨msg, by rw [hm]⟩
  | ok r =>
    obtain ⟨sym1, dist⟩ := r
    obtain ⟨_, _, h3⟩ := wrtSwap_ok sym (some w) sym1 dist hr
    obtain ⟨rel_loc, wrt_loc, h1, h2, hc, _⟩ := h3 w rfl
    exact absurd ⟨rel_loc, wrt_loc, h1, h2, hc.symm⟩ h

/-- The target step fails only for a COMMON symbol outside Win32: TooComplex
when the size is not an integer, ValueError when it is negative. -/
theorem relocTarget_error (objfmt : CoffObject) (sects : Nat → Section) (sym : Symbol)
    (e : CoffError) (h : relocTarget objfmt sects sym = .error e) :
    sym.m_visibility &&& Symbol.COMMON ≠ 0 ∧ objfmt.isWin32 = false ∧
    ((e = .TooComplexError "coff: common size too complex" ∧ sym.commonSize = none) ∨
     (e = .ValueError "coff: common size is negative" ∧ ∃ c, sym.commonSize = some c ∧ c < 0)) := by
  unfold relocTarget at h
  by_cases hcm : sym.m_visibility &&& Symbol.COMMON ≠ 0
  · cases hw : objfmt.isWin32
    · cases hcs : sym.commonSize with
      | none =>
        simp [hcm, hw, hcs] at h
        exact ⟨hcm, rfl, Or.inl ⟨h.symm, rfl⟩⟩
      | some c =>
        by_cases hneg : c < 0
        · simp [hcm, hw, hcs, hneg] at h
          exact ⟨hcm, rfl, Or.inr ⟨h.symm, c, rfl, hneg⟩⟩
        · simp [hcm, hw, hcs, hneg] at h
    · simp [hcm, hw] at h
  · simp only [hcm, if_false] at h
    split at h
    · split at h <;> simp at h
    · simp at h

/-- The PC-relative step fails only with TooComplex, for a subtractive part
that `CalcPCRelSub` cannot fold. -/
theorem pcRelAdjust_error (objfmt : CoffObject) (value : Value) (loc : Location) (intn : Int)
    (e : CoffError) (h : pcRelAdjust objfmt value loc intn = .error e) :
    e = .TooComplexError "elf: relocation too complex" ∧ value.subRelative = true ∧
      value.calcPCRelSub loc = none := by
  unfold pcRelAdjust at h
  cases hc : value.calcPCRelSub loc with
  | some d =>
    simp only [hc] at h
    split at h
    · simp at h
    · split at h <;> simp at h
  | none =>
    cases hs : value.subRelative
    · simp [hc, hs] at h
    · simp [hc, hs] at h
      exact ⟨h.symm, rfl, rfl⟩

/-- A subtractive part that `CalcPCRelSub` cannot fold makes the PC-relative
step fail with TooComplex. -/
theorem pcRelAdjust_of_sub (objfmt : CoffObject) (value : Value) (loc : Location) (intn : Int)
    (hs : value.subRelative = true) (hc : value.calcPCRelSub loc = none) :
    pcRelAdjust objfmt value loc intn = .error (.TooComplexError "elf: relocation too complex") := by
  simp [pcRelAdjust, hs, hc]

/-- The type derivation fails only with TypeError. -/
theorem deriveRelocType_error (machine : Machine) (pc_rel : Bool) (value : Value)
    (m_nobase : Bool) (e : CoffError)
    (h : deriveRelocType machine pc_rel value m_nobase = .error e) :
    e = .TypeError "coff: invalid relocation size" := by
  unfold deriveRelocType at h
  cases machine
  · simp only at h
    repeat' split at h
    all_goals first | (simp at h; done) | (simp at h; exact h.symm)
  · simp only at h
    repeat' split at h
    all_goals first | (simp at h; done) | (simp at h; exact h.symm)

/-- An error of the relocation body is the error of its first failing step. -/
theorem relocFor_error (objfmt : CoffObject) (m_coffsect : CoffSection) (sects : Nat → Section)
    (value : Value) (loc : Location) (sym0 : Symbol) (e : CoffError)
    (h : relocFor objfmt m_coffsect sects value loc sym0 = .error e) :
    wrtSwap sym0 value.wrt = .error e ∨
    ∃ dist, wrtSwap sym0 value.wrt = .ok (value.wrt.getD sym0, dist) ∧
      (relocTarget objfmt sects (value.wrt.getD sym0) = .error e ∨
       ∃ sym intn0, relocTarget objfmt sects (value.wrt.getD sym0) = .ok (sym, intn0) ∧
         (pcRelAdjust objfmt value loc intn0 = .error e ∨
          ∃ pc_rel intn1, pcRelAdjust objfmt value loc intn0 = .ok (pc_rel, intn1) ∧
            deriveRelocType objfmt.m_machine pc_rel value m_coffsect.m_nobase = .error e)) := by
  unfold relocFor at h
  cases h1 : wrtSwap sym0 value.wrt with
  | error e1 =>
    simp [h1] at h
    exact Or.inl (by rw [h])
  | ok r1 =>
    obtain ⟨sym1, dist⟩ := r1
    have hs1 : sym1 = value.wrt.getD sym0 := (wrtSwap_ok sym0 value.wrt sym1 dist h1).1
    subst hs1
    refine Or.inr ⟨dist, rfl, ?_⟩
    cases h2 : relocTarget objfmt sects (value.wrt.getD sym0) with
    | error e2 =>
      simp [h1, h2] at h
      exact Or.inl (by rw [h])
    | ok r2 =>
      obtain ⟨sym, intn0⟩ := r2
      refine Or.inr ⟨sym, intn0, rfl, ?_⟩
      cases h3 : pcRelAdjust objfmt value loc intn0 with
      | error e3 =>
        simp [h1, h2, h3] at h
        exact Or.inl (by rw [h])
      | ok r3 =>
        obtain ⟨pc_rel, intn1⟩ := r3
        refine Or.inr ⟨pc_rel, intn1, rfl, ?_⟩
        cases h4 : deriveRelocType objfmt.m_machine pc_rel value m_coffsect.m_nobase with
        | error e4 =>
          simp [h1, h2, h3, h4] at h
          rw [h]
        | ok rtype =>
          simp [h1, h2, h3, h4] at h

/-- A successful relocation body: every step succeeded, and the relocation is
built from the VMA-based address, the target symbol and the derived type. -/
theorem relocFor_ok (objfmt : CoffObject) (m_coffsect : CoffSection) (sects : Nat → Section)
    (value : Value) (loc : Location) (sym0 : Symbol) (reloc : CoffReloc) (intn dist : Int)
    (h : relocFor objfmt m_coffsect sects value loc sym0 = .ok (reloc, intn, dist)) :
    wrtSwap sym0 value.wrt = .ok (value.wrt.getD sym0, dist) ∧
    ∃ sym intn0 pc_rel intn1 rtype,
      relocTarget objfmt sects (value.wrt.getD sym0) = .ok (sym, intn0) ∧
      pcRelAdjust objfmt value loc intn0 = .ok (pc_rel, intn1) ∧
      deriveRelocType objfmt.m_machine pc_rel value m_coffsect.m_nobase = .ok rtype ∧
      intn = (if value.segOf || value.sectionRelative then 0 else intn1) ∧
      reloc = mkReloc objfmt.m_machine
        ((loc.getOffset : Int) + ((sects loc.bc.container).vma : Int)) sym rtype := by
  unfold relocFor at h
  cases h1 : wrtSwap sym0 value.wrt with
  | error e1 => simp [h1] at h
  | ok r1 =>
    obtain ⟨sym1, dist1⟩ := r1
    have hs1 : sym1 = value.wrt.getD sym0 := (wrtSwap_ok sym0 value.wrt sym1 dist1 h1).1
    subst hs1
    cases h2 : relocTarget objfmt sects (value.wrt.getD sym0) with
    | error e2 => simp [h1, h2] at h
    | ok r2 =>
      obtain ⟨sym, intn0⟩ := r2
      cases h3 : pcRelAdjust objfmt value loc intn0 with
      | error e3 => simp [h1, h2, h3] at h
      | ok r3 =>
        obtain ⟨pc_rel, intn1⟩ := r3
        cases h4 : deriveRelocType objfmt.m_machine pc_rel value m_coffsect.m_nobase with
        | error e4 => simp [h1, h2, h3, h4] at h
        | ok rtype =>
          simp [h1, h2, h3, h4] at h
          obtain ⟨hr, hi, hd⟩ := h
          subst hd
          exact ⟨rfl, sym, intn0, pc_rel, intn1, rtype, rfl, h3, h4, by simp [← hi], hr.symm⟩

/-- The shape guard in words: a right shift, or seg-of or section-relative
together with a WRT symbol or a subtractive part. -/
theorem tooComplexShape_iff (value : Value) :
    tooComplexShape value = true ↔
      (value.rshift > 0 ∨
       ((value.segOf = true ∨ value.sectionRelative = true) ∧
        (value.wrt.isSome = true ∨ value.subRelative = true))) := by
  unfold tooComplexShape Value.isWRT
  cases value.segOf <;> cases value.sectionRelative <;> cases value.wrt.isSome <;>
    cases value.subRelative <;> simp

/-- C5 (amended): ConvertValueToBytes fails with TooComplex for every Value
with a right shift greater than 0, for every seg-of or section-relative Value
that also has a WRT symbol or a subtractive part, and for every Value sym WRT
wrt whose two symbols are not both labels in the same section; a Value with a
relative part and a subtractive part that cannot be folded into a PC-relative
delta always fails, with TooComplex, except that a negative COMMON size of the
relocation symbol outside Win32 raises the earlier ValueError instead; and a
TooComplex failure occurs only for one of these shapes or for a COMMON size
that does not reduce to an integer. -/
theorem C5_tooComplex_shapes (objfmt : CoffObject) (m_coffsect : CoffSection)
    (sects : Nat → Section) (value : Value) (loc : Location) :
    (value.rshift > 0 →
      ∃ msg, (ConvertValueToBytes objfmt m_coffsect sects value loc).2
        = .error (.TooComplexError msg)) ∧
    ((value.segOf = true ∨ value.sectionRelative = true) →
      (value.wrt.isSome = true ∨ value.subRelative = true) →
      ∃ msg, (ConvertValueToBytes objfmt m_coffsect sects value loc).2
        = .error (.TooComplexError msg)) ∧
    (∀ sym w, value.relative = some sym → value.wrt = some w →
      (¬ ∃ l1 l2, sym.label = some l1 ∧ w.label = some l2 ∧ l1.bc.container = l2.bc.container) →
      ∃ msg, (ConvertValueToBytes objfmt m_coffsect sects value loc).2
        = .error (.TooComplexError msg)) ∧
    (∀ sym, value.relative = some sym → value.subRelative = true →
      value.calcPCRelSub loc = none →
      (∃ msg, (ConvertValueToBytes objfmt m_coffsect sects value loc).2
        = .error (.TooComplexError msg)) ∨
      ((ConvertValueToBytes objfmt m_coffsect sects value loc).2
        = .error (.ValueError "coff: common size is negative") ∧
       (value.wrt.getD sym).m_visibility &&& Symbol.COMMON ≠ 0 ∧ objfmt.isWin32 = false ∧
       ∃ c, (value.wrt.getD sym).commonSize = some c ∧ c < 0)) ∧
    (∀ msg, (ConvertValueToBytes objfmt m_coffsect sects value loc).2
        = .error (.TooComplexError msg) →
      value.rshift > 0 ∨
      ((value.segOf = true ∨ value.sectionRelative = true) ∧
        (value.wrt.isSome = true ∨ value.subRelative = true)) ∨
      (∃ sym w, value.relative = some sym ∧ value.wrt = some w ∧
        ¬ ∃ l1 l2, sym.label = some l1 ∧ w.label = some l2 ∧
          l1.bc.container = l2.bc.container) ∨
      (value.subRelative = true ∧ value.calcPCRelSub loc = none) ∨
      (∃ sym, value.relative = some sym ∧
        (value.wrt.getD sym).m_visibility &&& Symbol.COMMON ≠ 0 ∧ objfmt.isWin32 = false ∧
        (value.wrt.getD sym).commonSize = none)) := by
  have hshape : tooComplexShape value = true →
      ∃ msg, (ConvertValueToBytes objfmt m_coffsect sects value loc).2
        = .error (.TooComplexError msg) := by
    intro hs
    rw [ConvertValueToBytes_of_shape objfmt m_coffsect sects value loc hs]
    exact ⟨_, rfl⟩
  refine ⟨?_, ?_, ?_, ?_, ?_⟩
  · intro h
    exact hshape ((tooComplexShape_iff value).mpr (Or.inl h))
  · intro h1 h2
    exact hshape ((tooComplexShape_iff value).mpr (Or.inr ⟨h1, h2⟩))
  · intro sym w hrel hwrt hns
    cases hs : tooComplexShape value
    · obtain ⟨msg, hm⟩ := wrtSwap_of_not_same sym w hns
      have hr : relocFor objfmt m_coffsect sects value loc sym = .error (.TooComplexError msg) := by
        simp [relocFor, hwrt, hm]
      rw [ConvertValueToBytes_of_error objfmt m_coffsect sects value loc sym _ hrel hs hr]
      exact ⟨msg, rfl⟩
    · exact hshape hs
  · intro sym hrel hsub hpc
    cases hs : tooComplexShape value
    · cases hr : relocFor objfmt m_coffsect sects value loc sym with
      | error e =>
        rw [ConvertValueToBytes_of_error objfmt m_coffsect sects value loc sym e hrel hs hr]
        rcases relocFor_error objfmt m_coffsect sects value loc sym e hr with h1 | ⟨dist, _, h2⟩
        · obtain ⟨⟨msg, hm⟩, _⟩ := wrtSwap_error sym value.wrt e h1
          exact Or.inl ⟨msg, by rw [hm]⟩
        · rcases h2 with h2 | ⟨sym2, intn0, _, h3⟩
          · obtain ⟨hcm, hw, h4⟩ := relocTarget_error objfmt sects _ e h2
            rcases h4 with ⟨he, _⟩ | ⟨he, hneg⟩
            · exact Or.inl ⟨_, by rw [he]⟩
            · exact Or.inr ⟨by rw [he], hcm, hw, hneg⟩
          · rcases h3 with h3 | ⟨pc_rel, intn1, h3, _⟩
            · obtain ⟨he, _, _⟩ := pcRelAdjust_error objfmt value loc intn0 e h3
              exact Or.inl ⟨_, by rw [he]⟩
            · rw [pcRelAdjust_of_sub objfmt value loc intn0 hsub hpc] at h3
              simp at h3
      | ok r =>
        obtain ⟨reloc, intn, dist⟩ := r
        obtain ⟨_, sym2, intn0, pc_rel, intn1, rtype, _, h3, _⟩ :=
          relocFor_ok objfmt m_coffsect sects value loc sym reloc intn dist hr
        rw [pcRelAdjust_of_sub objfmt value loc intn0 hsub hpc] at h3
        simp at h3
    · exact Or.inl (hshape hs)
  · intro msg hm
    cases hs : tooComplexShape value
    · cases hrel : value.relative with
      | none =>
        simp [ConvertValueToBytes, hs, Value.OutputBasic, Value.isRelative, hrel] at hm
      | some sym =>
        cases hr : relocFor objfmt m_coffsect sects value loc sym with
        | error e =>
          rw [ConvertValueToBytes_of_error objfmt m_coffsect sects value loc sym e hrel hs hr]
            at hm
          simp at hm
          subst hm
          rcases relocFor_error objfmt m_coffsect sects value loc sym _ hr with
            h1 | ⟨dist, _, h2⟩
          · obtain ⟨_, w, hw, hns⟩ := wrtSwap_error sym value.wrt _ h1
            exact Or.inr (Or.inr (Or.inl ⟨sym, w, rfl, hw, hns⟩))
          · rcases h2 with h2 | ⟨sym2, intn0, _, h3⟩
            · obtain ⟨hcm, hw, h4⟩ := relocTarget_error objfmt sects _ _ h2
              rcases h4 with ⟨_, hnone⟩ | ⟨he, _⟩
              · exact Or.inr (Or.inr (Or.inr (Or.inr ⟨sym, rfl, hcm, hw, hnone⟩)))
              · simp at he
            · rcases h3 with h3 | ⟨pc_rel, intn1, _, h4⟩
              · obtain ⟨_, hsub, hpc⟩ := pcRelAdjust_error objfmt value loc intn0 _ h3
                exact Or.inr (Or.inr (Or.inr (Or.inl ⟨hsub, hpc⟩)))
              · have := deriveRelocType_error _ _ _ _ _ h4
                simp at this
        | ok r =>
          obtain ⟨reloc, intn, dist⟩ := r
          rw [ConvertValueToBytes_of_ok objfmt m_coffsect sects value loc sym reloc intn dist
            hrel hs hr] at hm
          simp at hm
    · rcases (tooComplexShape_iff value).mp hs with h | h
      · exact Or.inl h
      · exact Or.inr (Or.inl h)

/-- After the numbering loop every section has VMA equal to its LMA when
`m_set_vma` holds and VMA 0 otherwise. -/
theorem numberSections_vma (m_set_vma : Bool) (sections : List Section) (scnum addr : Nat) :
    ∀ s ∈ (numberSections m_set_vma sections scnum addr).1,
      s.vma = if m_set_vma then s.lma else 0 := by
  induction sections generalizing scnum addr with
  | nil => simp [numberSections]
  | cons s rest ih =>
    intro t ht
    unfold numberSections at ht
    by_cases hd : s.coffsect.m_isdebug = true
    · simp [hd] at ht
      rcases ht with ht | ht
      · subst ht
        simp
      · exact ih _ _ t ht
    · simp [hd] at ht
      rcases ht with ht | ht
      · subst ht
        cases m_set_vma <;> simp
      · exact ih _ _ t ht

/-- The VMA of every container after the numbering loop of `Output`. -/
theorem sectionMap_numbered_vma (objfmt : CoffObject) (sections : List Section) (i : Nat) :
    (sectionMap (Output_numberSections objfmt sections) i).vma =
      if objfmt.m_set_vma then (sectionMap (Output_numberSections objfmt sections) i).lma
      else 0 := by
  unfold sectionMap
  by_cases hi : i < (Output_numberSections objfmt sections).length
  · have hmem : (Output_numberSections objfmt sections)[i] ∈ Output_numberSections objfmt sections :=
      List.getElem_mem hi
    have := numberSections_vma objfmt.m_set_vma sections 1 0 _ hmem
    simpa [List.getD, List.getElem?_eq_getElem hi] using this
  · have hn : (Output_numberSections objfmt sections)[i]? = none := by
      apply List.getElem?_eq_none
      omega
    simp [List.getD, hn, emptySection]

/-- Without a foldable subtractive part the PC-relative step leaves `intn`
unchanged and reports not PC-relative. -/
theorem pcRelAdjust_of_none (objfmt : CoffObject) (value : Value) (loc : Location) (intn : Int)
    (pc_rel : Bool) (intn1 : Int) (hpc : value.calcPCRelSub loc = none)
    (h : pcRelAdjust objfmt value loc intn = .ok (pc_rel, intn1)) :
    pc_rel = false ∧ intn1 = intn := by
  unfold pcRelAdjust at h
  simp only [hpc] at h
  split at h
  · simp at h
  · simp at h
    exact ⟨h.1, h.2.symm⟩

/-- The target step for a COMMON symbol keeps the symbol and yields its common
size outside Win32 and 0 in Win32 and Win64. -/
theorem relocTarget_common (objfmt : CoffObject) (sects : Nat → Section) (sym sym2 : Symbol)
    (intn0 : Int) (hComBit : sym.m_visibility &&& Symbol.COMMON ≠ 0)
    (h : relocTarget objfmt sects sym = .ok (sym2, intn0)) :
    sym2 = sym ∧
    (objfmt.isWin32 = true → intn0 = 0) ∧
    (objfmt.isWin32 = false → ∃ c, sym.commonSize = some c ∧ 0 ≤ c ∧ intn0 = c) := by
  unfold relocTarget at h
  simp only [hComBit, ne_eq, not_false_eq_true, if_true] at h
  cases hw : objfmt.isWin32
  · simp only [hw, Bool.not_false, if_true] at h
    cases hcs : sym.commonSize with
    | none => simp [hcs] at h
    | some c =>
      simp only [hcs] at h
      by_cases hneg : c < 0
      · simp [hneg] at h
      · simp only [hneg, if_false, Except.ok.injEq, Prod.mk.injEq] at h
        refine ⟨h.1.symm, fun hc => by simp at hc, fun _ => ⟨c, rfl, not_lt.mp hneg, ?_⟩⟩
        rw [← h.2]
        simp
  · simp only [hw, Bool.not_true, Bool.false_eq_true, if_false, Except.ok.injEq,
      Prod.mk.injEq] at h
    exact ⟨h.1.symm, fun _ => h.2.symm, fun hc => by simp at hc⟩

/-- A successful PC-relative step adds to `intn` nothing when there is no
foldable subtractive part, and otherwise the folded delta plus the adjustment
of the object format: next_insn in Win64, the Value size in bytes in Win32,
minus the offset of the reference in standard COFF. -/
theorem pcRelAdjust_ok (objfmt : CoffObject) (value : Value) (loc : Location) (intn : Int)
    (pc_rel : Bool) (intn1 : Int)
    (h : pcRelAdjust objfmt value loc intn = .ok (pc_rel, intn1)) :
    (value.calcPCRelSub loc = none → intn1 = intn) ∧
    (∀ d, value.calcPCRelSub loc = some d →
      intn1 = intn + d +
        (if objfmt.isWin64 then (value.nextInsn : Int)
         else if objfmt.isWin32 then ((value.size / 8 : Nat) : Int)
         else - (loc.getOffset : Int))) := by
  unfold pcRelAdjust at h
  cases hc : value.calcPCRelSub loc with
  | none =>
    simp only [hc] at h
    split at h
    · simp at h
    · simp only [Except.ok.injEq, Prod.mk.injEq] at h
      exact ⟨fun _ => h.2.symm, fun d hd => by simp at hd⟩
  | some d0 =>
    simp only [hc] at h
    refine ⟨fun hn => by simp at hn, ?_⟩
    intro d hd
    simp only [Option.some.injEq] at hd
    subst hd
    split at h
    · rename_i hw
      simp only [Except.ok.injEq, Prod.mk.injEq] at h
      simp only [hw, if_true]
      exact h.2.symm
    · rename_i hw
      split at h
      · rename_i hw2
        simp only [Except.ok.injEq, Prod.mk.injEq] at h
        simp only [hw, hw2, if_true, if_false]
        exact h.2.symm
      · rename_i hw2
        simp only [Except.ok.injEq, Prod.mk.injEq] at h
        have e1 : objfmt.isWin64 = false := by simpa using hw
        have e2 : objfmt.isWin32 = false := by simpa using hw2
        rw [← h.2, e1, e2]
        simp only [Bool.false_eq_true, if_false]
        ring

/-- C7 (amended): when the symbol a COFF relocation is generated against is
COMMON, standard COFF (not Win32) adds the symbol's common size to the addend,
failing with TooComplex if the size does not reduce to an integer and with
ValueError if it is negative, while Win32 and Win64 (both Win32 objects) add
nothing; for a seg-of or section-relative Value the addend, common size
included, is then reset to 0.  So whenever the conversion of a Value whose
relocation symbol is COMMON succeeds, one relocation against that symbol is
appended to the section of the reference and the emitted value is the
absolute part plus the WRT distance, plus, unless the Value is seg-of or
section-relative, the common size (outside Win32 only) and the PC-relative
adjustment. -/
theorem C7_common_size (objfmt : CoffObject) (m_coffsect : CoffSection)
    (sects : Nat → Section) (sym : Symbol)
    (hComBit : sym.m_visibility &&& Symbol.COMMON ≠ 0) :
    (objfmt.isWin32 = false → sym.commonSize = none →
      relocTarget objfmt sects sym = .error (.TooComplexError "coff: common size too complex")) ∧
    (objfmt.isWin32 = false → ∀ c, sym.commonSize = some c → c < 0 →
      relocTarget objfmt sects sym = .error (.ValueError "coff: common size is negative")) ∧
    (objfmt.isWin32 = false → ∀ c, sym.commonSize = some c → 0 ≤ c →
      relocTarget objfmt sects sym = .ok (sym, c)) ∧
    (objfmt.isWin32 = true → relocTarget objfmt sects sym = .ok (sym, 0)) ∧
    (standardCoff.isWin32 = false ∧ win32Coff.isWin32 = true ∧ win64Coff.isWin32 = true) ∧
    (∀ (value : Value) (loc : Location) (sym0 : Symbol) (e : Emitted),
      value.relative = some sym0 → value.wrt.getD sym0 = sym →
      (ConvertValueToBytes objfmt m_coffsect sects value loc).2 = .ok e →
      ∃ (reloc : CoffReloc) (csize dist pcadj : Int),
        ((ConvertValueToBytes objfmt m_coffsect sects value loc).1 loc.bc.container).relocs
          = (sects loc.bc.container).relocs ++ [reloc] ∧
        reloc.sym = sym ∧
        wrtSwap sym0 value.wrt = .ok (sym, dist) ∧
        (objfmt.isWin32 = true → csize = 0) ∧
        (objfmt.isWin32 = false → sym.commonSize = some csize ∧ 0 ≤ csize) ∧
        (value.calcPCRelSub loc = none → pcadj = 0) ∧
        (∀ d, value.calcPCRelSub loc = some d →
          pcadj = d +
            (if objfmt.isWin64 then (value.nextInsn : Int)
             else if objfmt.isWin32 then ((value.size / 8 : Nat) : Int)
             else - (loc.getOffset : Int))) ∧
        e.intn = (if value.segOf || value.sectionRelative then 0 else csize + pcadj)
          + value.abs + dist ∧
        e.size = value.size) ∧
    (∀ (value : Value) (loc : Location) (sym0 : Symbol) (dist : Int),
      objfmt.isWin32 = false →
      value.relative = some sym0 → tooComplexShape value = false →
      wrtSwap sym0 value.wrt = .ok (sym, dist) →
      (sym.commonSize = none →
        ConvertValueToBytes objfmt m_coffsect sects value loc
          = (sects, .error (.TooComplexError "coff: common size too complex"))) ∧
      (∀ c, sym.commonSize = some c → c < 0 →
        ConvertValueToBytes objfmt m_coffsect sects value loc
          = (sects, .error (.ValueError "coff: common size is negative")))) := by
  have h1 : objfmt.isWin32 = false → sym.commonSize = none →
      relocTarget objfmt sects sym = .error (.TooComplexError "coff: common size too complex") := by
    intro hw hn
    simp [relocTarget, hComBit, hw, hn]
  have h2 : objfmt.isWin32 = false → ∀ c, sym.commonSize = some c → c < 0 →
      relocTarget objfmt sects sym = .error (.ValueError "coff: common size is negative") := by
    intro hw c hc hneg
    simp [relocTarget, hComBit, hw, hc, hneg]
  have h3 : objfmt.isWin32 = false → ∀ c, sym.commonSize = some c → 0 ≤ c →
      relocTarget objfmt sects sym = .ok (sym, c) := by
    intro hw c hc hpos
    have : ¬ c < 0 := not_lt.mpr hpos
    simp [relocTarget, hComBit, hw, hc, this]
  have h4 : objfmt.isWin32 = true → relocTarget objfmt sects sym = .ok (sym, 0) := by
    intro hw
    simp [relocTarget, hComBit, hw]
  refine ⟨h1, h2, h3, h4, ⟨rfl, rfl, rfl⟩, ?_, ?_⟩
  · intro value loc sym0 e hrel hsym hok
    cases hs : tooComplexShape value
    · cases hr : relocFor objfmt m_coffsect sects value loc sym0 with
      | error err =>
        rw [ConvertValueToBytes_of_error objfmt m_coffsect sects value loc sym0 err hrel hs hr]
          at hok
        simp at hok
      | ok r =>
        obtain ⟨reloc, intn, dist⟩ := r
        rw [ConvertValueToBytes_of_ok objfmt m_coffsect sects value loc sym0 reloc intn dist
          hrel hs hr] at hok ⊢
        simp only [Except.ok.injEq] at hok
        obtain ⟨hsw, sym2, intn0, pc_rel, intn1, rtype, ht, hp, _, hi, hre⟩ :=
          relocFor_ok objfmt m_coffsect sects value loc sym0 reloc intn dist hr
        rw [hsym] at ht hsw
        obtain ⟨hs2, hcw, hcs⟩ := relocTarget_common objfmt sects sym sym2 intn0 hComBit ht
        obtain ⟨hp0, hp1⟩ := pcRelAdjust_ok objfmt value loc intn0 pc_rel intn1 hp
        have hrsym : reloc.sym = sym := by
          rw [hre, hs2]
          cases objfmt.m_machine <;> rfl
        refine ⟨reloc, intn0, dist, intn1 - intn0,
          (AddReloc_relocs sects loc.bc.container reloc).1, hrsym, hsw, hcw, ?_, ?_, ?_, ?_, ?_⟩
        · intro hw
          obtain ⟨c, hc1, hc2, hc3⟩ := hcs hw
          rw [hc3]
          exact ⟨hc1, hc2⟩
        · intro hn
          rw [hp0 hn]
          ring
        · intro d hd
          rw [hp1 d hd]
          ring
        · rw [← hok, hi]
          simp only
          split <;> ring
        · rw [← hok]
    · rw [ConvertValueToBytes_of_shape objfmt m_coffsect sects value loc hs] at hok
      simp at hok
  · intro value loc sym0 dist hw hrel hs hsw
    constructor
    · intro hn
      apply ConvertValueToBytes_of_error objfmt m_coffsect sects value loc sym0 _ hrel hs
      simp [relocFor, hsw, h1 hw hn]
    · intro c hc hneg
      apply ConvertValueToBytes_of_error objfmt m_coffsect sects value loc sym0 _ hrel hs
      simp [relocFor, hsw, h2 hw c hc hneg]

/-- C7 refuted: in standard COFF a 32-bit section-relative reference to the
COMMON symbol of size 8 is converted with a relocation against that symbol,
but the emitted value is 0: the common size is not in it. -/
theorem C7_section_relative_counterexample :
    exCommon.m_visibility &&& Symbol.COMMON ≠ 0 ∧ exCommon.commonSize = some 8 ∧
    standardCoff.isWin32 = false ∧
    (exSecRelValue 32 exCommon).relative = some exCommon ∧
    (exSecRelValue 32 exCommon).sectionRelative = true ∧
    ((ConvertValueToBytes standardCoff exDataCoffsect
        (sectionMap (Output_numberSections standardCoff exSections))
        (exSecRelValue 32 exCommon) exLoc).1 1).relocs
      = [⟨.Coff32Reloc, 20, exCommon, .I386_SECREL⟩] ∧
    (ConvertValueToBytes standardCoff exDataCoffsect
        (sectionMap (Output_numberSections standardCoff exSections))
        (exSecRelValue 32 exCommon) exLoc).2 = .ok ⟨0, 32⟩ := by
  refine ⟨by decide, by decide, rfl, rfl, rfl, by decide, rfl⟩

/-- C7 evaluated: in standard COFF a plain 32-bit reference to the COMMON symbol
of size 8 emits 8 and appends a relocation against that symbol, while Win32
emits 0. -/
theorem C7_common_size_witness :
    exCommon.m_visibility &&& Symbol.COMMON ≠ 0 ∧
    (exValue 32 exCommon).relative = some exCommon ∧
    (ConvertValueToBytes standardCoff exDataCoffsect
        (sectionMap (Output_numberSections standardCoff exSections)) (exValue 32 exCommon)
        exLoc).2 = .ok ⟨8, 32⟩ ∧
    (ConvertValueToBytes win32Coff exDataCoffsect
        (sectionMap (Output_numberSections win32Coff exSections)) (exValue 32 exCommon)
        exLoc).2 = .ok ⟨0, 32⟩ ∧
    ∃ (reloc : CoffReloc) (csize dist pcadj : Int),
      ((ConvertValueToBytes standardCoff exDataCoffsect
          (sectionMap (Output_numberSections standardCoff exSections)) (exValue 32 exCommon)
          exLoc).1 exLoc.bc.container).relocs
        = (sectionMap (Output_numberSections standardCoff exSections) exLoc.bc.container).relocs
          ++ [reloc] ∧
      reloc.sym = exCommon ∧
      (standardCoff.isWin32 = false → exCommon.commonSize = some csize ∧ 0 ≤ csize) ∧
      ((exValue 32 exCommon).calcPCRelSub exLoc = none → pcadj = 0) ∧
      (8 : Int) = (if (exValue 32 exCommon).segOf || (exValue 32 exCommon).sectionRelative
          then 0 else csize + pcadj) + (exValue 32 exCommon).abs + dist :=
  ⟨by decide, rfl, rfl, rfl,
    match (C7_common_size standardCoff exDataCoffsect
        (sectionMap (Output_numberSections standardCoff exSections)) exCommon
        (by decide)).2.2.2.2.2.1 (exValue 32 exCommon) exLoc exCommon ⟨8, 32⟩ rfl rfl
        (by rfl) with
    | ⟨reloc, csize, dist, pcadj, h1, h2, _, _, h5, h6, _, h8, _⟩ =>
      ⟨reloc, csize, dist, pcadj, h1, h2, h5, h6, h8⟩⟩

/-- C8 (amended): the address recorded in every relocation created by
ConvertValueToBytes is VMA-based: it equals the offset of the reference
location within its section plus that section's VMA; after the numbering loop
of `Output` that VMA equals the section's LMA when `m_set_vma` holds and is 0
otherwise. -/
theorem C8_reloc_address (objfmt : CoffObject) (m_coffsect : CoffSection)
    (sects : Nat → Section) (value : Value) (loc : Location) (sym : Symbol) (e : Emitted)
    (hrel : value.relative = some sym)
    (hok : (ConvertValueToBytes objfmt m_coffsect sects value loc).2 = .ok e) :
    (∃ reloc, (ConvertValueToBytes objfmt m_coffsect sects value loc).1
        = AddReloc sects loc.bc.container reloc ∧
      reloc.addr = (loc.getOffset : Int) + ((sects loc.bc.container).vma : Int)) ∧
    (∀ (sections : List Section) (i : Nat),
      (sectionMap (Output_numberSections objfmt sections) i).vma =
        if objfmt.m_set_vma then (sectionMap (Output_numberSections objfmt sections) i).lma
        else 0) := by
  refine ⟨?_, fun sections i => sectionMap_numbered_vma objfmt sections i⟩
  cases hs : tooComplexShape value
  · cases hr : relocFor objfmt m_coffsect sects value loc sym with
    | error err =>
      rw [ConvertValueToBytes_of_error objfmt m_coffsect sects value loc sym err hrel hs hr] at hok
      simp at hok
    | ok r =>
      obtain ⟨reloc, intn, dist⟩ := r
      rw [ConvertValueToBytes_of_ok objfmt m_coffsect sects value loc sym reloc intn dist
        hrel hs hr]
      obtain ⟨_, sym2, intn0, pc_rel, intn1, rtype, _, _, _, _, hre⟩ :=
        relocFor_ok objfmt m_coffsect sects value loc sym reloc intn dist hr
      refine ⟨reloc, rfl, ?_⟩
      rw [hre]
      cases objfmt.m_machine <;> rfl
  · rw [ConvertValueToBytes_of_shape objfmt m_coffsect sects value loc hs] at hok
    simp at hok

/-- C8 refuted: in Win32 a reference at offset 4 of the second section, whose
LMA is 16 and whose VMA is 0, gets relocation address 4 rather than 20. -/
theorem C8_lma_counterexample :
    (ConvertValueToBytes win32Coff exDataCoffsect
        (sectionMap (Output_numberSections win32Coff exSections)) (exValue 32 exExtern) exLoc).2
      = .ok ⟨0, 32⟩ ∧
    ((ConvertValueToBytes win32Coff exDataCoffsect
        (sectionMap (Output_numberSections win32Coff exSections)) (exValue 32 exExtern) exLoc).1
        1).relocs = [⟨.Coff32Reloc, 4, exExtern, .I386_ADDR32⟩] ∧
    exLoc.bc.container = 1 ∧ exLoc.getOffset = 4 ∧
    (sectionMap (Output_numberSections win32Coff exSections) 1).lma = 16 ∧
    (sectionMap (Output_numberSections win32Coff exSections) 1).vma = 0 := by
  refine ⟨by rfl, by decide, by decide, by decide, by decide, by decide⟩

/-- C8 evaluated in standard COFF for a reference at offset 4 of `.data`. -/
theorem C8_reloc_address_witness :
    (exValue 32 exExtern).relative = some exExtern ∧
    (ConvertValueToBytes standardCoff exDataCoffsect
        (sectionMap (Output_numberSections standardCoff exSections)) (exValue 32 exExtern)
        exLoc).2 = .ok ⟨0, 32⟩ ∧
    ∃ reloc, (ConvertValueToBytes standardCoff exDataCoffsect
        (sectionMap (Output_numberSections standardCoff exSections)) (exValue 32 exExtern)
        exLoc).1
        = AddReloc (sectionMap (Output_numberSections standardCoff exSections))
            exLoc.bc.container reloc ∧
      reloc.addr = (exLoc.getOffset : Int)
        + ((sectionMap (Output_numberSections standardCoff exSections) exLoc.bc.container).vma
            : Int) :=
  ⟨rfl, rfl,
    (C8_reloc_address standardCoff exDataCoffsect
      (sectionMap (Output_numberSections standardCoff exSections)) (exValue 32 exExtern) exLoc
      exExtern ⟨0, 32⟩ rfl rfl).1⟩

/-- The symbol chosen by the target step is the given symbol or the section
symbol of the section holding the given symbol's label. -/
theorem relocTarget_ok_sym (objfmt : CoffObject) (sects : Nat → Section) (sym1 sym : Symbol)
    (intn : Int) (h : relocTarget objfmt sects sym1 = .ok (sym, intn)) :
    sym = sym1 ∨ ∃ symloc, sym1.label = some symloc ∧
      sym = (sects symloc.bc.container).coffsect.m_sym := by
  unfold relocTarget at h
  simp only at h
  split at h
  · split at h
    · split at h
      · simp at h
      · split at h
        · simp at h
        · simp at h
          exact Or.inl h.1.symm
    · simp at h
      exact Or.inl h.1.symm
  · split at h
    · split at h
      · rename_i symloc hl
        simp at h
        exact Or.inr ⟨symloc, hl, h.1.symm⟩
      · simp at h
        exact Or.inl h.1.symm
    · simp at h
      exact Or.inl h.1.symm

/-- C9: for a Value sym WRT wrt in which both symbols are labels in the same
section, the WRT step selects wrt with the distance from wrt's location to
sym's location, and whenever the conversion succeeds one relocation is
appended to the relocation list of the section holding the reference, every
other section staying as it is; that relocation is against wrt or wrt's
section symbol and is the very relocation a plain reference to wrt appends,
while the emitted value is what the plain reference to wrt emits plus that
inter-label distance. -/
theorem C9_wrt_relocation (objfmt : CoffObject) (m_coffsect : CoffSection)
    (sects : Nat → Section) (value : Value) (loc : Location) (sym w : Symbol)
    (rel_loc wrt_loc : Location)
    (hrel : value.relative = some sym) (hwrt : value.wrt = some w)
    (hl1 : sym.label = some rel_loc) (hl2 : w.label = some wrt_loc)
    (hsame : rel_loc.bc.container = wrt_loc.bc.container) :
    wrtSwap sym value.wrt
      = .ok (w, (rel_loc.getOffset : Int) - (wrt_loc.getOffset : Int)) ∧
    ∀ e, (ConvertValueToBytes objfmt m_coffsect sects value loc).2 = .ok e →
    ∃ reloc e0,
      (ConvertValueToBytes objfmt m_coffsect sects value loc).1
        = AddReloc sects loc.bc.container reloc ∧
      ((ConvertValueToBytes objfmt m_coffsect sects value loc).1 loc.bc.container).relocs
        = (sects loc.bc.container).relocs ++ [reloc] ∧
      (∀ i, i ≠ loc.bc.container →
        (ConvertValueToBytes objfmt m_coffsect sects value loc).1 i = sects i) ∧
      (reloc.sym = w ∨ reloc.sym = (sects wrt_loc.bc.container).coffsect.m_sym) ∧
      ConvertValueToBytes objfmt m_coffsect sects { value with relative := some w, wrt := none } loc
        = (AddReloc sects loc.bc.container reloc, .ok e0) ∧
      ((ConvertValueToBytes objfmt m_coffsect sects
          { value with relative := some w, wrt := none } loc).1 loc.bc.container).relocs
        = (sects loc.bc.container).relocs ++ [reloc] ∧
      e.intn = e0.intn + ((rel_loc.getOffset : Int) - (wrt_loc.getOffset : Int)) ∧
      e.size = e0.size := by
  refine ⟨by simp [wrtSwap, hwrt, hl1, hl2, CalcDist, hsame], ?_⟩
  intro e hok
  cases hs : tooComplexShape value
  · cases hr : relocFor objfmt m_coffsect sects value loc sym with
    | error err =>
      rw [ConvertValueToBytes_of_error objfmt m_coffsect sects value loc sym err hrel hs hr] at hok
      simp at hok
    | ok r =>
      obtain ⟨reloc, intn, dist⟩ := r
      rw [ConvertValueToBytes_of_ok objfmt m_coffsect sects value loc sym reloc intn dist
        hrel hs hr] at hok ⊢
      simp at hok
      obtain ⟨hsw, sym2, intn0, pc_rel, intn1, rtype, ht, hp, hd, hi, hre⟩ :=
        relocFor_ok objfmt m_coffsect sects value loc sym reloc intn dist hr
      simp [hwrt] at ht
      -- the distance is the one between the two labels
      obtain ⟨rl, wl, hrl, hwl, _, hdist⟩ := (wrtSwap_ok sym value.wrt _ dist hsw).2.2 w hwrt
      rw [hl1] at hrl
      rw [hl2] at hwl
      simp at hrl hwl
      subst hrl hwl
      -- the shape guard also passes for the plain reference
      have hshape := (tooComplexShape_iff value)
      have hs0 : ¬ (value.rshift > 0 ∨
          ((value.segOf = true ∨ value.sectionRelative = true) ∧
            (value.wrt.isSome = true ∨ value.subRelative = true))) := by
        intro hc
        have := hshape.mpr hc
        rw [hs] at this
        simp at this
      have hr0 : ¬ value.rshift > 0 := fun h => hs0 (Or.inl h)
      have hseg : value.segOf = false := by
        cases hv : value.segOf
        · rfl
        · exact absurd (Or.inr ⟨Or.inl hv, Or.inl (by simp [hwrt])⟩) hs0
      have hsec : value.sectionRelative = false := by
        cases hv : value.sectionRelative
        · rfl
        · exact absurd (Or.inr ⟨Or.inr hv, Or.inl (by simp [hwrt])⟩) hs0
      have hs1 : tooComplexShape { value with relative := some w, wrt := none } = false := by
        simp [tooComplexShape, hseg, hsec]
        omega
      have hp1 : pcRelAdjust objfmt { value with relative := some w, wrt := none } loc intn0
          = .ok (pc_rel, intn1) := by
        rw [← hp]
        rfl
      have hd1 : deriveRelocType objfmt.m_machine pc_rel
          { value with relative := some w, wrt := none } m_coffsect.m_nobase = .ok rtype := by
        rw [← hd]
        rfl
      have hplain : relocFor objfmt m_coffsect sects { value with relative := some w, wrt := none }
          loc w = .ok (reloc, intn, 0) := by
        simp [relocFor, wrtSwap, ht, hp1, hd1, hre, hi]
      have hplainres := ConvertValueToBytes_of_ok objfmt m_coffsect sects
          { value with relative := some w, wrt := none } loc w reloc intn 0 rfl hs1 hplain
      refine ⟨reloc, ⟨intn + value.abs + 0, value.size⟩, rfl,
        (AddReloc_relocs sects loc.bc.container reloc).1,
        (AddReloc_relocs sects loc.bc.container reloc).2, ?_, ?_, ?_, ?_, ?_⟩
      · rw [hre]
        have hsym : (mkReloc objfmt.m_machine
            ((loc.getOffset : Int) + ((sects loc.bc.container).vma : Int)) sym2 rtype).sym
            = sym2 := by
          cases objfmt.m_machine <;> rfl
        rw [hsym]
        rcases relocTarget_ok_sym objfmt sects w sym2 intn0 ht with h | ⟨symloc, hsl, h⟩
        · exact Or.inl h
        · rw [hl2] at hsl
          simp at hsl
          subst hsl
          exact Or.inr h
      · exact hplainres
      · rw [hplainres]
        exact (AddReloc_relocs sects loc.bc.container reloc).1
      · rw [← hok]
        simp [hdist]
      · rw [← hok]
  · rw [ConvertValueToBytes_of_shape objfmt m_coffsect sects value loc hs] at hok
    simp at hok

/-- C9 evaluated: lab2 (offset 12) WRT lab (offset 4) in standard COFF emits
12, the plain reference to lab emitting 4, and the relocation list of `.data`
becomes the one relocation against the `.text` section symbol at address 20. -/
theorem C9_wrt_relocation_witness :
    ({ exValue 32 exLabel2 with wrt := some exLabel } : Value).relative = some exLabel2 ∧
    ({ exValue 32 exLabel2 with wrt := some exLabel } : Value).wrt = some exLabel ∧
    exLabel2.label = some ⟨⟨0, 10⟩, 2⟩ ∧ exLabel.label = some ⟨⟨0, 4⟩, 0⟩ ∧
    (ConvertValueToBytes standardCoff exDataCoffsect
        (sectionMap (Output_numberSections standardCoff exSections))
        { exValue 32 exLabel2 with wrt := some exLabel } exLoc).2 = .ok ⟨12, 32⟩ ∧
    (∃ reloc e0,
      (ConvertValueToBytes standardCoff exDataCoffsect
        (sectionMap (Output_numberSections standardCoff exSections))
        { exValue 32 exLabel2 with wrt := some exLabel } exLoc).1
        = AddReloc (sectionMap (Output_numberSections standardCoff exSections)) 1 reloc ∧
      ((ConvertValueToBytes standardCoff exDataCoffsect
        (sectionMap (Output_numberSections standardCoff exSections))
        { exValue 32 exLabel2 with wrt := some exLabel } exLoc).1 1).relocs
        = (sectionMap (Output_numberSections standardCoff exSections) 1).relocs ++ [reloc] ∧
      (reloc.sym = exLabel ∨
        reloc.sym = (sectionMap (Output_numberSections standardCoff exSections) 0).coffsect.m_sym) ∧
      ConvertValueToBytes standardCoff exDataCoffsect
        (sectionMap (Output_numberSections standardCoff exSections))
        { ({ exValue 32 exLabel2 with wrt := some exLabel } : Value) with
          relative := some exLabel, wrt := none } exLoc
        = (AddReloc (sectionMap (Output_numberSections standardCoff exSections)) 1 reloc,
            .ok e0) ∧
      (12 : Int) = e0.intn + (((12 : Nat) : Int) - ((4 : Nat) : Int)) ∧ 32 = e0.size) ∧
    ((ConvertValueToBytes standardCoff exDataCoffsect
        (sectionMap (Output_numberSections standardCoff exSections))
        { exValue 32 exLabel2 with wrt := some exLabel } exLoc).1 1).relocs
      = [⟨.Coff32Reloc, 20, exTextSym, .I386_ADDR32⟩] :=
  ⟨rfl, rfl, rfl, rfl, rfl,
    match (C9_wrt_relocation standardCoff exDataCoffsect
      (sectionMap (Output_numberSections standardCoff exSections))
      { exValue 32 exLabel2 with wrt := some exLabel } exLoc exLabel2 exLabel
      ⟨⟨0, 10⟩, 2⟩ ⟨⟨0, 4⟩, 0⟩ rfl rfl rfl rfl rfl).2 ⟨12, 32⟩ rfl with
    | ⟨reloc, e0, h1, h2, _, h4, h5, _, h7, h8⟩ => ⟨reloc, e0, h1, h2, h4, h5, h7, h8⟩,
    by decide⟩

/-- A successful PC-relative step with a folded delta reports PC-relative. -/
theorem pcRelAdjust_of_some (objfmt : CoffObject) (value : Value) (loc : Location) (intn d : Int)
    (pc_rel : Bool) (intn1 : Int) (hpc : value.calcPCRelSub loc = some d)
    (h : pcRelAdjust objfmt value loc intn = .ok (pc_rel, intn1)) :
    pc_rel = true := by
  unfold pcRelAdjust at h
  simp only [hpc] at h
  split at h
  · simp at h
    exact h.1
  · split at h
    · simp at h
      exact h.1
    · simp at h
      exact h.1

/-- C10: for machine AMD64 and a PC-relative Value the relocation type comes
from the size and next_insn n: size 32 gives AMD64_REL32 for n = 0 and
AMD64_REL32_n for n in 1..5; any other size and any n above 5 fail with
TypeError; PC-relative takes precedence over seg-of, seg-of over
section-relative, and section-relative over absolute; and the relocation a
successful conversion of a PC-relative Value adds on AMD64 has that type. -/
theorem C10_amd64_pcrel_type (value : Value) (m_nobase : Bool) :
    (value.size = 32 → value.nextInsn = 0 →
      deriveRelocType .MACHINE_AMD64 true value m_nobase = .ok .AMD64_REL32) ∧
    (value.size = 32 → value.nextInsn = 1 →
      deriveRelocType .MACHINE_AMD64 true value m_nobase = .ok .AMD64_REL32_1) ∧
    (value.size = 32 → value.nextInsn = 2 →
      deriveRelocType .MACHINE_AMD64 true value m_nobase = .ok .AMD64_REL32_2) ∧
    (value.size = 32 → value.nextInsn = 3 →
      deriveRelocType .MACHINE_AMD64 true value m_nobase = .ok .AMD64_REL32_3) ∧
    (value.size = 32 → value.nextInsn = 4 →
      deriveRelocType .MACHINE_AMD64 true value m_nobase = .ok .AMD64_REL32_4) ∧
    (value.size = 32 → value.nextInsn = 5 →
      deriveRelocType .MACHINE_AMD64 true value m_nobase = .ok .AMD64_REL32_5) ∧
    (value.size ≠ 32 →
      deriveRelocType .MACHINE_AMD64 true value m_nobase
        = .error (.TypeError "coff: invalid relocation size")) ∧
    (value.nextInsn > 5 →
      deriveRelocType .MACHINE_AMD64 true value m_nobase
        = .error (.TypeError "coff: invalid relocation size")) ∧
    (∀ (machine : Machine) (segOf sectionRelative : Bool),
      deriveRelocType machine true
          { value with segOf := segOf, sectionRelative := sectionRelative } m_nobase
        = deriveRelocType machine true value m_nobase) ∧
    (∀ (sectionRelative : Bool),
      deriveRelocType .MACHINE_AMD64 false
          { value with segOf := true, sectionRelative := sectionRelative } m_nobase
        = .ok .AMD64_SECTION ∧
      deriveRelocType .MACHINE_I386 false
          { value with segOf := true, sectionRelative := sectionRelative } m_nobase
        = .ok .I386_SECTION) ∧
    (deriveRelocType .MACHINE_AMD64 false
          { value with segOf := false, sectionRelative := true } m_nobase
        = .ok .AMD64_SECREL ∧
      deriveRelocType .MACHINE_I386 false
          { value with segOf := false, sectionRelative := true } m_nobase
        = .ok .I386_SECREL) ∧
    (∀ (objfmt : CoffObject) (m_coffsect : CoffSection) (sects : Nat → Section)
        (loc : Location) (sym : Symbol) (d : Int) (e : Emitted),
      objfmt.m_machine = .MACHINE_AMD64 → m_coffsect.m_nobase = m_nobase →
      value.relative = some sym → value.calcPCRelSub loc = some d →
      (ConvertValueToBytes objfmt m_coffsect sects value loc).2 = .ok e →
      ∃ reloc, (ConvertValueToBytes objfmt m_coffsect sects value loc).1
          = AddReloc sects loc.bc.container reloc ∧
        deriveRelocType .MACHINE_AMD64 true value m_nobase = .ok reloc.rtype ∧
        value.size = 32 ∧ value.nextInsn ≤ 5) := by
  have hsz : value.size ≠ 32 →
      deriveRelocType .MACHINE_AMD64 true value m_nobase
        = .error (.TypeError "coff: invalid relocation size") := by
    intro h
    simp [deriveRelocType, h]
  have hn : value.nextInsn > 5 →
      deriveRelocType .MACHINE_AMD64 true value m_nobase
        = .error (.TypeError "coff: invalid relocation size") := by
    intro h
    unfold deriveRelocType
    simp only [if_true]
    split
    · rfl
    · split <;> first | omega | rfl
  refine ⟨?_, ?_, ?_, ?_, ?_, ?_, hsz, hn, ?_, ?_, ?_, ?_⟩
  · intro h1 h2; simp [deriveRelocType, h1, h2]
  · intro h1 h2; simp [deriveRelocType, h1, h2]
  · intro h1 h2; simp [deriveRelocType, h1, h2]
  · intro h1 h2; simp [deriveRelocType, h1, h2]
  · intro h1 h2; simp [deriveRelocType, h1, h2]
  · intro h1 h2; simp [deriveRelocType, h1, h2]
  · intro machine segOf sectionRelative
    cases machine <;> rfl
  · intro sectionRelative
    exact ⟨rfl, rfl⟩
  · exact ⟨rfl, rfl⟩
  · intro objfmt m_coffsect sects loc sym d e hm hnb hrel hpc hok
    cases hs : tooComplexShape value
    · cases hr : relocFor objfmt m_coffsect sects value loc sym with
      | error err =>
        rw [ConvertValueToBytes_of_error objfmt m_coffsect sects value loc sym err hrel hs hr]
          at hok
        simp at hok
      | ok r =>
        obtain ⟨reloc, intn, dist⟩ := r
        rw [ConvertValueToBytes_of_ok objfmt m_coffsect sects value loc sym reloc intn dist
          hrel hs hr]
        obtain ⟨_, sym2, intn0, pc_rel, intn1, rtype, _, hp, hd, _, hre⟩ :=
          relocFor_ok objfmt m_coffsect sects value loc sym reloc intn dist hr
        have hpc1 := pcRelAdjust_of_some objfmt value loc intn0 d pc_rel intn1 hpc hp
        subst hpc1
        rw [hm, hnb] at hd
        rw [hm] at hre
        have hrt : reloc.rtype = rtype := by rw [hre]; rfl
        refine ⟨reloc, rfl, by rw [hrt]; exact hd, ?_, ?_⟩
        · by_contra hne
          rw [hsz hne] at hd
          simp at hd
        · by_contra hgt
          rw [hn (by omega)] at hd
          simp at hd
    · rw [ConvertValueToBytes_of_shape objfmt m_coffsect sects value loc hs] at hok
      simp at hok

/-- C10 evaluated: size 32 with next_insn 4 gives AMD64_REL32_4. -/
theorem C10_amd64_pcrel_type_witness :
    ({ exValue 32 exExtern with nextInsn := 4 } : Value).size = 32 ∧
    ({ exValue 32 exExtern with nextInsn := 4 } : Value).nextInsn = 4 ∧
    deriveRelocType .MACHINE_AMD64 true { exValue 32 exExtern with nextInsn := 4 } false
      = .ok .AMD64_REL32_4 :=
  ⟨rfl, rfl,
    (C10_amd64_pcrel_type { exValue 32 exExtern with nextInsn := 4 } false).2.2.2.2.1 rfl rfl⟩

/-- C4 evaluated: a 32-bit reference to an EXTERN symbol from `.data` in Win32
adds one relocation to `.data` and leaves the other sections alone. -/
theorem C4_relocation_count_witness :
    (exValue 32 exExtern).relative = some exExtern ∧
    (ConvertValueToBytes win32Coff exDataCoffsect
        (sectionMap (Output_numberSections win32Coff exSections)) (exValue 32 exExtern) exLoc).2
      = .ok ⟨0, 32⟩ ∧
    ∃ reloc,
      ((ConvertValueToBytes win32Coff exDataCoffsect
          (sectionMap (Output_numberSections win32Coff exSections)) (exValue 32 exExtern)
          exLoc).1 exLoc.bc.container).relocs
        = (sectionMap (Output_numberSections win32Coff exSections) exLoc.bc.container).relocs
            ++ [reloc] ∧
      ∀ i, i ≠ exLoc.bc.container →
        (ConvertValueToBytes win32Coff exDataCoffsect
          (sectionMap (Output_numberSections win32Coff exSections)) (exValue 32 exExtern)
          exLoc).1 i
        = sectionMap (Output_numberSections win32Coff exSections) i :=
  ⟨rfl, rfl,
    (C4_relocation_count win32Coff exDataCoffsect
      (sectionMap (Output_numberSections win32Coff exSections)) (exValue 32 exExtern) exLoc).2
      exExtern ⟨0, 32⟩ rfl rfl⟩

/-- C5 refuted: in standard COFF a Value whose subtractive part cannot be
folded, referring to a COMMON symbol of size -4, fails with ValueError and not
with TooComplex. -/
theorem C5_valueError_counterexample :
    (exSubValue exCommonNeg).relative = some exCommonNeg ∧
    (exSubValue exCommonNeg).subRelative = true ∧
    (exSubValue exCommonNeg).calcPCRelSub exLoc = none ∧
    (ConvertValueToBytes standardCoff exDataCoffsect
        (sectionMap (Output_numberSections standardCoff exSections)) (exSubValue exCommonNeg)
        exLoc).2 = .error (.ValueError "coff: common size is negative") ∧
    ¬ ∃ msg, (ConvertValueToBytes standardCoff exDataCoffsect
        (sectionMap (Output_numberSections standardCoff exSections)) (exSubValue exCommonNeg)
        exLoc).2 = .error (.TooComplexError msg) := by
  have h : (ConvertValueToBytes standardCoff exDataCoffsect
        (sectionMap (Output_numberSections standardCoff exSections)) (exSubValue exCommonNeg)
        exLoc).2 = .error (.ValueError "coff: common size is negative") := rfl
  refine ⟨rfl, rfl, rfl, h, ?_⟩
  rintro ⟨msg, hm⟩
  rw [h] at hm
  simp at hm

/-- C5 evaluated: a Value whose subtractive part cannot be folded, referring
to an EXTERN symbol, fails with TooComplex. -/
theorem C5_tooComplex_shapes_witness :
    (exSubValue exExtern).relative = some exExtern ∧
    (exSubValue exExtern).subRelative = true ∧
    (exSubValue exExtern).calcPCRelSub exLoc = none ∧
    (ConvertValueToBytes standardCoff exDataCoffsect
        (sectionMap (Output_numberSections standardCoff exSections)) (exSubValue exExtern)
        exLoc).2 = .error (.TooComplexError "elf: relocation too complex") ∧
    ((∃ msg, (ConvertValueToBytes standardCoff exDataCoffsect
        (sectionMap (Output_numberSections standardCoff exSections)) (exSubValue exExtern)
        exLoc).2 = .error (.TooComplexError msg)) ∨
     ((ConvertValueToBytes standardCoff exDataCoffsect
        (sectionMap (Output_numberSections standardCoff exSections)) (exSubValue exExtern)
        exLoc).2 = .error (.ValueError "coff: common size is negative") ∧
      ((exSubValue exExtern).wrt.getD exExtern).m_visibility &&& Symbol.COMMON ≠ 0 ∧
      standardCoff.isWin32 = false ∧
      ∃ c, ((exSubValue exExtern).wrt.getD exExtern).commonSize = some c ∧ c < 0)) :=
  ⟨rfl, rfl, rfl, rfl,
    (C5_tooComplex_shapes standardCoff exDataCoffsect
      (sectionMap (Output_numberSections standardCoff exSections)) (exSubValue exExtern)
      exLoc).2.2.2.1 exExtern rfl rfl rfl⟩

/-! ## Properties of the x86 architecture -/

/-- C18: for every mode_bits in 16, 32, 64 and every NOP policy the table
returned by getFill has 16 entries, entry 0 is null, and for every n from 1
to 15 entry n is a byte sequence of length exactly n. -/
theorem C18_fill_table_shape (a : X86Arch)
    (hmode : a.m_mode_bits = 16 ∨ a.m_mode_bits = 32 ∨ a.m_mode_bits = 64) :
    ∃ table, a.getFill = .ok table ∧ table.length = 16 ∧ table[0]? = some none ∧
      ∀ n, 1 ≤ n → n ≤ 15 → ∃ fill, table[n]? = some (some fill) ∧ fill.length = n := by
  obtain ⟨am, pa, mb, fs, dr, nop⟩ := a
  simp only at hmode
  have key : ∀ table : List (Option (List Nat)),
      (table = fill16 ∨ table = fill32 ∨ table = fill32_intel ∨ table = fill32_amd) →
      table.length = 16 ∧ table[0]? = some none ∧
      ∀ n, 1 ≤ n → n ≤ 15 → ∃ fill, table[n]? = some (some fill) ∧ fill.length = n := by
    intro table ht
    rcases ht with h | h | h | h <;> subst h <;>
      refine ⟨by decide, by decide, ?_⟩ <;> intro n h1 h15 <;> interval_cases n <;>
      exact ⟨_, rfl, by decide⟩
  rcases hmode with h | h | h <;> subst h
  · exact ⟨fill16, rfl, key _ (Or.inl rfl)⟩
  · cases nop
    · exact ⟨fill32, rfl, key _ (Or.inr (Or.inl rfl))⟩
    · exact ⟨fill32_intel, rfl, key _ (Or.inr (Or.inr (Or.inl rfl)))⟩
    · exact ⟨fill32_amd, rfl, key _ (Or.inr (Or.inr (Or.inr rfl)))⟩
  · cases nop
    · exact ⟨fill32_intel, rfl, key _ (Or.inr (Or.inr (Or.inl rfl)))⟩
    · exact ⟨fill32_intel, rfl, key _ (Or.inr (Or.inr (Or.inl rfl)))⟩
    · exact ⟨fill32_amd, rfl, key _ (Or.inr (Or.inr (Or.inr rfl)))⟩

/-- C18 evaluated for 64-bit mode with the default NOP policy. -/
theorem C18_fill_table_shape_witness :
    ({ X86Arch.init with m_mode_bits := 64 } : X86Arch).m_mode_bits = 64 ∧
    ∃ table, ({ X86Arch.init with m_mode_bits := 64 } : X86Arch).getFill = .ok table ∧
      table.length = 16 ∧ table[0]? = some none ∧
      ∀ n, 1 ≤ n → n ≤ 15 → ∃ fill, table[n]? = some (some fill) ∧ fill.length = n :=
  ⟨rfl, C18_fill_table_shape { X86Arch.init with m_mode_bits := 64 } (Or.inr (Or.inr rfl))⟩

/-- C19: getFill selects its table from mode_bits and the NOP policy: 16 gives
the 16-bit table whatever the policy; 32 gives the Intel, AMD or basic 32-bit
table according to the policy; 64 gives the AMD table only when the policy is
AMD and the Intel table otherwise, so with the basic policy the 64-bit 7-byte
fill is 0F 1F 80 00 00 00 00; any other mode_bits fails with ValueError. -/
theorem C19_fill_table_selection (a : X86Arch) :
    (a.m_mode_bits = 16 → a.getFill = .ok fill16) ∧
    (a.m_mode_bits = 32 → a.m_nop = .NOP_INTEL → a.getFill = .ok fill32_intel) ∧
    (a.m_mode_bits = 32 → a.m_nop = .NOP_AMD → a.getFill = .ok fill32_amd) ∧
    (a.m_mode_bits = 32 → a.m_nop = .NOP_BASIC → a.getFill = .ok fill32) ∧
    (a.m_mode_bits = 64 → a.m_nop = .NOP_AMD → a.getFill = .ok fill32_amd) ∧
    (a.m_mode_bits = 64 → a.m_nop ≠ .NOP_AMD → a.getFill = .ok fill32_intel) ∧
    (a.m_mode_bits = 64 → a.m_nop = .NOP_BASIC →
      ∃ table, a.getFill = .ok table ∧
        table[7]? = some (some [0x0f, 0x1f, 0x80, 0x00, 0x00, 0x00, 0x00])) ∧
    (a.m_mode_bits ≠ 16 → a.m_mode_bits ≠ 32 → a.m_mode_bits ≠ 64 →
      a.getFill = .error (.ValueError "Invalid mode_bits in x86_get_fill")) := by
  obtain ⟨am, pa, mb, fs, dr, nop⟩ := a
  simp only
  refine ⟨?_, ?_, ?_, ?_, ?_, ?_, ?_, ?_⟩
  · intro h; subst h; rfl
  · intro h hn; subst h; subst hn; rfl
  · intro h hn; subst h; subst hn; rfl
  · intro h hn; subst h; subst hn; rfl
  · intro h hn; subst h; subst hn; rfl
  · intro h hn; subst h; cases nop
    · rfl
    · rfl
    · exact absurd rfl hn
  · intro h hn; subst h; subst hn
    exact ⟨fill32_intel, rfl, by decide⟩
  · intro h16 h32 h64
    unfold X86Arch.getFill
    simp only

/-- C19 evaluated: the 7-byte fill in 64-bit mode with the default policy. -/
theorem C19_fill_table_selection_witness :
    ({ X86Arch.init with m_mode_bits := 64 } : X86Arch).m_mode_bits = 64 ∧
    ({ X86Arch.init with m_mode_bits := 64 } : X86Arch).m_nop = .NOP_BASIC ∧
    ∃ table, ({ X86Arch.init with m_mode_bits := 64 } : X86Arch).getFill = .ok table ∧
      table[7]? = some (some [0x0f, 0x1f, 0x80, 0x00, 0x00, 0x00, 0x00]) :=
  ⟨rfl, rfl,
    (C19_fill_table_selection { X86Arch.init with m_mode_bits := 64 }).2.2.2.2.2.2.1 rfl rfl⟩

/-- The saturating `getUInt` yields 16, 32 or 64 exactly for these integers. -/
theorem IntNum_getUInt_eq_iff (i : Int) (v : Nat) (hv : v = 16 ∨ v = 32 ∨ v = 64) :
    IntNum_getUInt i = v ↔ i = (v : Int) := by
  unfold IntNum_getUInt ULONG_MAX
  constructor
  · intro h
    split at h
    · omega
    · split at h
      · omega
      · omega
  · intro h
    subst h
    rcases hv with h | h | h <;> subst h <;> simp

/-- C20: BITS sets mode_bits to v when its first argument is an expression
that is the integer v with v in 16, 32, 64, and otherwise fails with
ValueError leaving the architecture unchanged; .code16, .code32 and .code64
set mode_bits to 16, 32 and 64 for every argument list; after any successful
mode directive mode_bits is 16, 32 or 64, and a failed one changes nothing. -/
theorem C20_mode_directives (a : X86Arch) (namevals : List NameValue) :
    (∀ (e : Expr) (rest : List NameValue) (v : Nat), namevals = .Expr e :: rest → e.getIntNum? = some (v : Int) →
      (v = 16 ∨ v = 32 ∨ v = 64) →
      a.DirBits namevals = ({ a with m_mode_bits := v }, .ok ())) ∧
    ((¬ ∃ (e : Expr) (rest : List NameValue) (v : Nat), namevals = .Expr e :: rest ∧ e.getIntNum? = some (v : Int) ∧
        (v = 16 ∨ v = 32 ∨ v = 64)) →
      a.DirBits namevals = (a, .error (.ValueError "invalid argument to [BITS]"))) ∧
    a.DirCode16 namevals = ({ a with m_mode_bits := 16 }, .ok ()) ∧
    a.DirCode32 namevals = ({ a with m_mode_bits := 32 }, .ok ()) ∧
    a.DirCode64 namevals = ({ a with m_mode_bits := 64 }, .ok ()) ∧
    (∀ d : ModeDirective, (d.run a namevals).2 = .ok () →
      (d.run a namevals).1.m_mode_bits = 16 ∨ (d.run a namevals).1.m_mode_bits = 32 ∨
      (d.run a namevals).1.m_mode_bits = 64) ∧
    (∀ d : ModeDirective, (d.run a namevals).2 ≠ .ok () → (d.run a namevals).1 = a) := by
  have h1 : ∀ (e : Expr) (rest : List NameValue) (v : Nat), namevals = .Expr e :: rest → e.getIntNum? = some (v : Int) →
      (v = 16 ∨ v = 32 ∨ v = 64) →
      a.DirBits namevals = ({ a with m_mode_bits := v }, .ok ()) := by
    intro e rest v hn he hv
    subst hn
    have hu : IntNum_getUInt (v : Int) = v := (IntNum_getUInt_eq_iff _ v hv).mpr rfl
    simp [X86Arch.DirBits, he, hu, hv]
  have h2 : (¬ ∃ (e : Expr) (rest : List NameValue) (v : Nat), namevals = .Expr e :: rest ∧ e.getIntNum? = some (v : Int) ∧
        (v = 16 ∨ v = 32 ∨ v = 64)) →
      a.DirBits namevals = (a, .error (.ValueError "invalid argument to [BITS]")) := by
    intro hno
    unfold X86Arch.DirBits
    split
    · rename_i e rest
      split
      · rename_i i hi
        by_cases hv : IntNum_getUInt i = 16 ∨ IntNum_getUInt i = 32 ∨ IntNum_getUInt i = 64
        · exfalso
          apply hno
          refine ⟨e, rest, IntNum_getUInt i, rfl, ?_, hv⟩
          rw [hi]
          congr 1
          exact ((IntNum_getUInt_eq_iff i _ hv).mp rfl)
        · simp [hv]
      · rfl
    · rfl
  have h3 : ∀ d : ModeDirective, (d.run a namevals).2 = .ok () →
      (d.run a namevals).1.m_mode_bits = 16 ∨ (d.run a namevals).1.m_mode_bits = 32 ∨
      (d.run a namevals).1.m_mode_bits = 64 := by
    intro d hok
    cases d
    · by_cases hex : ∃ (e : Expr) (rest : List NameValue) (v : Nat), namevals = .Expr e :: rest ∧ e.getIntNum? = some (v : Int) ∧
          (v = 16 ∨ v = 32 ∨ v = 64)
      · obtain ⟨e, rest, v, hn, he, hv⟩ := hex
        simp only [ModeDirective.run, h1 e rest v hn he hv]
        exact hv
      · simp [ModeDirective.run, h2 hex] at hok
    · exact Or.inl rfl
    · exact Or.inr (Or.inl rfl)
    · exact Or.inr (Or.inr rfl)
  have h4 : ∀ d : ModeDirective, (d.run a namevals).2 ≠ .ok () → (d.run a namevals).1 = a := by
    intro d hne
    cases d
    · by_cases hex : ∃ (e : Expr) (rest : List NameValue) (v : Nat), namevals = .Expr e :: rest ∧ e.getIntNum? = some (v : Int) ∧
          (v = 16 ∨ v = 32 ∨ v = 64)
      · obtain ⟨e, rest, v, hn, he, hv⟩ := hex
        simp [ModeDirective.run, h1 e rest v hn he hv] at hne
      · simp [ModeDirective.run, h2 hex]
    · exact absurd rfl hne
    · exact absurd rfl hne
    · exact absurd rfl hne
  exact ⟨h1, h2, rfl, rfl, rfl, h3, h4⟩

/-- C20 evaluated: BITS 64 on a fresh architecture. -/
theorem C20_mode_directives_witness :
    [NameValue.Expr ⟨[.IntNum 64]⟩] = NameValue.Expr ⟨[.IntNum 64]⟩ :: [] ∧
    (⟨[.IntNum 64]⟩ : Expr).getIntNum? = some ((64 : Nat) : Int) ∧
    X86Arch.init.DirBits [.Expr ⟨[.IntNum 64]⟩]
      = ({ X86Arch.init with m_mode_bits := 64 }, .ok ()) :=
  ⟨rfl, rfl,
    (C20_mode_directives X86Arch.init [.Expr ⟨[.IntNum 64]⟩]).1 ⟨[.IntNum 64]⟩ [] 64 rfl rfl
      (Or.inr (Or.inr rfl))⟩

/-! ## Properties of symbols -/

/-- C15 (amended): isAbsoluteSymbol returns true exactly for the symbols whose
name is empty, whose type is EQU and whose definition source location is not
valid. -/
theorem C15_isAbsoluteSymbol_iff (s : SymbolRec) :
    s.isAbsoluteSymbol = true ↔
      (s.m_name = "" ∧ s.m_type = .EQU ∧ s.m_def_source.isValid = false) := by
  unfold SymbolRec.isAbsoluteSymbol
  cases s.m_def_source.isValid <;> simp
  tauto

/-- C15 refuted: an empty-named EQU symbol defined at a valid source location
is not reported as the absolute symbol. -/
theorem C15_defined_empty_equ_counterexample :
    exEmptyNamedEqu.m_name = "" ∧ exEmptyNamedEqu.m_type = .EQU ∧
    exEmptyNamedEqu.isAbsoluteSymbol = false := by
  decide

/-- C15 evaluated on the absolute symbol. -/
theorem C15_isAbsoluteSymbol_iff_witness :
    exAbsSym.m_name = "" ∧ exAbsSym.m_type = .EQU ∧ exAbsSym.m_def_source.isValid = false ∧
    exAbsSym.isAbsoluteSymbol = true :=
  ⟨rfl, rfl, rfl, (C15_isAbsoluteSymbol_iff exAbsSym).mpr ⟨rfl, rfl, rfl⟩⟩

/-- Setting the USED bit sets that bit and leaves the DEFINED and VALUED bits
as they were. -/
theorem or_USED_and (x : Nat) :
    (x ||| Symbol.USED) &&& Symbol.USED = Symbol.USED ∧
    (x ||| Symbol.USED) &&& Symbol.DEFINED = x &&& Symbol.DEFINED ∧
    (x ||| Symbol.USED) &&& Symbol.VALUED = x &&& Symbol.VALUED := by
  have b1 : ∀ i, Nat.testBit 1 i = decide (0 = i) := fun i => @Nat.testBit_two_pow 0 i
  have b2 : ∀ i, Nat.testBit 2 i = decide (1 = i) := fun i => @Nat.testBit_two_pow 1 i
  have b4 : ∀ i, Nat.testBit 4 i = decide (2 = i) := fun i => @Nat.testBit_two_pow 2 i
  unfold Symbol.USED Symbol.DEFINED Symbol.VALUED
  refine ⟨?_, ?_, ?_⟩
  · apply Nat.eq_of_testBit_eq
    intro i
    rw [Nat.testBit_and, Nat.testBit_or, b1]
    cases x.testBit i <;> cases decide (0 = i) <;> rfl
  · apply Nat.eq_of_testBit_eq
    intro i
    rw [Nat.testBit_and, Nat.testBit_or, Nat.testBit_and, b1, b2]
    by_cases h0 : 0 = i
    · subst h0
      simp
    · simp [h0]
  · apply Nat.eq_of_testBit_eq
    intro i
    rw [Nat.testBit_and, Nat.testBit_or, Nat.testBit_and, b1, b4]
    by_cases h0 : 0 = i
    · subst h0
      simp
    · simp [h0]

/-- The use source after `Use`: kept when already valid, else the argument. -/
theorem Use_use_source (s : SymbolRec) (source : SourceLocation) :
    (s.Use source).m_use_source = if s.m_use_source.isValid then s.m_use_source else source := by
  unfold SymbolRec.Use
  cases h : s.m_use_source.isValid <;> simp

/-- There is one invalid source location. -/
theorem invalid_eq (l1 l2 : SourceLocation) (h1 : l1.isValid = false) (h2 : l2.isValid = false) :
    l1 = l2 := by
  obtain ⟨a⟩ := l1
  obtain ⟨b⟩ := l2
  simp [SourceLocation.isValid] at h1 h2
  simp [h1, h2]

/-- The use source after a sequence of `Use` calls: kept when already valid,
else the first valid location of the sequence, if any. -/
theorem UseAll_use_source (sources : List SourceLocation) (s : SymbolRec) :
    (s.UseAll sources).m_use_source =
      if s.m_use_source.isValid then s.m_use_source
      else (sources.find? SourceLocation.isValid).getD s.m_use_source := by
  induction sources generalizing s with
  | nil => simp [SymbolRec.UseAll]
  | cons l rest ih =>
    have hstep : s.UseAll (l :: rest) = (s.Use l).UseAll rest := rfl
    rw [hstep, ih, Use_use_source]
    cases hs : s.m_use_source.isValid
    · cases hl : l.isValid
      · have : l = s.m_use_source := invalid_eq l s.m_use_source hl hs
        simp [hl, this, hs]
      · simp [hl]
    · simp [hs]

/-- C16 (amended): Use(loc) sets the USED status bit and leaves the DEFINED and
VALUED bits, visibility, type, name, definition and declaration sources, EQU
expression and label location unchanged; it records loc as use source only
when no valid use source is recorded yet; so on a symbol without a valid use
source, after any sequence Use(l1), ..., Use(ln) the recorded use source is
the first valid location of the sequence, which is l1 whenever l1 is valid. -/
theorem C16_Use_effect (s : SymbolRec) (source : SourceLocation) :
    ((s.Use source).m_status &&& Symbol.USED = Symbol.USED ∧
      (s.Use source).m_status &&& Symbol.DEFINED = s.m_status &&& Symbol.DEFINED ∧
      (s.Use source).m_status &&& Symbol.VALUED = s.m_status &&& Symbol.VALUED) ∧
    ((s.Use source).m_visibility = s.m_visibility ∧ (s.Use source).m_type = s.m_type ∧
      (s.Use source).m_name = s.m_name ∧ (s.Use source).m_def_source = s.m_def_source ∧
      (s.Use source).m_decl_source = s.m_decl_source ∧ (s.Use source).m_equ = s.m_equ ∧
      (s.Use source).m_loc = s.m_loc) ∧
    (s.m_use_source.isValid = true → (s.Use source).m_use_source = s.m_use_source) ∧
    (s.m_use_source.isValid = false → (s.Use source).m_use_source = source) ∧
    (∀ sources : List SourceLocation, s.m_use_source.isValid = false →
      (s.UseAll sources).m_use_source
        = (sources.find? SourceLocation.isValid).getD s.m_use_source) ∧
    (∀ (l1 : SourceLocation) (rest : List SourceLocation), s.m_use_source.isValid = false →
      l1.isValid = true → (s.UseAll (l1 :: rest)).m_use_source = l1) := by
  refine ⟨?_, ?_, ?_, ?_, ?_, ?_⟩
  · have h := or_USED_and s.m_status
    unfold SymbolRec.Use
    cases s.m_use_source.isValid <;> simpa using h
  · unfold SymbolRec.Use
    cases s.m_use_source.isValid <;> simp
  · intro h
    rw [Use_use_source, h]
    simp
  · intro h
    rw [Use_use_source, h]
    simp
  · intro sources h
    rw [UseAll_use_source, h]
    simp
  · intro l1 rest h hl
    rw [UseAll_use_source, h]
    simp [List.find?, hl]

/-- C16 refuted: on a fresh symbol, Use with the invalid location followed by
Use with location 7 records 7, not the location of the first call. -/
theorem C16_invalid_first_use_counterexample :
    exFreshSym.m_use_source.isValid = false ∧
    (exFreshSym.UseAll [⟨0⟩, ⟨7⟩]).m_use_source = ⟨7⟩ ∧
    (⟨7⟩ : SourceLocation) ≠ ⟨0⟩ := by
  decide

/-- C16 evaluated: three uses at valid locations record the first. -/
theorem C16_Use_effect_witness :
    exFreshSym.m_use_source.isValid = false ∧ (⟨4⟩ : SourceLocation).isValid = true ∧
    (exFreshSym.UseAll [⟨4⟩, ⟨7⟩, ⟨9⟩]).m_use_source = ⟨4⟩ :=
  ⟨rfl, rfl, (C16_Use_effect exFreshSym ⟨4⟩).2.2.2.2.2 ⟨4⟩ [⟨7⟩, ⟨9⟩] rfl rfl⟩

/-- C17, the code at the failing input: for an EQU symbol whose status has
DEFINED but not VALUED, getEqu returns null although the symbol has an EQU
expression. -/
theorem C17_getEqu_defined_not_valued :
    exUnvaluedEqu.m_type = .EQU ∧ exUnvaluedEqu.m_status &&& Symbol.DEFINED ≠ 0 ∧
    exUnvaluedEqu.m_equ = some ⟨[.Sym "b"]⟩ ∧
    exUnvaluedEqu.getEqu = none := by
  decide

/-- What `getEqu` tests: the type EQU and the VALUED bit. -/
theorem getEqu_eq (s : SymbolRec) :
    (s.m_type = .EQU → s.m_status &&& Symbol.VALUED ≠ 0 → s.getEqu = s.m_equ) ∧
    (s.m_type ≠ .EQU → s.getEqu = none) ∧
    (s.m_status &&& Symbol.VALUED = 0 → s.getEqu = none) := by
  refine ⟨?_, ?_, ?_⟩
  · intro h1 h2
    simp [SymbolRec.getEqu, h1, h2]
  · intro h
    simp [SymbolRec.getEqu, h]
  · intro h
    simp [SymbolRec.getEqu, h]

/-! ## Properties of the COFF symbol table -/

/-- Counting a concatenation continues from the index reached on the first
part. -/
theorem CountSymbols_loop_append (m_all_syms : Bool) (pre post : List ObjectSymbol) (indx : Nat) :
    CountSymbols_loop m_all_syms (pre ++ post) indx =
      ((CountSymbols_loop m_all_syms pre indx).1 ++
        (CountSymbols_loop m_all_syms post (CountSymbols_loop m_all_syms pre indx).2).1,
       (CountSymbols_loop m_all_syms post (CountSymbols_loop m_all_syms pre indx).2).2) := by
  induction pre generalizing indx with
  | nil => simp [CountSymbols_loop]
  | cons i rest ih =>
    simp only [List.cons_append, CountSymbols_loop]
    split
    · simp [ih]
    · simp [ih]

/-- After `CountSymbols` the symbol table output succeeds and writes exactly
the symbols that pass the local-symbol filter. -/
theorem OutputSymbolTable_counted (m_all_syms : Bool) (symbols : List ObjectSymbol) (indx : Nat) :
    OutputSymbolTable m_all_syms (CountSymbols_loop m_all_syms symbols indx).1 =
      some ((CountSymbols_loop m_all_syms symbols indx).1.filter (fun i =>
        !(!m_all_syms && decide (i.sym.m_visibility = Symbol.LOCAL)
          && !i.sym.isAbsoluteSymbol))) := by
  induction symbols generalizing indx with
  | nil => simp [CountSymbols_loop, OutputSymbolTable]
  | cons i rest ih =>
    simp only [CountSymbols_loop]
    by_cases hskip : (!m_all_syms && decide (i.sym.m_visibility = Symbol.LOCAL)
        && !i.sym.isAbsoluteSymbol) = true
    · simp only [hskip, if_true, OutputSymbolTable]
      rw [ih]
      simp [List.filter, hskip]
    · simp only [hskip, if_false, OutputSymbolTable]
      rw [ih]
      simp only [Bool.not_eq_true] at hskip
      simp [List.filter, hskip]

/-- C14 (amended): the absolute symbol is always emitted to the COFF symbol
table: for every object and both values of all_syms, a symbol for which
isAbsoluteSymbol() holds is assigned the running symbol-table index by
CountSymbols and is written by OutputSymbolTable. -/
theorem C14_absolute_symbol_emitted (m_all_syms : Bool) (pre post : List ObjectSymbol)
    (s : ObjectSymbol) (habs : s.sym.isAbsoluteSymbol = true) :
    ∃ pre1 post1 s1 coffsym written,
      (CountSymbols m_all_syms (pre ++ s :: post)).1 = pre1 ++ s1 :: post1 ∧
      pre1.length = pre.length ∧ s1.sym = s.sym ∧ s1.coffsym = some coffsym ∧
      coffsym.m_index = (CountSymbols m_all_syms pre).2 ∧
      OutputSymbolTable m_all_syms (CountSymbols m_all_syms (pre ++ s :: post)).1
        = some written ∧
      s1 ∈ written := by
  unfold CountSymbols
  rw [CountSymbols_loop_append]
  have hlen : ∀ (l : List ObjectSymbol) (n : Nat),
      (CountSymbols_loop m_all_syms l n).1.length = l.length := by
    intro l
    induction l with
    | nil => intro n; simp [CountSymbols_loop]
    | cons i rest ih =>
      intro n
      simp only [CountSymbols_loop]
      split <;> simp [ih]
  have hnoskip : (!m_all_syms && decide (s.sym.m_visibility = Symbol.LOCAL)
      && !s.sym.isAbsoluteSymbol) = false := by
    simp [habs]
  have hstep : ∀ n, ∃ s1 coffsym post1,
      (CountSymbols_loop m_all_syms (s :: post) n).1 = s1 :: post1 ∧ s1.sym = s.sym ∧
      s1.coffsym = some coffsym ∧ coffsym.m_index = n := by
    intro n
    simp only [CountSymbols_loop, hnoskip]
    exact ⟨_, _, _, rfl, rfl, rfl, rfl⟩
  obtain ⟨s1, coffsym, post1, h1, h2, h3, h4⟩ := hstep (CountSymbols_loop m_all_syms pre 0).2
  have hout := OutputSymbolTable_counted m_all_syms (pre ++ s :: post) 0
  rw [CountSymbols_loop_append] at hout
  refine ⟨(CountSymbols_loop m_all_syms pre 0).1, post1, s1, coffsym, _, ?_, hlen pre 0, h2, h3,
    h4, hout, ?_⟩
  · simp only [h1]
  · simp only [h1]
    rw [List.mem_filter]
    refine ⟨by simp, ?_⟩
    rw [h2]
    simp [habs]

/-- C14 refuted: for an object holding only the absolute symbol, CountSymbols
gives it index 0 and returns 1, and OutputSymbolTable writes it, with all_syms
false as well as true. -/
theorem C14_absolute_symbol_counterexample :
    exAbsSym.isAbsoluteSymbol = true ∧ exAbsSym.m_visibility = Symbol.LOCAL ∧
    CountSymbols false [⟨exAbsSym, none⟩] = ([⟨exAbsSym, some ⟨.SCL_STAT, 0, []⟩⟩], 1) ∧
    OutputSymbolTable false (CountSymbols false [⟨exAbsSym, none⟩]).1
      = some [⟨exAbsSym, some ⟨.SCL_STAT, 0, []⟩⟩] ∧
    OutputSymbolTable true (CountSymbols true [⟨exAbsSym, none⟩]).1
      = some [⟨exAbsSym, some ⟨.SCL_STAT, 0, []⟩⟩] := by
  decide

/-- C14 evaluated: the absolute symbol after a filtered local symbol. -/
theorem C14_absolute_symbol_emitted_witness :
    exAbsSym.isAbsoluteSymbol = true ∧
    ∃ pre1 post1 s1 coffsym written,
      (CountSymbols false ([⟨exFreshSym, none⟩] ++ ⟨exAbsSym, none⟩ :: [])).1
        = pre1 ++ s1 :: post1 ∧
      pre1.length = [(⟨exFreshSym, none⟩ : ObjectSymbol)].length ∧
      s1.sym = exAbsSym ∧ s1.coffsym = some coffsym ∧
      coffsym.m_index = (CountSymbols false [⟨exFreshSym, none⟩]).2 ∧
      OutputSymbolTable false
        (CountSymbols false ([⟨exFreshSym, none⟩] ++ ⟨exAbsSym, none⟩ :: [])).1 = some written ∧
      s1 ∈ written :=
  ⟨rfl, C14_absolute_symbol_emitted false [⟨exFreshSym, none⟩] [] ⟨exAbsSym, none⟩ rfl⟩

/-! ## Properties of section output -/

/-- One request changes neither the recorded errors nor the call log, and
through the no-output writer it leaves the stream alone. -/
theorem Writer_call_frame (w : Writer) (objfmt : CoffObject) (cs : CoffSection) (st : OutState)
    (call : WriterCall) :
    (w.call objfmt cs st call).1.errwarns = st.errwarns ∧
    (w.call objfmt cs st call).1.outputLog = st.outputLog ∧
    (w = .noOutput → (w.call objfmt cs st call).1.os = st.os) := by
  cases call with
  | OutputBytes b => cases w <;> simp [Writer.call]
  | OutputValue v loc =>
    cases w with
    | noOutput => simp [Writer.call]
    | stream =>
      unfold Writer.call
      rcases hc : ConvertValueToBytes objfmt cs st.sects v loc with ⟨sects, res⟩
      cases res with
      | error e => simp [hc]
      | ok em => simp [hc]

/-- The requests of a bytecode change neither the recorded errors nor the call
log, and through the no-output writer they leave the stream alone. -/
theorem runCalls_frame (w : Writer) (objfmt : CoffObject) (cs : CoffSection)
    (calls : List WriterCall) (st : OutState) :
    (runCalls objfmt w cs calls st).1.errwarns = st.errwarns ∧
    (runCalls objfmt w cs calls st).1.outputLog = st.outputLog ∧
    (w = .noOutput → (runCalls objfmt w cs calls st).1.os = st.os) := by
  induction calls generalizing st with
  | nil => simp [runCalls]
  | cons call rest ih =>
    have hf := Writer_call_frame w objfmt cs st call
    unfold runCalls
    rcases hc : w.call objfmt cs st call with ⟨st1, res⟩
    rw [hc] at hf
    cases res with
    | error e => exact hf
    | ok u =>
      simp only
      obtain ⟨h1, h2, h3⟩ := ih st1
      exact ⟨h1.trans hf.1, h2.trans hf.2.1, fun hw => (h3 hw).trans (hf.2.2 hw)⟩

/-- One `Output` call logs itself, records no error by itself, and through the
no-output writer leaves the stream alone. -/
theorem Output_frame (bc : SectBytecode) (w : Writer) (objfmt : CoffObject) (cs : CoffSection)
    (st : OutState) :
    (bc.Output objfmt w cs st).1.errwarns = st.errwarns ∧
    (bc.Output objfmt w cs st).1.outputLog = st.outputLog ++ [(w, bc)] ∧
    (w = .noOutput → (bc.Output objfmt w cs st).1.os = st.os) := by
  have hf := runCalls_frame w objfmt cs bc.calls
    { st with outputLog := st.outputLog ++ [(w, bc)] }
  unfold SectBytecode.Output
  rcases hc : runCalls objfmt w cs bc.calls
    { st with outputLog := st.outputLog ++ [(w, bc)] } with ⟨st1, res⟩
  rw [hc] at hf
  cases res with
  | error e => exact hf
  | ok u =>
    simp only
    cases bc.raises <;> exact hf

/-- The bytecode loop over a concatenation continues from the state and size
reached on the first part. -/
theorem outputBytecodes_append (objfmt : CoffObject) (w : Writer) (cs : CoffSection)
    (pre post : List SectBytecode) (st : OutState) (m : Nat) :
    outputBytecodes objfmt w cs (pre ++ post) st m =
      outputBytecodes objfmt w cs post (outputBytecodes objfmt w cs pre st m).1
        (outputBytecodes objfmt w cs pre st m).2 := by
  induction pre generalizing st m with
  | nil => simp [outputBytecodes]
  | cons i rest ih =>
    simp only [List.cons_append, outputBytecodes]
    rcases hc : i.Output objfmt w cs st with ⟨st1, res⟩
    cases res with
    | error e => exact ih _ _
    | ok u => exact ih _ _

/-- The bytecode loop calls `Output` on every bytecode, in order, only appends
to the recorded errors, and through the no-output writer leaves the stream
alone. -/
theorem outputBytecodes_log (objfmt : CoffObject) (w : Writer) (cs : CoffSection)
    (bcs : List SectBytecode) (st : OutState) (m : Nat) :
    (outputBytecodes objfmt w cs bcs st m).1.outputLog
      = st.outputLog ++ bcs.map (fun bc => (w, bc)) ∧
    (w = .noOutput → (outputBytecodes objfmt w cs bcs st m).1.os = st.os) ∧
    (∃ added, (outputBytecodes objfmt w cs bcs st m).1.errwarns = st.errwarns ++ added) := by
  induction bcs generalizing st m with
  | nil => simp [outputBytecodes]
  | cons i rest ih =>
    have hf := Output_frame i w objfmt cs st
    unfold outputBytecodes
    rcases hc : i.Output objfmt w cs st with ⟨st1, res⟩
    rw [hc] at hf
    simp only at hf
    cases res with
    | error e =>
      simp only
      obtain ⟨h1, h2, added, h3⟩ := ih { st1 with errwarns := st1.errwarns ++ [.error i.source e] } m
      refine ⟨?_, ?_, ?_⟩
      · rw [h1]; simp [hf.2.1]
      · intro hw; rw [h2 hw]; exact hf.2.2 hw
      · exact ⟨[.error i.source e] ++ added, by rw [h3]; simp [hf.1]⟩
    | ok u =>
      simp only
      obtain ⟨h1, h2, added, h3⟩ := ih st1 (m + i.totalLen)
      refine ⟨?_, ?_, ?_⟩
      · rw [h1]; simp [hf.2.1]
      · intro hw; rw [h2 hw]; exact hf.2.2 hw
      · exact ⟨added, by rw [h3, hf.1]⟩

/-- The size accumulated by the bytecode loop is at most the sum of the total
lengths, and equals it when no error was recorded. -/
theorem outputBytecodes_size (objfmt : CoffObject) (w : Writer) (cs : CoffSection)
    (bcs : List SectBytecode) (st : OutState) (m : Nat) :
    (outputBytecodes objfmt w cs bcs st m).2 ≤ m + (bcs.map SectBytecode.totalLen).sum ∧
    ((outputBytecodes objfmt w cs bcs st m).1.errwarns = st.errwarns →
      (outputBytecodes objfmt w cs bcs st m).2 = m + (bcs.map SectBytecode.totalLen).sum) := by
  induction bcs generalizing st m with
  | nil => simp [outputBytecodes]
  | cons i rest ih =>
    have hf := Output_frame i w objfmt cs st
    unfold outputBytecodes
    rcases hc : i.Output objfmt w cs st with ⟨st1, res⟩
    rw [hc] at hf
    simp only at hf
    cases res with
    | error e =>
      simp only
      obtain ⟨h1, _⟩ := ih { st1 with errwarns := st1.errwarns ++ [.error i.source e] } m
      refine ⟨?_, ?_⟩
      · simp only [List.map_cons, List.sum_cons]; omega
      · intro heq
        exfalso
        obtain ⟨_, _, added, h3⟩ := outputBytecodes_log objfmt w cs rest
          { st1 with errwarns := st1.errwarns ++ [.error i.source e] } m
        rw [h3] at heq
        simp only [hf.1] at heq
        have := congrArg List.length heq
        simp at this
    | ok u =>
      simp only
      obtain ⟨h1, h2⟩ := ih st1 (m + i.totalLen)
      refine ⟨?_, ?_⟩
      · simp only [List.map_cons, List.sum_cons]; omega
      · intro heq
        rw [hf.1] at h2
        rw [h2 heq]
        simp only [List.map_cons, List.sum_cons]; omega

/-- One request served by the no-output writer leaves the sections, their
relocation lists included, as they are and raises no error. -/
theorem Writer_call_noOutput (objfmt : CoffObject) (cs : CoffSection) (st : OutState)
    (call : WriterCall) :
    (Writer.noOutput.call objfmt cs st call).1.sects = st.sects ∧
    (Writer.noOutput.call objfmt cs st call).2 = .ok () := by
  cases call <;> exact ⟨rfl, rfl⟩

/-- The requests of a bytecode served by the no-output writer leave the sections
as they are and raise no error. -/
theorem runCalls_noOutput (objfmt : CoffObject) (cs : CoffSection) (calls : List WriterCall)
    (st : OutState) :
    (runCalls objfmt .noOutput cs calls st).1.sects = st.sects ∧
    (runCalls objfmt .noOutput cs calls st).2 = .ok () := by
  induction calls generalizing st with
  | nil => exact ⟨rfl, rfl⟩
  | cons call rest ih =>
    have hw := Writer_call_noOutput objfmt cs st call
    unfold runCalls
    rcases h1 : Writer.noOutput.call objfmt cs st call with ⟨a1, r1⟩
    rw [h1] at hw
    simp only at hw
    obtain ⟨hw1, hw2⟩ := hw
    subst hw2
    simp only
    rw [← hw1]
    exact ih a1

/-- One `Output` call through the no-output writer leaves the sections as they
are. -/
theorem Output_noOutput (bc : SectBytecode) (objfmt : CoffObject) (cs : CoffSection)
    (st : OutState) :
    (bc.Output objfmt .noOutput cs st).1.sects = st.sects := by
  have hr := runCalls_noOutput objfmt cs bc.calls
    { st with outputLog := st.outputLog ++ [(.noOutput, bc)] }
  unfold SectBytecode.Output
  rcases h1 : runCalls objfmt .noOutput cs bc.calls
    { st with outputLog := st.outputLog ++ [(.noOutput, bc)] } with ⟨a1, r1⟩
  rw [h1] at hr
  simp only at hr
  obtain ⟨hr1, hr2⟩ := hr
  subst hr2
  simp only
  cases bc.raises <;> exact hr1

/-- The bytecode loop through the no-output writer creates no relocation: the
sections are as before. -/
theorem outputBytecodes_noOutput (objfmt : CoffObject) (cs : CoffSection)
    (bcs : List SectBytecode) (st : OutState) (m : Nat) :
    (outputBytecodes objfmt .noOutput cs bcs st m).1.sects = st.sects := by
  induction bcs generalizing st m with
  | nil => rfl
  | cons i rest ih =>
    have ho := Output_noOutput i objfmt cs st
    unfold outputBytecodes
    rcases h1 : i.Output objfmt .noOutput cs st with ⟨a1, r1⟩
    rw [h1] at ho
    simp only at ho
    cases r1 with
    | error e =>
      simp only
      rw [ih]
      exact ho
    | ok u =>
      simp only
      rw [ih]
      exact ho

/-- For a BSS section `OutputSection` adds nothing but relocation records to
the stream, records file position 0, runs `Output` on every bytecode through
the no-output writer, records the size accumulated by the loop (the sum of
the total lengths when no bytecode raised an error), and creates no
relocation: the sections are as before. -/
theorem OutputSection_bss (objfmt : CoffObject) (tell : List Chunk → Int) (c : Nat)
    (sect : SectionContents) (st : OutState) (hbss : sect.isBSS = true) :
    (∃ relocs : List CoffReloc,
      (OutputSection objfmt tell c sect st).1.os = st.os ++ relocs.map Chunk.reloc) ∧
    (OutputSection objfmt tell c sect st).2.1.filePos = some 0 ∧
    (OutputSection objfmt tell c sect st).1.outputLog
      = st.outputLog ++ sect.bytecodes.map (fun bc => (Writer.noOutput, bc)) ∧
    ((OutputSection objfmt tell c sect st).2.1.m_size
      = some (outputBytecodes objfmt .noOutput (st.sects c).coffsect sect.bytecodes st 0).2) ∧
    ((outputBytecodes objfmt .noOutput (st.sects c).coffsect sect.bytecodes st 0).1.errwarns
        = st.errwarns →
      (OutputSection objfmt tell c sect st).2.1.m_size
        = some (sect.bytecodes.map SectBytecode.totalLen).sum) ∧
    (OutputSection objfmt tell c sect st).1.sects = st.sects := by
  have hlog := outputBytecodes_log objfmt .noOutput (st.sects c).coffsect sect.bytecodes st 0
  have hsize := outputBytecodes_size objfmt .noOutput (st.sects c).coffsect sect.bytecodes st 0
  have hsects := outputBytecodes_noOutput objfmt (st.sects c).coffsect sect.bytecodes st 0
  obtain ⟨hl1, hl2, _⟩ := hlog
  have hos := hl2 rfl
  unfold OutputSection
  simp only [hbss, if_true]
  unfold OutputSection_body
  simp only
  split
  · refine ⟨⟨[], by simp [hos]⟩, rfl, hl1, rfl, ?_, hsects⟩
    intro he
    simp [hsize.2 he]
  · split
    · refine ⟨⟨[], by simp [hos]⟩, rfl, hl1, rfl, ?_, hsects⟩
      intro he
      simp [hsize.2 he]
    · refine ⟨⟨((outputBytecodes objfmt .noOutput (st.sects c).coffsect sect.bytecodes st
          0).1.sects c).relocs, ?_⟩, rfl, ?_, rfl, ?_, ?_⟩
      · split <;> simp [hos]
      · split <;> simp [hl1]
      · intro he
        simp [hsize.2 he]
      · split <;> simp [hsects]

/-- C11, the code at the failing input: for a BSS section whose bytecodes have
total lengths 0, 4 and 8 and whose second bytecode raises an error in Output,
the recorded section size is 8, not 12, and the asserted size condition is
false; for a BSS section without failing bytecodes the recorded size is the
sum of the total lengths. -/
theorem C11_bss_size_on_error :
    exBssFailing.isBSS = true ∧
    (exBssFailing.bytecodes.map SectBytecode.totalLen).sum = 12 ∧
    bytecodes_last_getNextOffset exBssFailing.bytecodes = 12 ∧
    (OutputSection win32Coff exTell 1 exBssFailing exOutState).2.1
      = ⟨some 0, some 8, some false, none⟩ ∧
    (OutputSection win32Coff exTell 1 exBssFailing exOutState).1.errwarns
      = [.error ⟨11⟩ (.TooComplexError "expression too complex")] ∧
    (OutputSection win32Coff exTell 1 exBss exOutState).2.1.m_size = some 16 ∧
    (exBss.bytecodes.map SectBytecode.totalLen).sum = 16 := by
  refine ⟨rfl, by decide, by decide, by decide, by decide, by decide, by decide⟩

/-- After the bytecode loop `OutputSection` calls no further `Output`, keeps
every recorded error, and can only fail with the file-position IOError. -/
theorem OutputSection_body_loop (objfmt : CoffObject) (tell : List Chunk → Int) (c : Nat)
    (sect : SectionContents) (st : OutState) (w : Writer) (pos : Nat) :
    (OutputSection_body objfmt tell c sect st w pos).1.outputLog
      = (outputBytecodes objfmt w (st.sects c).coffsect sect.bytecodes st 0).1.outputLog ∧
    (∀ p, p ∈ (outputBytecodes objfmt w (st.sects c).coffsect sect.bytecodes st 0).1.errwarns →
      p ∈ (OutputSection_body objfmt tell c sect st w pos).1.errwarns) ∧
    ((OutputSection_body objfmt tell c sect st w pos).2.2 = .ok () ∨
      (OutputSection_body objfmt tell c sect st w pos).2.2
        = .error "could not get file position on output file") := by
  unfold OutputSection_body
  simp only
  split
  · exact ⟨rfl, fun p hp => hp, Or.inl rfl⟩
  · split
    · exact ⟨rfl, fun p hp => hp, Or.inr rfl⟩
    · refine ⟨?_, ?_, Or.inl rfl⟩
      · split <;> rfl
      · intro p hp
        split
        · simp [hp]
        · exact hp

/-- C12: if Output of some bytecode of a section raises an error,
OutputSection records it with that bytecode's source location, still calls
Output on every bytecode of the section, in order, the remaining ones
included, and the error does not leave OutputSection: the call returns
normally or with the file-position IOError. -/
theorem C12_bytecode_errors_captured (objfmt : CoffObject) (tell : List Chunk → Int) (c : Nat)
    (sect : SectionContents) (st : OutState) (pre post : List SectBytecode) (bc : SectBytecode)
    (err : CoffError)
    (hbcs : sect.bytecodes = pre ++ bc :: post)
    (hreach : sect.isBSS = true ∨
      (bytecodes_last_getNextOffset sect.bytecodes ≠ 0 ∧ 0 ≤ tell st.os))
    (hraise : (bc.Output objfmt (if sect.isBSS then .noOutput else .stream) (st.sects c).coffsect
        (outputBytecodes objfmt (if sect.isBSS then .noOutput else .stream)
          (st.sects c).coffsect pre st 0).1).2 = .error err) :
    Propagated.error bc.source err ∈ (OutputSection objfmt tell c sect st).1.errwarns ∧
    (OutputSection objfmt tell c sect st).1.outputLog
      = st.outputLog ++ (pre ++ bc :: post).map
          (fun b => ((if sect.isBSS then Writer.noOutput else Writer.stream), b)) ∧
    ((OutputSection objfmt tell c sect st).2.2 = .ok () ∨
      (OutputSection objfmt tell c sect st).2.2
        = .error "could not get file position on output file") := by
  -- the loop itself
  have hloop : ∀ w : Writer,
      (bc.Output objfmt w (st.sects c).coffsect
        (outputBytecodes objfmt w (st.sects c).coffsect pre st 0).1).2 = .error err →
      Propagated.error bc.source err ∈
        (outputBytecodes objfmt w (st.sects c).coffsect sect.bytecodes st 0).1.errwarns := by
    intro w hr
    rw [hbcs, outputBytecodes_append]
    generalize (outputBytecodes objfmt w (st.sects c).coffsect pre st 0).1 = st1 at hr ⊢
    generalize (outputBytecodes objfmt w (st.sects c).coffsect pre st 0).2 = m1
    unfold outputBytecodes
    rcases hc : bc.Output objfmt w (st.sects c).coffsect st1 with ⟨st2, res⟩
    rw [hc] at hr
    simp only at hr
    subst hr
    simp only
    obtain ⟨_, _, added, h3⟩ := outputBytecodes_log objfmt w (st.sects c).coffsect post
      { st2 with errwarns := st2.errwarns ++ [.error bc.source err] } m1
    rw [h3]
    simp
  have hlog : ∀ w : Writer,
      (outputBytecodes objfmt w (st.sects c).coffsect sect.bytecodes st 0).1.outputLog
        = st.outputLog ++ (pre ++ bc :: post).map (fun b => (w, b)) := by
    intro w
    rw [← hbcs]
    exact (outputBytecodes_log objfmt w (st.sects c).coffsect sect.bytecodes st 0).1
  unfold OutputSection
  cases hb : sect.isBSS
  · rw [hb] at hraise
    simp only [Bool.false_eq_true, if_false] at hraise ⊢
    rcases hreach with h | ⟨h1, h2⟩
    · rw [hb] at h
      simp at h
    · rw [if_neg h1, if_neg (not_lt.mpr h2)]
      obtain ⟨b1, b2, b3⟩ := OutputSection_body_loop objfmt tell c sect st .stream (tell st.os).toNat
      exact ⟨b2 _ (hloop .stream hraise), by rw [b1, hlog], b3⟩
  · rw [hb] at hraise
    simp only [if_true] at hraise ⊢
    obtain ⟨b1, b2, b3⟩ := OutputSection_body_loop objfmt tell c sect st .noOutput 0
    exact ⟨b2 _ (hloop .noOutput hraise), by rw [b1, hlog], b3⟩

/-- C12 evaluated on the BSS section whose second bytecode fails. -/
theorem C12_bytecode_errors_captured_witness :
    exBssFailing.bytecodes = [exSentinel] ++ exFailingBc :: [exDataBc] ∧
    exBssFailing.isBSS = true ∧
    Propagated.error ⟨11⟩ (.TooComplexError "expression too complex")
      ∈ (OutputSection win32Coff exTell 1 exBssFailing exOutState).1.errwarns ∧
    (OutputSection win32Coff exTell 1 exBssFailing exOutState).1.outputLog
      = exOutState.outputLog ++ ([exSentinel] ++ exFailingBc :: [exDataBc]).map
          (fun b => ((if exBssFailing.isBSS then Writer.noOutput else Writer.stream), b)) ∧
    ((OutputSection win32Coff exTell 1 exBssFailing exOutState).2.2 = .ok () ∨
      (OutputSection win32Coff exTell 1 exBssFailing exOutState).2.2
        = .error "could not get file position on output file") :=
  ⟨rfl, rfl,
    C12_bytecode_errors_captured win32Coff exTell 1 exBssFailing exOutState [exSentinel]
      [exDataBc] exFailingBc (.TooComplexError "expression too complex") rfl (Or.inl rfl) rfl⟩

/-! ## Properties of the COFF file header -/

/-- C13: when YASM_TEST_SUITE is set, the file header written by
CoffObject::Output has 20 bytes, its time/date stamp (bytes 4..7) is zero
whatever the current time is, and for the same object and all_syms flag two
runs at different clock values write identical headers. -/
theorem C13_test_suite_timestamp (machineCode : Machine → Nat) (F_LSYMS F_AR32WR : Nat)
    (m_machine : Machine) (scnum : Nat) (YASM_TEST_SUITE : Option String)
    (symtab_pos symtab_count : Nat) (all_syms : Bool)
    (henv : YASM_TEST_SUITE.isSome = true) :
    (∀ now, (Output_fileHeader machineCode F_LSYMS F_AR32WR m_machine scnum YASM_TEST_SUITE now
        symtab_pos symtab_count all_syms).length = 20) ∧
    (∀ now, ((Output_fileHeader machineCode F_LSYMS F_AR32WR m_machine scnum YASM_TEST_SUITE now
        symtab_pos symtab_count all_syms).drop 4).take 4 = [0, 0, 0, 0]) ∧
    (∀ now1 now2,
      Output_fileHeader machineCode F_LSYMS F_AR32WR m_machine scnum YASM_TEST_SUITE now1
        symtab_pos symtab_count all_syms
      = Output_fileHeader machineCode F_LSYMS F_AR32WR m_machine scnum YASM_TEST_SUITE now2
        symtab_pos symtab_count all_syms) := by
  refine ⟨?_, ?_, ?_⟩
  · intro now
    simp [Output_fileHeader, Write16, Write32]
  · intro now
    simp [Output_fileHeader, Write16, Write32, henv]
  · intro now1 now2
    simp [Output_fileHeader, henv]

/-- C13 evaluated at two clock values. -/
theorem C13_test_suite_timestamp_witness :
    (some "1" : Option String).isSome = true ∧
    Output_fileHeader (fun _ => 0x14c) 8 0x100 .MACHINE_I386 3 (some "1") 1234567890 120 7 false
      = Output_fileHeader (fun _ => 0x14c) 8 0x100 .MACHINE_I386 3 (some "1") 1700000000 120 7
          false :=
  ⟨rfl,
    (C13_test_suite_timestamp (fun _ => 0x14c) 8 0x100 .MACHINE_I386 3 (some "1") 120 7 false
      rfl).2.2 1234567890 1700000000⟩

/-- The header bytes of an example object, without and with YASM_TEST_SUITE
(set to the empty string). -/
theorem fileHeader_without_test_suite :
    Output_fileHeader (fun _ => 0x14c) 8 0x100 .MACHINE_I386 3 none 1234567890 120 7 false
      = [0x4c, 0x01, 2, 0, 0xd2, 0x02, 0x96, 0x49, 120, 0, 0, 0, 7, 0, 0, 0, 0, 0, 0x08, 0x01] ∧
    Output_fileHeader (fun _ => 0x14c) 8 0x100 .MACHINE_I386 3 (some "") 1234567890 120 7 false
      = [0x4c, 0x01, 2, 0, 0, 0, 0, 0, 120, 0, 0, 0, 7, 0, 0, 0, 0, 0, 0x08, 0x01] := by
  decide

/-! ## Properties of parser and machine selection -/

/-- Lower-casing a string lower-cases its characters one by one. -/
theorem toLower_data (s : String) : s.toLower = ⟨s.data.map Char.toLower⟩ := by
  simp [String.toLower, String.map_eq]

/-- The keyword comparison in terms of the lower-cased keyword. -/
theorem NocaseEqual_iff (a b : String) :
    NocaseEqual a b = true ↔ a.toLower = b.toLower := by
  simp [NocaseEqual]

/-- C21 (amended): X86Arch::setParser accepts exactly the keywords nasm, gas
and gnu, compared ignoring ASCII case: it returns true and selects the NASM
dialect for nasm and the GAS dialect for gas and for gnu, changing nothing
else; for every other keyword it returns false and leaves the state, the
selected parser included, unchanged. -/
theorem C21_setParser_keywords (a : X86Arch) (kw : String) :
    ((a.setParser kw).2 = true ↔
      (kw.toLower = "nasm" ∨ kw.toLower = "gas" ∨ kw.toLower = "gnu")) ∧
    (kw.toLower = "nasm" → (a.setParser kw).1 = { a with m_parser_kind := .PARSER_NASM }) ∧
    (kw.toLower = "gas" ∨ kw.toLower = "gnu" →
      (a.setParser kw).1 = { a with m_parser_kind := .PARSER_GAS }) ∧
    ((a.setParser kw).2 = false → (a.setParser kw).1 = a) := by
  have h1 : "nasm".toLower = "nasm" := by rw [toLower_data]; decide
  have h2 : "gas".toLower = "gas" := by rw [toLower_data]; decide
  have h3 : "gnu".toLower = "gnu" := by rw [toLower_data]; decide
  have e1 := NocaseEqual_iff kw "nasm"
  have e2 := NocaseEqual_iff kw "gas"
  have e3 := NocaseEqual_iff kw "gnu"
  rw [h1] at e1
  rw [h2] at e2
  rw [h3] at e3
  unfold X86Arch.setParser
  by_cases c1 : kw.toLower = "nasm"
  · have n1 := e1.mpr c1
    simp [n1, c1]
  · have n1 : NocaseEqual kw "nasm" = false := by
      cases h : NocaseEqual kw "nasm"
      · rfl
      · exact absurd (e1.mp h) c1
    by_cases c2 : kw.toLower = "gas"
    · have n2 := e2.mpr c2
      simp [n1, n2, c2]
    · have n2 : NocaseEqual kw "gas" = false := by
        cases h : NocaseEqual kw "gas"
        · rfl
        · exact absurd (e2.mp h) c2
      by_cases c3 : kw.toLower = "gnu"
      · have n3 := e3.mpr c3
        simp [n1, n2, n3, c3]
      · have n3 : NocaseEqual kw "gnu" = false := by
          cases h : NocaseEqual kw "gnu"
          · rfl
          · exact absurd (e3.mp h) c3
        simp [n1, n2, n3, c1, c2, c3]

/-- C21 refuted: the keyword gnu, in any case, is accepted as well: from the
constructor's state setParser returns true for it and selects the GAS
dialect, although it is neither nasm nor gas. -/
theorem C21_gnu_keyword_counterexample :
    NocaseEqual "gnu" "nasm" = false ∧ NocaseEqual "gnu" "gas" = false ∧
    X86Arch.init.m_parser_kind = .PARSER_UNKNOWN ∧
    X86Arch.init.setParser "gnu" = ({ X86Arch.init with m_parser_kind := .PARSER_GAS }, true) ∧
    X86Arch.init.setParser "GNU" = ({ X86Arch.init with m_parser_kind := .PARSER_GAS }, true) := by
  simp only [X86Arch.setParser, NocaseEqual, toLower_data]
  decide

/-- C21 evaluated: keywords in mixed case, and a rejected keyword. -/
theorem C21_setParser_keywords_witness :
    "NASM".toLower = "nasm" ∧
    (X86Arch.init.setParser "NASM").1 = { X86Arch.init with m_parser_kind := .PARSER_NASM } ∧
    ("Gas".toLower = "nasm" ∨ "Gas".toLower = "gas" ∨ "Gas".toLower = "gnu") ∧
    (X86Arch.init.setParser "Gas").2 = true ∧
    (X86Arch.init.setParser "tasm").2 = false ∧
    (X86Arch.init.setParser "tasm").1 = X86Arch.init :=
  ⟨by rw [toLower_data]; decide,
   (C21_setParser_keywords X86Arch.init "NASM").2.1 (by rw [toLower_data]; decide),
   Or.inr (Or.inl (by rw [toLower_data]; decide)),
   (C21_setParser_keywords X86Arch.init "Gas").1.mpr
     (Or.inr (Or.inl (by rw [toLower_data]; decide))),
   by simp only [X86Arch.setParser, NocaseEqual, toLower_data]; decide,
   (C21_setParser_keywords X86Arch.init "tasm").2.2.2
     (by simp only [X86Arch.setParser, NocaseEqual, toLower_data]; decide)⟩

/-- The call `setVar` never touches the machine flag. -/
theorem setVar_amd64_machine (a : X86Arch) (var : String) (val : Nat) :
    (a.setVar var val).1.m_amd64_machine = a.m_amd64_machine := by
  unfold X86Arch.setVar
  repeat' split
  all_goals rfl

/-- The call `X86Arch::setMachine` accepts only non-empty names, and a rejected
name leaves the architecture unchanged. -/
theorem X86Arch_setMachine_cases (a : X86Arch) (machine : String) :
    ((a.setMachine machine).2 = true → machine ≠ "") ∧
    ((a.setMachine machine).2 = false → (a.setMachine machine).1 = a) := by
  have h1 : NocaseEqual "" "x86" = false := by
    simp only [NocaseEqual, toLower_data]; decide
  have h2 : NocaseEqual "" "amd64" = false := by
    simp only [NocaseEqual, toLower_data]; decide
  constructor
  · intro h hm
    subst hm
    simp [X86Arch.setMachine, h1, h2] at h
  · intro h
    unfold X86Arch.setMachine at h ⊢
    split
    · rename_i hc
      simp [hc] at h
    · split
      · rename_i hc1 hc2
        simp [hc1, hc2] at h
      · rfl

/-- Machine selection through `Assembler::setMachine` keeps the module
keywords, and as long as `m_machine` is empty the architecture has its
constructor's machine. -/
theorem setMachines_invariant (calls : List String) (s : AssemblerImpl) (diags : Diagnostic)
    (hinv : s.m_machine = "" → s.m_arch.m_amd64_machine = false) :
    (s.setMachines diags calls).1.m_arch_keyword = s.m_arch_keyword ∧
    (s.setMachines diags calls).1.m_objfmt_module = s.m_objfmt_module ∧
    ((s.setMachines diags calls).1.m_machine = "" →
      (s.setMachines diags calls).1.m_arch.m_amd64_machine = false) := by
  induction calls generalizing s diags with
  | nil => exact ⟨rfl, rfl, hinv⟩
  | cons machine rest ih =>
    unfold AssemblerImpl.setMachines
    simp only
    have hc := X86Arch_setMachine_cases s.m_arch machine
    have hstep : (s.setMachine machine diags).1.m_arch_keyword = s.m_arch_keyword ∧
        (s.setMachine machine diags).1.m_objfmt_module = s.m_objfmt_module ∧
        ((s.setMachine machine diags).1.m_machine = "" →
          (s.setMachine machine diags).1.m_arch.m_amd64_machine = false) := by
      unfold AssemblerImpl.setMachine
      rcases hr : s.m_arch.setMachine machine with ⟨arch1, flag⟩
      rw [hr] at hc
      cases flag with
      | false =>
        simp only at hc ⊢
        refine ⟨trivial, trivial, ?_⟩
        intro hm
        rw [hc.2 trivial]
        exact hinv hm
      | true =>
        simp only at hc ⊢
        refine ⟨trivial, trivial, ?_⟩
        intro hm
        exact absurd hm (hc.1 trivial)
    obtain ⟨i1, i2, i3⟩ := ih (s.setMachine machine diags).1 (s.setMachine machine diags).2.1 hstep.2.2
    exact ⟨i1.trans hstep.1, i2.trans hstep.2.1, i3⟩

/-- C29: on an assembler created for object format `objfmt`, after any calls of
setMachine: when no machine has been set and the architecture keyword is x86,
the default-machine block of Assemble succeeds without a diagnostic and sets
the machine to amd64 exactly when the object format's default x86 mode bits
is 64, which is so exactly for elf64 and elfx32; otherwise it changes nothing
and the architecture keeps its default machine x86; and a machine that has
been set is never overridden. -/
theorem C29_default_machine (arch_keyword : String) (objfmt : ObjFmtModule)
    (calls : List String) (diags0 : Diagnostic) (s : AssemblerImpl) (diags : Diagnostic)
    (hs : (AssemblerImpl.create arch_keyword objfmt).setMachines diags0 calls = (s, diags)) :
    (s.m_machine = "" → StringRef_equals_lower arch_keyword "x86" = true →
      (Assemble_defaultMachine s diags).2.2 = true ∧
      (Assemble_defaultMachine s diags).2.1 = diags ∧
      ((Assemble_defaultMachine s diags).1.m_machine = "amd64"
        ↔ objfmt.getDefaultX86ModeBits = 64) ∧
      (objfmt.getDefaultX86ModeBits = 64
        ↔ (objfmt = .Elf64Object ∨ objfmt = .Elfx32Object)) ∧
      (objfmt.getDefaultX86ModeBits = 64 →
        (Assemble_defaultMachine s diags).1.m_arch.getMachine = "amd64") ∧
      (objfmt.getDefaultX86ModeBits ≠ 64 →
        (Assemble_defaultMachine s diags).1 = s ∧ s.m_arch.getMachine = "x86")) ∧
    (s.m_machine ≠ "" → Assemble_defaultMachine s diags = (s, diags, true)) := by
  have hinv := setMachines_invariant calls (AssemblerImpl.create arch_keyword objfmt) diags0
    (by
      intro _
      unfold AssemblerImpl.create
      simp only
      split
      · rw [setVar_amd64_machine]; rfl
      · rfl)
  rw [hs] at hinv
  simp only at hinv
  obtain ⟨hk, ho, hm⟩ := hinv
  have hk2 : s.m_arch_keyword = arch_keyword := by rw [hk]; rfl
  have ho2 : s.m_objfmt_module = objfmt := by rw [ho]; rfl
  have hamd : NocaseEqual "amd64" "amd64" = true := by simp [NocaseEqual]
  have hx : NocaseEqual "amd64" "x86" = false := by
    simp only [NocaseEqual, toLower_data]; decide
  constructor
  · intro hempty hx86
    have hbits : objfmt.getDefaultX86ModeBits = 64
        ↔ (objfmt = .Elf64Object ∨ objfmt = .Elfx32Object) := by
      cases objfmt <;> simp [ObjFmtModule.getDefaultX86ModeBits]
    by_cases hb : objfmt.getDefaultX86ModeBits = 64
    · have hr : Assemble_defaultMachine s diags
          = ({ s with m_arch := { s.m_arch with m_amd64_machine := true }, m_machine := "amd64" },
              diags, true) := by
        simp [Assemble_defaultMachine, hempty, hk2, ho2, hx86, hb, AssemblerImpl.setMachine,
          X86Arch.setMachine, hamd, hx]
      rw [hr]
      refine ⟨rfl, rfl, ?_, hbits, ?_, ?_⟩
      · simp [hb]
      · intro _
        simp [X86Arch.getMachine]
      · intro hne
        exact absurd hb hne
    · have hr : Assemble_defaultMachine s diags = (s, diags, true) := by
        simp [Assemble_defaultMachine, hempty, hk2, ho2, hb]
      rw [hr]
      refine ⟨rfl, rfl, ?_, hbits, ?_, ?_⟩
      · simp only [hempty, hb]
        decide
      · intro h64
        exact absurd h64 hb
      · intro _
        exact ⟨rfl, by simp [X86Arch.getMachine, hm hempty]⟩
  · intro hne
    simp [Assemble_defaultMachine, hne]

/-- C29 evaluated: elf64 without a machine gets amd64, and a machine x86 set
beforehand stays. -/
theorem C29_default_machine_witness :
    (AssemblerImpl.create "x86" .Elf64Object).m_machine = "" ∧
    StringRef_equals_lower "x86" "x86" = true ∧
    (Assemble_defaultMachine (AssemblerImpl.create "x86" .Elf64Object) noDiagnostics.diags).1.m_machine
      = "amd64" ∧
    (Assemble_defaultMachine (AssemblerImpl.create "x86" .Elf64Object)
      noDiagnostics.diags).1.m_arch.getMachine = "amd64" ∧
    (((AssemblerImpl.create "x86" .Elf64Object).setMachines noDiagnostics.diags ["x86"]).1.m_machine
      ≠ "") ∧
    Assemble_defaultMachine
        ((AssemblerImpl.create "x86" .Elf64Object).setMachines noDiagnostics.diags ["x86"]).1
        ((AssemblerImpl.create "x86" .Elf64Object).setMachines noDiagnostics.diags ["x86"]).2
      = (((AssemblerImpl.create "x86" .Elf64Object).setMachines noDiagnostics.diags ["x86"]).1,
         ((AssemblerImpl.create "x86" .Elf64Object).setMachines noDiagnostics.diags ["x86"]).2,
         true) :=
  have hx : NocaseEqual "x86" "x86" = true := by simp [NocaseEqual]
  have hset : ((AssemblerImpl.create "x86" .Elf64Object).setMachines noDiagnostics.diags
      ["x86"]).1.m_machine ≠ "" := by
    simp [AssemblerImpl.setMachines, AssemblerImpl.setMachine, X86Arch.setMachine, hx]
  ⟨rfl, by decide,
   ((C29_default_machine "x86" .Elf64Object [] noDiagnostics.diags
      (AssemblerImpl.create "x86" .Elf64Object) noDiagnostics.diags rfl).1 rfl
      (by decide)).2.2.1.mpr rfl,
   ((C29_default_machine "x86" .Elf64Object [] noDiagnostics.diags
      (AssemblerImpl.create "x86" .Elf64Object) noDiagnostics.diags rfl).1 rfl
      (by decide)).2.2.2.2.1 rfl,
   hset,
   (C29_default_machine "x86" .Elf64Object ["x86"] noDiagnostics.diags _ _ rfl).2 hset⟩

/-! ## Properties of the jump-based fills -/

/-- C30: for every n from 9 to 15, entry n of the 16-bit fill table and entry n
of the basic 32-bit fill table is the short-jump opcode EB, the displacement
byte n - 2 and then n - 2 bytes 90, n bytes in all; these are the tables
getFill returns in 16-bit mode and in 32-bit mode with the basic policy; and
the jump continues at offset n, the first byte after the fill. -/
theorem C30_jump_fill (n : Nat) (h9 : 9 ≤ n) (h15 : n ≤ 15) :
    fill16[n]? = some (some (0xeb :: (n - 2) :: List.replicate (n - 2) 0x90)) ∧
    fill32[n]? = some (some (0xeb :: (n - 2) :: List.replicate (n - 2) 0x90)) ∧
    (0xeb :: (n - 2) :: List.replicate (n - 2) 0x90).length = n ∧
    shortJmpTarget (0xeb :: (n - 2) :: List.replicate (n - 2) 0x90) = some (n : Int) ∧
    (∀ a : X86Arch, a.m_mode_bits = 16 → a.getFill = .ok fill16) ∧
    (∀ a : X86Arch, a.m_mode_bits = 32 → a.m_nop = .NOP_BASIC → a.getFill = .ok fill32) := by
  refine ⟨?_, ?_, ?_, ?_, ?_, ?_⟩
  · interval_cases n <;> rfl
  · interval_cases n <;> rfl
  · simp; omega
  · interval_cases n <;> rfl
  · intro a h
    simp [X86Arch.getFill, h]
  · intro a h hn
    simp [X86Arch.getFill, h, hn]

/-- C30 evaluated at n = 9: the fill `jmp $+9` followed by seven NOPs. -/
theorem C30_jump_fill_witness :
    fill16[9]? = some (some [0xeb, 0x07, 0x90, 0x90, 0x90, 0x90, 0x90, 0x90, 0x90]) ∧
    fill32[9]? = some (some [0xeb, 0x07, 0x90, 0x90, 0x90, 0x90, 0x90, 0x90, 0x90]) ∧
    shortJmpTarget [0xeb, 0x07, 0x90, 0x90, 0x90, 0x90, 0x90, 0x90, 0x90] = some 9 :=
  ⟨(C30_jump_fill 9 (by decide) (by decide)).1,
   (C30_jump_fill 9 (by decide) (by decide)).2.1,
   (C30_jump_fill 9 (by decide) (by decide)).2.2.2.1⟩

/-! ## Properties of the section numbering loop -/

/-- The numbering loop keeps the number of sections. -/
theorem numberSections_length (m_set_vma : Bool) (sections : List Section) (scnum addr : Nat) :
    (numberSections m_set_vma sections scnum addr).1.length = sections.length := by
  induction sections generalizing scnum addr with
  | nil => simp [numberSections]
  | cons s rest ih =>
    unfold numberSections
    simp only
    split <;> simp [ih]

/-- As long as the section count fits an `unsigned int` and the sizes fit an
`unsigned long`, the numbering loop over a concatenation continues from the
section number and the address reached on the first part. -/
theorem numberSections_append (m_set_vma : Bool) (pre rest : List Section) (scnum addr : Nat)
    (hn : scnum + pre.length < 2 ^ 32) (hsz : addr + sizeOfNonDebug pre < 2 ^ 64) :
    (numberSections m_set_vma (pre ++ rest) scnum addr).1 =
      (numberSections m_set_vma pre scnum addr).1 ++
        (numberSections m_set_vma rest (scnum + pre.length) (addr + sizeOfNonDebug pre)).1 := by
  induction pre generalizing scnum addr with
  | nil => simp [numberSections, sizeOfNonDebug]
  | cons p pre ih =>
    have hsc : (scnum + 1) % 2 ^ 32 = scnum + 1 := by
      apply Nat.mod_eq_of_lt
      simp only [List.length_cons] at hn
      omega
    simp only [List.cons_append, numberSections, hsc]
    by_cases hd : p.coffsect.m_isdebug = true
    · have hsize : sizeOfNonDebug (p :: pre) = sizeOfNonDebug pre := by
        simp [sizeOfNonDebug, List.filter, hd]
      rw [hsize] at hsz ⊢
      simp only [hd, if_true, List.cons_append, List.cons.injEq, true_and]
      have h := ih (scnum + 1) addr (by simp only [List.length_cons] at hn; omega) hsz
      rw [show scnum + (p :: pre).length = scnum + 1 + pre.length by
        simp only [List.length_cons]; omega]
      exact h
    · have hdf : p.coffsect.m_isdebug = false := by
        cases h : p.coffsect.m_isdebug
        · rfl
        · exact absurd h hd
      have hsize : sizeOfNonDebug (p :: pre) = p.nextOffset + sizeOfNonDebug pre := by
        simp [sizeOfNonDebug, List.filter, hdf]
      rw [hsize] at hsz ⊢
      have ha : (addr + p.nextOffset) % 2 ^ 64 = addr + p.nextOffset := by
        apply Nat.mod_eq_of_lt
        omega
      simp only [hdf, Bool.false_eq_true, if_false, List.cons_append, List.cons.injEq, true_and,
        ha]
      have h := ih (scnum + 1) (addr + p.nextOffset)
        (by simp only [List.length_cons] at hn; omega) (by omega)
      rw [show scnum + (p :: pre).length = scnum + 1 + pre.length by
        simp only [List.length_cons]; omega,
        show addr + (p.nextOffset + sizeOfNonDebug pre)
          = addr + p.nextOffset + sizeOfNonDebug pre by omega]
      exact h

/-- C27: for an object whose section count fits an `unsigned int` and whose
section sizes sum to less than the range of `unsigned long`, the numbering loop
of CoffObject::Output keeps the sections in insertion order, gives the k-th
section the number k, gives each non-debug section an LMA equal to the sum of
the final sizes of the non-debug sections before it (0 for the first) and a
VMA equal to that LMA when set_vma holds and 0 otherwise, gives every debug
section LMA = VMA = 0 without advancing the address, and changes nothing else
of a section. -/
theorem C27_section_layout (objfmt : CoffObject) (pre post : List Section) (s : Section)
    (hn : pre.length + 1 < 2 ^ 32) (hsz : sizeOfNonDebug pre < 2 ^ 64) :
    (Output_numberSections objfmt (pre ++ s :: post)).length = (pre ++ s :: post).length ∧
    ∃ s1, (Output_numberSections objfmt (pre ++ s :: post))[pre.length]? = some s1 ∧
      s1.coffsect = { s.coffsect with m_scnum := pre.length + 1 } ∧
      s1.nextOffset = s.nextOffset ∧ s1.relocs = s.relocs ∧
      (s.coffsect.m_isdebug = true → s1.lma = 0 ∧ s1.vma = 0) ∧
      (s.coffsect.m_isdebug = false →
        s1.lma = sizeOfNonDebug pre ∧
        s1.vma = if objfmt.m_set_vma then sizeOfNonDebug pre else 0) ∧
      (sizeOfNonDebug (pre ++ [s])
        = if s.coffsect.m_isdebug then sizeOfNonDebug pre
          else sizeOfNonDebug pre + s.nextOffset) := by
  refine ⟨numberSections_length _ _ _ _, ?_⟩
  unfold Output_numberSections
  rw [numberSections_append objfmt.m_set_vma pre (s :: post) 1 0 (by omega) (by omega)]
  have hlen := numberSections_length objfmt.m_set_vma pre 1 0
  rw [List.getElem?_append_right (by omega)]
  simp only [hlen, Nat.sub_self, Nat.zero_add]
  have hsum : sizeOfNonDebug (pre ++ [s])
        = if s.coffsect.m_isdebug then sizeOfNonDebug pre
          else sizeOfNonDebug pre + s.nextOffset := by
    cases hd : s.coffsect.m_isdebug <;> simp [sizeOfNonDebug, List.filter_append, List.filter, hd]
  unfold numberSections
  cases hd : s.coffsect.m_isdebug
  · simp only [hd, Bool.false_eq_true, if_false, List.getElem?_cons_zero]
    refine ⟨_, rfl, ?_, rfl, rfl, ?_, ?_, ?_⟩
    · rw [Nat.add_comm]
    · intro h; simp at h
    · intro _; exact ⟨rfl, rfl⟩
    · simpa [hd] using hsum
  · simp only [hd, if_true, List.getElem?_cons_zero]
    refine ⟨_, rfl, ?_, rfl, rfl, ?_, ?_, ?_⟩
    · rw [Nat.add_comm]
    · intro _; exact ⟨rfl, rfl⟩
    · intro h; simp at h
    · simpa [hd] using hsum

/-- C27 evaluated: `.data` after `.text` (16 bytes) and a debug section (32
bytes) is section 3 at LMA 16, with VMA 16 in standard COFF; the debug section
is section 2 at LMA = VMA = 0. -/
theorem C27_section_layout_witness :
    [exTextSect, exDebugSect].length + 1 < 2 ^ 32 ∧
    sizeOfNonDebug [exTextSect, exDebugSect] = 16 ∧
    Output_numberSections standardCoff [exTextSect, exDebugSect, exDataSect]
      = [⟨0, 0, 16, [], ⟨exTextSym, false, false, 1, 0⟩⟩,
         ⟨0, 0, 32, [], ⟨⟨".debug", 0, none, none⟩, false, true, 2, 0⟩⟩,
         ⟨16, 16, 8, [], ⟨exDataSym, false, false, 3, 0⟩⟩] ∧
    ∃ s1, (Output_numberSections standardCoff
        ([exTextSect, exDebugSect] ++ exDataSect :: []))[2]? = some s1 ∧
      s1.coffsect = { exDataSect.coffsect with m_scnum := 3 } ∧
      s1.lma = 16 ∧ s1.vma = 16 :=
  ⟨by decide, by decide, by decide,
    match C27_section_layout standardCoff [exTextSect, exDebugSect] [] exDataSect
        (by decide) (by decide) with
    | ⟨_, s1, h1, h2, _, _, _, h6, _⟩ => ⟨s1, h1, h2, (h6 rfl).1, (h6 rfl).2⟩⟩

/-! ## Atomicity and relocation sizes of `CoffOutput::ConvertValueToBytes` -/

/-- The outcome of the conversion of a Value with a relative part in terms of
the relocation body: an error of the body is returned with the sections
untouched, a relocation built by the body is added. -/
theorem ConvertValueToBytes_cases (objfmt : CoffObject) (m_coffsect : CoffSection)
    (sects : Nat → Section) (value : Value) (loc : Location) :
    (tooComplexShape value = true ∧
      ConvertValueToBytes objfmt m_coffsect sects value loc
        = (sects, .error (.TooComplexError "coff: relocation too complex"))) ∨
    (tooComplexShape value = false ∧ value.relative = none ∧
      ∃ em, ConvertValueToBytes objfmt m_coffsect sects value loc = (sects, .ok em)) ∨
    (tooComplexShape value = false ∧ ∃ sym0, value.relative = some sym0 ∧
      ((∃ e, relocFor objfmt m_coffsect sects value loc sym0 = .error e ∧
          ConvertValueToBytes objfmt m_coffsect sects value loc = (sects, .error e)) ∨
       (∃ reloc intn dist, relocFor objfmt m_coffsect sects value loc sym0
            = .ok (reloc, intn, dist) ∧
          ConvertValueToBytes objfmt m_coffsect sects value loc
            = (AddReloc sects loc.bc.container reloc,
               .ok ⟨intn + value.abs + dist, value.size⟩)))) := by
  cases hs : tooComplexShape value
  · right
    cases hrel : value.relative with
    | none =>
      left
      refine ⟨rfl, rfl, ⟨value.abs, value.size⟩, ?_⟩
      simp [ConvertValueToBytes, hs, Value.OutputBasic, Value.isRelative, hrel]
    | some sym0 =>
      right
      refine ⟨rfl, sym0, rfl, ?_⟩
      cases hr : relocFor objfmt m_coffsect sects value loc sym0 with
      | error e =>
        exact Or.inl ⟨e, rfl,
          ConvertValueToBytes_of_error objfmt m_coffsect sects value loc sym0 e hrel hs hr⟩
      | ok r =>
        obtain ⟨reloc, intn, dist⟩ := r
        exact Or.inr ⟨reloc, intn, dist, rfl,
          ConvertValueToBytes_of_ok objfmt m_coffsect sects value loc sym0 reloc intn dist
            hrel hs hr⟩
  · left
    exact ⟨rfl, ConvertValueToBytes_of_shape objfmt m_coffsect sects value loc hs⟩

/-- C24: whenever ConvertValueToBytes fails, with whatever error, the sections
are as before the call, so the relocation list of every section is unchanged;
and a call that changes some section has succeeded. -/
theorem C24_error_leaves_relocations (objfmt : CoffObject) (m_coffsect : CoffSection)
    (sects : Nat → Section) (value : Value) (loc : Location) :
    (∀ e, (ConvertValueToBytes objfmt m_coffsect sects value loc).2 = .error e →
      (ConvertValueToBytes objfmt m_coffsect sects value loc).1 = sects ∧
      (∀ i, ((ConvertValueToBytes objfmt m_coffsect sects value loc).1 i).relocs
        = (sects i).relocs) ∧
      ((∃ msg, e = .TooComplexError msg) ∨ (∃ msg, e = .ValueError msg) ∨
        (∃ msg, e = .TypeError msg))) ∧
    ((ConvertValueToBytes objfmt m_coffsect sects value loc).1 ≠ sects →
      ∃ em, (ConvertValueToBytes objfmt m_coffsect sects value loc).2 = .ok em) := by
  have hkind : ∀ e : CoffError, (∃ msg, e = .TooComplexError msg) ∨ (∃ msg, e = .ValueError msg) ∨
        (∃ msg, e = .TypeError msg) := by
    intro e
    cases e with
    | TooComplexError m => exact Or.inl ⟨m, rfl⟩
    | ValueError m => exact Or.inr (Or.inl ⟨m, rfl⟩)
    | TypeError m => exact Or.inr (Or.inr ⟨m, rfl⟩)
  rcases ConvertValueToBytes_cases objfmt m_coffsect sects value loc with
    ⟨_, h⟩ | ⟨_, _, em, h⟩ | ⟨_, sym0, _, ⟨e1, _, h⟩ | ⟨reloc, intn, dist, _, h⟩⟩
  · rw [h]
    exact ⟨fun e _ => ⟨rfl, fun _ => rfl, hkind e⟩, fun hne => absurd rfl hne⟩
  · rw [h]
    exact ⟨fun e _ => ⟨rfl, fun _ => rfl, hkind e⟩, fun hne => absurd rfl hne⟩
  · rw [h]
    exact ⟨fun e _ => ⟨rfl, fun _ => rfl, hkind e⟩, fun hne => absurd rfl hne⟩
  · rw [h]
    refine ⟨?_, fun _ => ⟨_, rfl⟩⟩
    intro e he
    simp at he

/-- C24 evaluated: a 16-bit PC-relative reference on I386 fails with TypeError
at the last check, and the sections are as before. -/
theorem C24_error_leaves_relocations_witness :
    (ConvertValueToBytes standardCoff exDataCoffsect
        (sectionMap (Output_numberSections standardCoff exSections))
        (exPcRelValue 16 exExtern) exLoc).2
      = .error (.TypeError "coff: invalid relocation size") ∧
    (ConvertValueToBytes standardCoff exDataCoffsect
        (sectionMap (Output_numberSections standardCoff exSections))
        (exPcRelValue 16 exExtern) exLoc).1
      = sectionMap (Output_numberSections standardCoff exSections) :=
  ⟨rfl,
    ((C24_error_leaves_relocations standardCoff exDataCoffsect
      (sectionMap (Output_numberSections standardCoff exSections))
      (exPcRelValue 16 exExtern) exLoc).1 _ rfl).1⟩

/-- The type derivation in terms of the Value size: the PC-relative types and
the absolute AMD64 types come with a checked size, the other types with any
size. -/
theorem deriveRelocType_ok_size (machine : Machine) (pc_rel : Bool) (value : Value)
    (m_nobase : Bool) (rtype : RelocType)
    (h : deriveRelocType machine pc_rel value m_nobase = .ok rtype) :
    (rtype ∈ [RelocType.I386_REL32, .AMD64_REL32, .AMD64_REL32_1, .AMD64_REL32_2,
        .AMD64_REL32_3, .AMD64_REL32_4, .AMD64_REL32_5, .AMD64_ADDR32, .AMD64_ADDR32NB] →
      value.size = 32) ∧
    (rtype = .AMD64_ADDR64 → value.size = 64) ∧
    (value.size ≠ 32 → value.size ≠ 64 →
      rtype ∈ [RelocType.I386_ADDR32, .I386_ADDR32NB, .I386_SECREL, .I386_SECTION,
        .AMD64_SECREL, .AMD64_SECTION]) := by
  unfold deriveRelocType at h
  cases machine
  · simp only at h
    repeat' split at h
    all_goals first
      | (simp at h; done)
      | (simp at h; subst h; simp_all)
  · simp only at h
    repeat' split at h
    all_goals first
      | (simp at h; done)
      | (simp at h; subst h; simp_all)

/-- The type derivation fails only for a PC-relative Value that is not 32 bits
wide or, on AMD64, has next_insn above 5, or, on AMD64, for an absolute Value
that is neither 32 nor 64 bits wide. -/
theorem deriveRelocType_error_size (machine : Machine) (pc_rel : Bool) (value : Value)
    (m_nobase : Bool) (e : CoffError)
    (h : deriveRelocType machine pc_rel value m_nobase = .error e) :
    (pc_rel = true ∧
      (value.size ≠ 32 ∨ (machine = .MACHINE_AMD64 ∧ 5 < value.nextInsn))) ∨
    (machine = .MACHINE_AMD64 ∧ value.segOf = false ∧ value.sectionRelative = false ∧
      value.size ≠ 32 ∧ value.size ≠ 64) := by
  unfold deriveRelocType at h
  cases machine
  · simp only at h
    repeat' split at h
    all_goals first
      | (simp at h; done)
      | simp_all
  · simp only at h
    cases hpc : pc_rel
    · simp only [hpc, Bool.false_eq_true, if_false] at h
      repeat' split at h
      all_goals first
        | (simp at h; done)
        | simp_all
    · simp only [hpc, if_true] at h
      left
      refine ⟨rfl, ?_⟩
      by_cases hsz : value.size = 32
      · right
        refine ⟨rfl, ?_⟩
        simp only [hsz, ne_eq, not_true_eq_false, if_false] at h
        by_contra hle
        have hle5 : value.nextInsn ≤ 5 := by omega
        generalize value.nextInsn = n at h hle5
        interval_cases n <;> simp at h
      · exact Or.inl hsz

/-- C25 (amended): the size of the Value is checked for the PC-relative
relocations of both machines and for the absolute AMD64 relocations only.
Every relocation ConvertValueToBytes adds with a REL32 type, AMD64_ADDR32 or
AMD64_ADDR32NB is for a 32-bit Value and every AMD64_ADDR64 relocation for a
64-bit Value; a TypeError is always "invalid relocation size" and is raised
only for a PC-relative Value that is not 32 bits wide or, on AMD64, has
next_insn above 5, or for an absolute AMD64 Value that is neither 32 nor 64
bits wide; for an absolute Value on I386, and for a seg-of or
section-relative Value on either machine, the type is derived whatever the
size is. -/
theorem C25_relocation_size (objfmt : CoffObject) (m_coffsect : CoffSection)
    (sects : Nat → Section) (value : Value) (loc : Location) (sym : Symbol)
    (hrel : value.relative = some sym) :
    (∀ em, (ConvertValueToBytes objfmt m_coffsect sects value loc).2 = .ok em →
      ∃ reloc, (ConvertValueToBytes objfmt m_coffsect sects value loc).1
          = AddReloc sects loc.bc.container reloc ∧
        (reloc.rtype ∈ [RelocType.I386_REL32, .AMD64_REL32, .AMD64_REL32_1, .AMD64_REL32_2,
            .AMD64_REL32_3, .AMD64_REL32_4, .AMD64_REL32_5, .AMD64_ADDR32, .AMD64_ADDR32NB] →
          value.size = 32) ∧
        (reloc.rtype = .AMD64_ADDR64 → value.size = 64) ∧
        (value.size ≠ 32 → value.size ≠ 64 →
          reloc.rtype ∈ [RelocType.I386_ADDR32, .I386_ADDR32NB, .I386_SECREL, .I386_SECTION,
            .AMD64_SECREL, .AMD64_SECTION])) ∧
    (∀ msg, (ConvertValueToBytes objfmt m_coffsect sects value loc).2
        = .error (.TypeError msg) →
      msg = "coff: invalid relocation size" ∧
      (((∃ d, value.calcPCRelSub loc = some d) ∧
          (value.size ≠ 32 ∨ (objfmt.m_machine = .MACHINE_AMD64 ∧ 5 < value.nextInsn))) ∨
        (objfmt.m_machine = .MACHINE_AMD64 ∧ value.segOf = false ∧
          value.sectionRelative = false ∧ value.size ≠ 32 ∧ value.size ≠ 64))) ∧
    (∀ size : Nat, ∃ rtype,
      deriveRelocType .MACHINE_I386 false { value with size := size } m_coffsect.m_nobase
        = .ok rtype) ∧
    (value.segOf = true ∨ value.sectionRelative = true → ∀ size : Nat, ∃ rtype,
      deriveRelocType .MACHINE_AMD64 false { value with size := size } m_coffsect.m_nobase
        = .ok rtype) := by
  refine ⟨?_, ?_, ?_, ?_⟩
  · intro em hok
    rcases ConvertValueToBytes_cases objfmt m_coffsect sects value loc with
      ⟨_, h⟩ | ⟨_, hnone, _, _⟩ | ⟨_, sym0, _, ⟨e1, _, h⟩ | ⟨reloc, intn, dist, hr, h⟩⟩
    · rw [h] at hok; simp at hok
    · rw [hrel] at hnone; simp at hnone
    · rw [h] at hok; simp at hok
    · rw [h]
      obtain ⟨_, sym2, intn0, pc_rel, intn1, rtype, _, _, hd, _, hre⟩ :=
        relocFor_ok objfmt m_coffsect sects value loc sym0 reloc intn dist hr
      have hrt : reloc.rtype = rtype := by
        rw [hre]
        cases objfmt.m_machine <;> rfl
      refine ⟨reloc, rfl, ?_⟩
      rw [hrt]
      exact deriveRelocType_ok_size objfmt.m_machine pc_rel value m_coffsect.m_nobase rtype hd
  · intro msg herr
    rcases ConvertValueToBytes_cases objfmt m_coffsect sects value loc with
      ⟨_, h⟩ | ⟨_, _, _, h⟩ | ⟨_, sym0, _, ⟨e1, hr, h⟩ | ⟨reloc, intn, dist, _, h⟩⟩
    · rw [h] at herr; simp at herr
    · rw [h] at herr; simp at herr
    · rw [h] at herr
      simp only [Except.error.injEq] at herr
      subst herr
      rcases relocFor_error objfmt m_coffsect sects value loc sym0 _ hr with
        hw | ⟨dist, _, ht | ⟨sym2, intn0, _, hp | ⟨pc_rel, intn1, hp, hd⟩⟩⟩
      · obtain ⟨⟨m, hm⟩, _⟩ := wrtSwap_error _ _ _ hw
        simp at hm
      · obtain ⟨_, _, hm | hm⟩ := relocTarget_error _ _ _ _ ht
        · simp at hm
        · simp at hm
      · have hm := (pcRelAdjust_error _ _ _ _ _ hp).1
        simp at hm
      · have hmsg := deriveRelocType_error _ _ _ _ _ hd
        simp only [CoffError.TypeError.injEq] at hmsg
        refine ⟨hmsg, ?_⟩
        rcases deriveRelocType_error_size _ _ _ _ _ hd with ⟨hpc, hwhy⟩ | hsz
        · left
          refine ⟨?_, hwhy⟩
          cases hc : value.calcPCRelSub loc with
          | some d => exact ⟨d, rfl⟩
          | none =>
            have := (pcRelAdjust_of_none objfmt value loc intn0 pc_rel intn1 hc hp).1
            rw [hpc] at this
            simp at this
        · exact Or.inr hsz
    · rw [h] at herr; simp at herr
  · intro size
    unfold deriveRelocType
    simp only [Bool.false_eq_true, if_false]
    split
    · exact ⟨_, rfl⟩
    · split
      · exact ⟨_, rfl⟩
      · split <;> exact ⟨_, rfl⟩
  · intro hflag size
    unfold deriveRelocType
    simp only [Bool.false_eq_true, if_false]
    split
    · exact ⟨_, rfl⟩
    · split
      · exact ⟨_, rfl⟩
      · rename_i h1 h2
        rcases hflag with hf | hf
        · exact absurd hf h1
        · exact absurd hf h2

/-- C25 refuted: on I386 a 16-bit (and a 64-bit) absolute reference to an EXTERN
symbol is converted without error and an I386_ADDR32 relocation is added for
it, and on AMD64 a 64-bit section-relative reference gets an AMD64_SECREL
relocation; no TypeError is raised. -/
theorem C25_i386_size_counterexample :
    standardCoff.m_machine = .MACHINE_I386 ∧
    (exValue 16 exExtern).relative = some exExtern ∧ (exValue 16 exExtern).size = 16 ∧
    (ConvertValueToBytes standardCoff exDataCoffsect
        (sectionMap (Output_numberSections standardCoff exSections)) (exValue 16 exExtern)
        exLoc).2 = .ok ⟨0, 16⟩ ∧
    ((ConvertValueToBytes standardCoff exDataCoffsect
        (sectionMap (Output_numberSections standardCoff exSections)) (exValue 16 exExtern)
        exLoc).1 1).relocs = [⟨.Coff32Reloc, 20, exExtern, .I386_ADDR32⟩] ∧
    (ConvertValueToBytes standardCoff exDataCoffsect
        (sectionMap (Output_numberSections standardCoff exSections)) (exValue 64 exExtern)
        exLoc).2 = .ok ⟨0, 64⟩ ∧
    ((ConvertValueToBytes standardCoff exDataCoffsect
        (sectionMap (Output_numberSections standardCoff exSections)) (exValue 64 exExtern)
        exLoc).1 1).relocs = [⟨.Coff32Reloc, 20, exExtern, .I386_ADDR32⟩] ∧
    win64Coff.m_machine = .MACHINE_AMD64 ∧
    (ConvertValueToBytes win64Coff exDataCoffsect
        (sectionMap (Output_numberSections win64Coff exSections)) (exSecRelValue 64 exExtern)
        exLoc).2 = .ok ⟨0, 64⟩ ∧
    ((ConvertValueToBytes win64Coff exDataCoffsect
        (sectionMap (Output_numberSections win64Coff exSections)) (exSecRelValue 64 exExtern)
        exLoc).1 1).relocs = [⟨.Coff64Reloc, 4, exExtern, .AMD64_SECREL⟩] := by
  refine ⟨rfl, rfl, rfl, rfl, by decide, rfl, by decide, rfl, rfl, by decide⟩

/-- C25 evaluated: a 32-bit PC-relative reference on I386 gets an I386_REL32
relocation, and the Value is 32 bits wide. -/
theorem C25_relocation_size_witness :
    (exPcRelValue 32 exExtern).relative = some exExtern ∧
    (ConvertValueToBytes standardCoff exDataCoffsect
        (sectionMap (Output_numberSections standardCoff exSections)) (exPcRelValue 32 exExtern)
        exLoc).2 = .ok ⟨-4, 32⟩ ∧
    ∃ reloc, (ConvertValueToBytes standardCoff exDataCoffsect
        (sectionMap (Output_numberSections standardCoff exSections)) (exPcRelValue 32 exExtern)
        exLoc).1
        = AddReloc (sectionMap (Output_numberSections standardCoff exSections))
            exLoc.bc.container reloc ∧
      (reloc.rtype ∈ [RelocType.I386_REL32, .AMD64_REL32, .AMD64_REL32_1, .AMD64_REL32_2,
          .AMD64_REL32_3, .AMD64_REL32_4, .AMD64_REL32_5, .AMD64_ADDR32, .AMD64_ADDR32NB] →
        (exPcRelValue 32 exExtern).size = 32) :=
  ⟨rfl, rfl,
    match (C25_relocation_size standardCoff exDataCoffsect
      (sectionMap (Output_numberSections standardCoff exSections)) (exPcRelValue 32 exExtern)
      exLoc exExtern rfl).1 ⟨-4, 32⟩ (by rfl) with
    | ⟨reloc, h1, h2, _, _⟩ => ⟨reloc, h1, h2⟩⟩

/-! ## Symbol numbering -/

/-- One step of the counting loop on an emitted symbol: the symbol gets the
running index on the COFF data it carried in, or on basic data created for it
(external storage class for an EXTERN, GLOBAL or COMMON symbol, static
otherwise, no auxiliary entries), and the loop continues after the index and
the auxiliary entries of that data. -/
theorem CountSymbols_loop_emitted (m_all_syms : Bool) (i : ObjectSymbol)
    (rest : List ObjectSymbol) (indx : Nat)
    (hskipf : (!m_all_syms && decide (i.sym.m_visibility = Symbol.LOCAL)
      && !i.sym.isAbsoluteSymbol) = false) :
    ∃ coffsym0 : CoffSymbol,
      (∀ c0, i.coffsym = some c0 → coffsym0 = c0) ∧
      (i.coffsym = none → coffsym0 =
        if i.sym.m_visibility &&& (Symbol.EXTERN ||| Symbol.GLOBAL ||| Symbol.COMMON) ≠ 0 then
          CoffSymbol.create .SCL_EXT
        else CoffSymbol.create .SCL_STAT) ∧
      CountSymbols_loop m_all_syms (i :: rest) indx =
        ({ i with coffsym := some { coffsym0 with m_index := indx } } ::
            (CountSymbols_loop m_all_syms rest (indx + (coffsym0.m_aux.length + 1))).1,
          (CountSymbols_loop m_all_syms rest (indx + (coffsym0.m_aux.length + 1))).2) := by
  cases hi : i.coffsym with
  | some c0 =>
    refine ⟨c0, fun c1 h1 => by simp at h1; exact h1, fun h => by simp at h, ?_⟩
    simp only [CountSymbols_loop, hskipf, Bool.false_eq_true, if_false, hi]
  | none =>
    refine ⟨_, fun c1 h1 => by simp at h1, fun _ => rfl, ?_⟩
    simp only [CountSymbols_loop, hskipf, Bool.false_eq_true, if_false, hi]

/-- The counting loop from any running index: the emitted symbols are the
symbols that pass the filter, in order, each with the COFF data it carried in
(or basic data created for it); the first has the running index, each later
one the previous index plus 1 plus the previous number of auxiliary entries,
the final index continues after the last, and the symbols that do not pass
the filter are left as they were. -/
theorem CountSymbols_loop_numbering (m_all_syms : Bool) (symbols : List ObjectSymbol)
    (indx : Nat) :
    ∃ coffsyms : List CoffSymbol,
      ((CountSymbols_loop m_all_syms symbols indx).1.filter (isEmitted m_all_syms)).map
          ObjectSymbol.coffsym = coffsyms.map some ∧
      ((CountSymbols_loop m_all_syms symbols indx).1.filter (isEmitted m_all_syms)).map
          ObjectSymbol.sym = (symbols.filter (isEmitted m_all_syms)).map ObjectSymbol.sym ∧
      List.Forall₂
        (fun (i : ObjectSymbol) (c : CoffSymbol) =>
          (∀ c0, i.coffsym = some c0 → c.m_sclass = c0.m_sclass ∧ c.m_aux = c0.m_aux) ∧
          (i.coffsym = none → c.m_aux = [] ∧
            c.m_sclass =
              if i.sym.m_visibility &&& (Symbol.EXTERN ||| Symbol.GLOBAL ||| Symbol.COMMON) ≠ 0
              then .SCL_EXT else .SCL_STAT))
        (symbols.filter (isEmitted m_all_syms)) coffsyms ∧
      (∀ c ∈ coffsyms.head?, c.m_index = indx) ∧
      List.Chain' (fun a b : CoffSymbol => b.m_index = a.m_index + 1 + a.m_aux.length)
        coffsyms ∧
      (CountSymbols_loop m_all_syms symbols indx).2 =
        (match coffsyms.getLast? with
         | none => indx
         | some l => l.m_index + 1 + l.m_aux.length) ∧
      (CountSymbols_loop m_all_syms symbols indx).1.filter (fun i => !isEmitted m_all_syms i)
        = symbols.filter (fun i => !isEmitted m_all_syms i) := by
  induction symbols generalizing indx with
  | nil => exact ⟨[], by simp [CountSymbols_loop]⟩
  | cons i rest ih =>
    by_cases hskip : (!m_all_syms && decide (i.sym.m_visibility = Symbol.LOCAL)
        && !i.sym.isAbsoluteSymbol) = true
    · have hem : isEmitted m_all_syms i = false := by
        simp only [isEmitted, hskip]; rfl
      obtain ⟨cs, h1, h2, hf, h3, h4, h5, h6⟩ := ih indx
      refine ⟨cs, ?_, ?_, ?_, h3, h4, ?_, ?_⟩
      · simp only [CountSymbols_loop, hskip, if_true, List.filter, hem]
        exact h1
      · simp only [CountSymbols_loop, hskip, if_true, List.filter, hem]
        exact h2
      · simp only [List.filter, hem]
        exact hf
      · simp only [CountSymbols_loop, hskip, if_true]
        exact h5
      · simp only [CountSymbols_loop, hskip, if_true, List.filter, hem, Bool.not_false, h6]
    · have hskipf : (!m_all_syms && decide (i.sym.m_visibility = Symbol.LOCAL)
          && !i.sym.isAbsoluteSymbol) = false := by
        simpa using hskip
      have hem : isEmitted m_all_syms i = true := by
        simp only [isEmitted, hskipf]; rfl
      obtain ⟨coffsym0, hsome, hnone, hstep⟩ :=
        CountSymbols_loop_emitted m_all_syms i rest indx hskipf
      rw [hstep]
      obtain ⟨cs, h1, h2, hf, h3, h4, h5, h6⟩ := ih (indx + (coffsym0.m_aux.length + 1))
      have hem1 : isEmitted m_all_syms
          { i with coffsym := some { coffsym0 with m_index := indx } } = true := hem
      refine ⟨{ coffsym0 with m_index := indx } :: cs, ?_, ?_, ?_, ?_, ?_, ?_, ?_⟩
      · simp only [List.filter, hem1, List.map_cons, h1]
      · simp only [List.filter, hem1, hem, List.map_cons, h2]
      · simp only [List.filter, hem]
        refine List.Forall₂.cons ⟨?_, ?_⟩ hf
        · intro c0 hc0
          rw [hsome c0 hc0]
          exact ⟨rfl, rfl⟩
        · intro hn
          rw [hnone hn]
          split <;> exact ⟨rfl, rfl⟩
      · intro c hc
        simp at hc
        rw [← hc]
      · rw [List.chain'_cons']
        refine ⟨?_, h4⟩
        intro y hy
        rw [h3 y hy]
        simp only
        omega
      · rw [h5]
        cases cs with
        | nil => simp; omega
        | cons c cs1 =>
          simp only [List.getLast?_cons_cons]
          cases hl : (c :: cs1).getLast? with
          | none => simp at hl
          | some l => rfl
      · simp only [List.filter, hem1, hem, Bool.not_true, h6]

/-- C26: CountSymbols numbers the emitted symbols, in symbol-table insertion
order, by prefix sums: every emitted symbol keeps the COFF data and auxiliary
entries it carried in (basic data without auxiliary entries is created for a
symbol that has none), the first emitted symbol gets index 0, each later one
the previous emitted symbol's index plus 1 plus that symbol's number of
auxiliary entries, and the returned count is the last index plus 1 plus its
auxiliary entries, 0 when no symbol is emitted; the symbols that are not
emitted are left as they were; OutputSymbolTable then succeeds and writes
exactly the numbered symbols, every one of them with COFF symbol data. -/
theorem C26_symbol_numbering (m_all_syms : Bool) (symbols : List ObjectSymbol) :
    ∃ (written : List ObjectSymbol) (coffsyms : List CoffSymbol),
      OutputSymbolTable m_all_syms (CountSymbols m_all_syms symbols).1 = some written ∧
      written = (CountSymbols m_all_syms symbols).1.filter (isEmitted m_all_syms) ∧
      written.map ObjectSymbol.sym
        = (symbols.filter (isEmitted m_all_syms)).map ObjectSymbol.sym ∧
      written.map ObjectSymbol.coffsym = coffsyms.map some ∧
      List.Forall₂
        (fun (i : ObjectSymbol) (c : CoffSymbol) =>
          (∀ c0, i.coffsym = some c0 → c.m_sclass = c0.m_sclass ∧ c.m_aux = c0.m_aux) ∧
          (i.coffsym = none → c.m_aux = [] ∧
            c.m_sclass =
              if i.sym.m_visibility &&& (Symbol.EXTERN ||| Symbol.GLOBAL ||| Symbol.COMMON) ≠ 0
              then .SCL_EXT else .SCL_STAT))
        (symbols.filter (isEmitted m_all_syms)) coffsyms ∧
      (∀ c ∈ coffsyms.head?, c.m_index = 0) ∧
      List.Chain' (fun a b : CoffSymbol => b.m_index = a.m_index + 1 + a.m_aux.length)
        coffsyms ∧
      (CountSymbols m_all_syms symbols).2 =
        (match coffsyms.getLast? with
         | none => 0
         | some l => l.m_index + 1 + l.m_aux.length) ∧
      (CountSymbols m_all_syms symbols).1.filter (fun i => !isEmitted m_all_syms i)
        = symbols.filter (fun i => !isEmitted m_all_syms i) := by
  obtain ⟨cs, h1, h2, hf, h3, h4, h5, h6⟩ := CountSymbols_loop_numbering m_all_syms symbols 0
  refine ⟨_, cs, ?_, rfl, h2, h1, hf, h3, h4, h5, h6⟩
  exact OutputSymbolTable_counted m_all_syms symbols 0

/-- The numbering of an example object: the file symbol with its auxiliary
entry takes indices 0 and 1, the local symbol is skipped, the global label gets
index 2 and the absolute symbol index 3; the count is 4 and the three numbered
symbols are written. -/
theorem CountSymbols_example :
    (CountSymbols false exSymbols).2 = 4 ∧
    (CountSymbols false exSymbols).1.map ObjectSymbol.coffsym
      = [some ⟨.SCL_FILE, 0, [⟨"a.asm"⟩]⟩, none, some ⟨.SCL_EXT, 2, []⟩,
         some ⟨.SCL_STAT, 3, []⟩] ∧
    (OutputSymbolTable false (CountSymbols false exSymbols).1).map
        (fun l => l.map (fun i => i.sym.m_name))
      = some [".file", "main", ""] := by
  decide

/-- C26 evaluated on the example object: the file symbol keeps its auxiliary
entry and takes indices 0 and 1, the global label gets index 2 and the absolute
symbol index 3, the count is 4, and these three symbols are written. -/
theorem C26_symbol_numbering_witness :
    (∃ (written : List ObjectSymbol) (coffsyms : List CoffSymbol),
      OutputSymbolTable false (CountSymbols false exSymbols).1 = some written ∧
      written = (CountSymbols false exSymbols).1.filter (isEmitted false) ∧
      written.map ObjectSymbol.sym
        = (exSymbols.filter (isEmitted false)).map ObjectSymbol.sym ∧
      written.map ObjectSymbol.coffsym = coffsyms.map some ∧
      List.Forall₂
        (fun (i : ObjectSymbol) (c : CoffSymbol) =>
          (∀ c0, i.coffsym = some c0 → c.m_sclass = c0.m_sclass ∧ c.m_aux = c0.m_aux) ∧
          (i.coffsym = none → c.m_aux = [] ∧
            c.m_sclass =
              if i.sym.m_visibility &&& (Symbol.EXTERN ||| Symbol.GLOBAL ||| Symbol.COMMON) ≠ 0
              then .SCL_EXT else .SCL_STAT))
        (exSymbols.filter (isEmitted false)) coffsyms ∧
      (∀ c ∈ coffsyms.head?, c.m_index = 0) ∧
      List.Chain' (fun a b : CoffSymbol => b.m_index = a.m_index + 1 + a.m_aux.length)
        coffsyms ∧
      (CountSymbols false exSymbols).2 =
        (match coffsyms.getLast? with
         | none => 0
         | some l => l.m_index + 1 + l.m_aux.length) ∧
      (CountSymbols false exSymbols).1.filter (fun i => !isEmitted false i)
        = exSymbols.filter (fun i => !isEmitted false i)) ∧
    (CountSymbols false exSymbols).1.filter (isEmitted false)
      = [⟨exSymbols[0].sym, some ⟨.SCL_FILE, 0, [⟨"a.asm"⟩]⟩⟩,
         ⟨exGlobalSym, some ⟨.SCL_EXT, 2, []⟩⟩, ⟨exAbsSym, some ⟨.SCL_STAT, 3, []⟩⟩] ∧
    (CountSymbols false exSymbols).2 = 4 :=
  ⟨C26_symbol_numbering false exSymbols, by decide, by decide⟩

/-! ## Relocation overflow and the section size check -/

/-- Under offset monotonicity from `o`, the next offset of the last bytecode is
`o` plus the sum of the total lengths. -/
theorem offsetsFrom_last (bcs : List SectBytecode) (o : Nat) (bc : SectBytecode)
    (hmono : offsetsFrom o bcs = true) (hlast : bcs.getLast? = some bc) :
    bc.offset + bc.totalLen = o + (bcs.map SectBytecode.totalLen).sum := by
  induction bcs generalizing o with
  | nil => simp at hlast
  | cons b rest ih =>
    simp only [offsetsFrom, Bool.and_eq_true, decide_eq_true_eq] at hmono
    cases rest with
    | nil =>
      simp at hlast
      subst hlast
      simp [hmono.1]
    | cons b2 rest2 =>
      rw [List.getLast?_cons_cons] at hlast
      have := ih (o + b.totalLen) hmono.2 hlast
      rw [this]
      simp only [List.map_cons, List.sum_cons]
      omega

/-- When the bytecode offsets start at 0 and satisfy offset monotonicity and no
bytecode of the section raised an error, the size `OutputSection` accumulates is
the last bytecode's next offset: the asserted condition holds whenever it is
evaluated. -/
theorem OutputSection_size_assertion (objfmt : CoffObject) (tell : List Chunk → Int) (c : Nat)
    (sect : SectionContents) (st : OutState)
    (hmono : offsetsFrom 0 sect.bytecodes = true)
    (hnoerr : (outputBytecodes objfmt (if sect.isBSS then .noOutput else .stream)
        (st.sects c).coffsect sect.bytecodes st 0).1.errwarns = st.errwarns) :
    (OutputSection objfmt tell c sect st).2.1.sizeAssertion = none ∨
    (OutputSection objfmt tell c sect st).2.1.sizeAssertion = some true := by
  have hbody : ∀ (w : Writer) (pos : Nat),
      (outputBytecodes objfmt w (st.sects c).coffsect sect.bytecodes st 0).1.errwarns
        = st.errwarns →
      (OutputSection_body objfmt tell c sect st w pos).2.1.sizeAssertion = some true := by
    intro w pos hne
    have hsize := (outputBytecodes_size objfmt w (st.sects c).coffsect sect.bytecodes st 0).2 hne
    have hlast : bytecodes_last_getNextOffset sect.bytecodes
        = (sect.bytecodes.map SectBytecode.totalLen).sum := by
      unfold bytecodes_last_getNextOffset
      cases hl : sect.bytecodes.getLast? with
      | none =>
        have : sect.bytecodes = [] := by simpa using hl
        simp [this]
      | some bc =>
        simp only
        rw [offsetsFrom_last sect.bytecodes 0 bc hmono hl]
        omega
    have hsane : decide ((outputBytecodes objfmt w (st.sects c).coffsect sect.bytecodes st 0).2
        = bytecodes_last_getNextOffset sect.bytecodes) = true := by
      rw [hsize, hlast]
      simp
    unfold OutputSection_body
    simp only [hsane]
    split
    · rfl
    · split <;> rfl
  unfold OutputSection
  cases hb : sect.isBSS
  · rw [hb] at hnoerr
    simp only [Bool.false_eq_true, if_false] at hnoerr ⊢
    split
    · exact Or.inl rfl
    · split
      · exact Or.inl rfl
      · exact Or.inr (hbody .stream _ hnoerr)
  · rw [hb] at hnoerr
    simp only [if_true] at hnoerr ⊢
    exact Or.inr (hbody .noOutput 0 hnoerr)

/-- C23, the code at the failing input: for a `.data` section whose bytecode
offsets start at 0 and satisfy offset monotonicity (lengths 0, 4 and 8 at
offsets 0, 0 and 4) and whose second bytecode holds a Value that
ConvertValueToBytes rejects, the size OutputSection accumulates is 8 while the
last bytecode's next offset is 12, and the asserted condition is false. -/
theorem C23_size_assertion_on_error :
    exDataFailing.isBSS = false ∧
    offsetsFrom 0 exDataFailing.bytecodes = true ∧
    bytecodes_last_getNextOffset exDataFailing.bytecodes = 12 ∧
    (OutputSection win32Coff exTell 1 exDataFailing exOutState).2.1
      = ⟨some 100, some 8, some false, none⟩ ∧
    (OutputSection win32Coff exTell 1 exDataFailing exOutState).2.2 = .ok () ∧
    (OutputSection win32Coff exTell 1 exDataFailing exOutState).1.errwarns
      = [.error ⟨11⟩ (.TooComplexError "elf: relocation too complex")] := by
  refine ⟨rfl, by decide, by decide, by decide, rfl, by decide⟩

/-! ## Properties of `objfmt::BinSimplify` -/

/-- C28 (amended): BinSimplify rewrites an expression term by term in place,
keeping the number and order of terms.  A symbol term that is a bin special
symbol whose value is known is replaced by that value (LMA for start, VMA for
vstart, the length for length), also when the symbol is a label as well;
every other symbol term that is a label, and every location term, whose
distance d from the first bytecode of its container can be computed is
replaced by the integer VMA(section) + d; every other term is unchanged. -/
theorem C28_BinSimplify_terms (obj : BinObjectView) (e : Expr) :
    (BinSimplify obj e).terms.length = e.terms.length ∧
    ∀ (k : Nat) (t : ExprTerm), e.terms[k]? = some t →
      ∃ t1, (BinSimplify obj e).terms[k]? = some t1 ∧
        (∀ sym b, t = .Sym sym → obj.getBinSymbol sym = some b →
          (b.m_which = .START → b.m_bsd.has_istart = true →
            t1 = .IntNum ((obj.sects b.m_sect).lma : Int)) ∧
          (b.m_which = .VSTART → b.m_bsd.has_ivstart = true →
            t1 = .IntNum ((obj.sects b.m_sect).vma : Int)) ∧
          (b.m_which = .LENGTH → b.m_bsd.has_length = true →
            t1 = .IntNum b.m_bsd.length)) ∧
        (∀ sym loc d, t = .Sym sym → getBinSSymValue obj sym = none →
          obj.getLabel sym = some loc →
          CalcDist ⟨obj.bytecodes_front loc.bc.container, 0⟩ loc = some d →
          t1 = .IntNum (d + ((obj.sects (obj.getSection loc.bc.container)).vma : Int))) ∧
        (∀ loc d, t = .Loc loc →
          CalcDist ⟨obj.bytecodes_front loc.bc.container, 0⟩ loc = some d →
          t1 = .IntNum (d + ((obj.sects (obj.getSection loc.bc.container)).vma : Int))) ∧
        (∀ sym, t = .Sym sym → getBinSSymValue obj sym = none →
          (obj.getLabel sym = none ∨ ∃ loc, obj.getLabel sym = some loc ∧
            CalcDist ⟨obj.bytecodes_front loc.bc.container, 0⟩ loc = none) →
          t1 = t) ∧
        (∀ loc, t = .Loc loc →
          CalcDist ⟨obj.bytecodes_front loc.bc.container, 0⟩ loc = none → t1 = t) ∧
        (∀ n, t = .IntNum n → t1 = t) ∧
        (∀ code, t = .Other code → t1 = t) := by
  refine ⟨by simp [BinSimplify], ?_⟩
  intro k t hk
  refine ⟨BinSimplify_term obj t, by simp [BinSimplify, hk], ?_, ?_, ?_, ?_, ?_, ?_, ?_⟩
  · intro sym b ht hb
    subst ht
    refine ⟨?_, ?_, ?_⟩
    · intro hw hf
      simp [BinSimplify_term, getBinSSymValue, hb, BinSymbol.getValue, hw, hf]
    · intro hw hf
      simp [BinSimplify_term, getBinSSymValue, hb, BinSymbol.getValue, hw, hf]
    · intro hw hf
      simp [BinSimplify_term, getBinSSymValue, hb, BinSymbol.getValue, hw, hf]
  · intro sym loc d ht hs hl hd
    subst ht
    simp [BinSimplify_term, hs, hl, hd]
  · intro loc d ht hd
    subst ht
    simp [BinSimplify_term, hd]
  · intro sym ht hs hl
    subst ht
    rcases hl with hl | ⟨loc, hl, hd⟩
    · simp [BinSimplify_term, hs, hl]
    · simp [BinSimplify_term, hs, hl, hd]
  · intro loc ht hd
    subst ht
    simp [BinSimplify_term, hd]
  · intro n ht
    subst ht
    simp [BinSimplify_term]
  · intro code ht
    subst ht
    simp [BinSimplify_term]

/-- C28 refuted: a symbol that is a label (at distance 8 from the first
bytecode of a section with VMA 0x200) and also the section's start symbol with
a known value (LMA 0x100) is replaced by 0x100, not by VMA + d = 0x208. -/
theorem C28_special_label_counterexample :
    exBinObject.getLabel "section..text.start" = some ⟨⟨0, 8⟩, 0⟩ ∧
    CalcDist ⟨exBinObject.bytecodes_front 0, 0⟩ ⟨⟨0, 8⟩, 0⟩ = some 8 ∧
    (exBinObject.sects (exBinObject.getSection 0)).vma = 0x200 ∧
    getBinSSymValue exBinObject "section..text.start" = some 0x100 ∧
    BinSimplify exBinObject ⟨[.Sym "section..text.start"]⟩ = ⟨[.IntNum 0x100]⟩ ∧
    BinSimplify exBinObject ⟨[.Sym "section..text.start"]⟩ ≠ ⟨[.IntNum (0x200 + 8)]⟩ := by
  decide

/-- C28 evaluated: in `lab + section..text.start * section..text.length - 1`
at a location, the label becomes VMA + 4, the start symbol the LMA, the
location VMA + 12; the length symbol, whose value is not known yet, the
integer and the operators stay. -/
theorem C28_BinSimplify_terms_witness :
    (⟨[.Sym "lab", .Sym "section..text.start", .Sym "section..text.length", .Other 1,
        .Loc ⟨⟨0, 12⟩, 0⟩, .IntNum 1, .Other 2]⟩ : Expr).terms[0]? = some (.Sym "lab") ∧
    BinSimplify exBinObject
        ⟨[.Sym "lab", .Sym "section..text.start", .Sym "section..text.length", .Other 1,
          .Loc ⟨⟨0, 12⟩, 0⟩, .IntNum 1, .Other 2]⟩
      = ⟨[.IntNum 0x204, .IntNum 0x100, .Sym "section..text.length", .Other 1,
          .IntNum 0x20c, .IntNum 1, .Other 2]⟩ ∧
    ∃ t1, (BinSimplify exBinObject
        ⟨[.Sym "lab", .Sym "section..text.start", .Sym "section..text.length", .Other 1,
          .Loc ⟨⟨0, 12⟩, 0⟩, .IntNum 1, .Other 2]⟩).terms[0]? = some t1 ∧
      t1 = .IntNum (4 + 0x200) :=
  ⟨rfl, by decide,
    match (C28_BinSimplify_terms exBinObject
        ⟨[.Sym "lab", .Sym "section..text.start", .Sym "section..text.length", .Other 1,
          .Loc ⟨⟨0, 12⟩, 0⟩, .IntNum 1, .Other 2]⟩).2 0 (.Sym "lab") rfl with
    | ⟨t1, h1, _, h3, _⟩ =>
      ⟨t1, h1, h3 "lab" ⟨⟨0, 4⟩, 0⟩ 4 rfl (by decide) (by decide) (by decide)⟩⟩

end Yasm
